import Mathlib

/-!
# Rust-Puker: verification of the dungeon/combat core

A shallow embedding, in Lean 4, of the dungeon-generation and room-combat
core of the Rust-Puker repository (src/dungeon.rs, src/utils.rs,
src/player.rs, src/consts.rs), together with theorems settling the frozen
claims C1..C10 about it.

Modelling conventions:
* Rust `f32` scalars are modelled as `ℚ` wherever the code only performs
  field operations and comparisons.  Where the code takes a Euclidean
  length (`Vec2::length`, `Vec2::normalize`, `Vec2::distance`) the
  geometry kernel is parameterised over a `LinearOrderedField` `K`
  together with a square-root function `sqrt : K → K`; theorems that need
  genuine square roots instantiate `K := ℝ`, `sqrt := Real.sqrt`, while
  witnesses and counterexamples evaluate at inputs whose lengths are
  exact so that the `sqrt` facts they need are provable by `norm_num`.
* `ray_vs_rect` is about IEEE special values, so it alone is embedded
  over `EFloat`, an explicit model of f32 with `nan` and signed
  infinities (and a single unsigned zero).
* Rust's `thread_rng` draws are modelled by an explicit oracle `Rng`
  holding the sequence of boolean, integer-range and unit-float draws;
  every `gen_bool`/`gen_range`/`gen::<f32>` call consumes one entry, in
  source order.  Claims about "every generated dungeon" quantify over
  the oracle (and over the fuel of the source's unbounded retry loops).
* Rust panics (out-of-bounds indexing, `unreachable!`) are modelled by
  `Option`: `none` is a panic.
-/

namespace Puker

/-! ## Scalar constants (src/consts.rs) -/

def PLAYER_SCALE : ℚ := 6/10
def PLAYER_SHOOT_RATE : ℚ := 5/2
def PLAYER_SHOOT_RANGE : ℚ := 400
def PLAYER_HEALTH : ℚ := 3
def PLAYER_SPEED : ℚ := 5
def PLAYER_DAMAGE : ℚ := 1
def PLAYER_DAMAGED_COOLDOWN : ℚ := 1
def PLAYER_AFTERLOCK_COOLDOWN : ℚ := 1/2
def ANIMATION_COOLDOWN : ℚ := 1/2
def ENEMY_DAMAGE : ℚ := 1/2
def COLLECTABLE_SCALE : ℚ := 4/10
def WALL_SCALE : ℚ := 1
def ENEMY_SCALE : ℚ := 8/10
def SHOT_SPEED : ℚ := 6
def SHOT_SCALE : ℚ := 3/10

def DUNGEON_GRID_ROWS : Nat := 8
def DUNGEON_GRID_COLS : Nat := 9
def ROOM_WIDTH : Nat := 15
def ROOM_HEIGHT : Nat := 9

/-- `i32::MAX`. -/
def i32MAX : Int := 2147483647

/-- `i32::MIN`. -/
def i32MIN : Int := -2147483648

/-! ## The random-draw oracle -/

/-- Oracle for `thread_rng()`: the pre-drawn sequences of boolean draws
(`gen_bool(p)` for any `p`), bounded integer draws (`gen_range(0..n)`)
and unit-interval float draws (`gen::<f32>()`).  Each call consumes the
head of the corresponding list; an exhausted list yields the default
(`false`, `0`, `0`), which is harmless because every theorem about a
random computation is conditional on its observable outcome. -/
structure Rng where
  bools : List Bool
  nats : List Nat
  rats : List ℚ
deriving Repr

/-- One `gen_bool(p)` draw (the probability only shapes the distribution,
not the value sequence, so it is not part of the model). -/
def Rng.drawBool : Rng → Bool × Rng
  | ⟨[], ns, qs⟩ => (false, ⟨[], ns, qs⟩)
  | ⟨b :: bs, ns, qs⟩ => (b, ⟨bs, ns, qs⟩)

/-- One `gen_range(0..n)` draw; the `% n` keeps the drawn value in range,
as `gen_range` guarantees. -/
def Rng.drawNat : Rng → Nat → Nat × Rng
  | ⟨bs, [], qs⟩, _ => (0, ⟨bs, [], qs⟩)
  | ⟨bs, k :: ns, qs⟩, n => (k % n, ⟨bs, ns, qs⟩)

/-- One `gen::<f32>()` draw (a float in `[0,1)`). -/
def Rng.drawRat : Rng → ℚ × Rng
  | ⟨bs, ns, []⟩ => (0, ⟨bs, ns, []⟩)
  | ⟨bs, ns, q :: qs⟩ => (q, ⟨bs, ns, qs⟩)

/-! ## Shared enums (src/utils.rs, src/dungeon.rs) -/

/-- `utils::ActorState`. -/
inductive ActorState where
  | Base
  | Shoot
  | Dead
  | Damaged
deriving DecidableEq, Repr

/-- `utils::Direction`. -/
inductive Direction where
  | North
  | South
  | East
  | West
deriving DecidableEq, Repr

/-! ## Items (missing from the src/ snapshot)

The `Item` struct itself is absent from the src/ snapshot (consts.rs and
player.rs/dungeon.rs only use it).  Modelled from the spec: "Item —
{tag: Active(Heal(amount)) | Passive(IncreaseMaxHealth(amount)),
cooldown}". -/

/-- Modelled from the spec: the passive item effects (only
`IncreaseMaxHealth`). -/
inductive ItemPassive where
  | IncreaseMaxHealth (amount : ℚ)
deriving DecidableEq, Repr

/-- Modelled from the spec: the active item effects (only `Heal`). -/
inductive ItemActive where
  | Heal (amount : ℚ)
deriving DecidableEq, Repr

/-- Modelled from the spec: an item is an active or passive effect tag. -/
inductive ItemTag where
  | Active (a : ItemActive)
  | Passive (p : ItemPassive)
deriving DecidableEq, Repr

/-- Modelled from the spec: `Item` owns its effect tag and a cooldown. -/
structure Item where
  tag : ItemTag
  cooldown : ℚ
deriving DecidableEq, Repr

/-! ## Player (src/player.rs) -/

/-- `utils::ActorProps` over rational coordinates. -/
structure ActorProps where
  posX : ℚ
  posY : ℚ
  scaleX : ℚ
  scaleY : ℚ
  translationX : ℚ
  translationY : ℚ
  forwardX : ℚ
  forwardY : ℚ
  velocityX : ℚ
  velocityY : ℚ
deriving DecidableEq, Repr

/-- `player::Player` (the fields `Player::damage` touches plus the rest of
the struct, so that "complete no-op" is about the whole value). -/
structure Player where
  props : ActorProps
  speed : ℚ
  state : ActorState
  health : ℚ
  max_health : ℚ
  damage : ℚ
  shoot_rate : ℚ
  shoot_range : ℚ
  shoot_timeout : ℚ
  damaged_cooldown : ℚ
  animation_cooldown : ℚ
  afterlock_cooldown : ℚ
  item : Option Item
deriving DecidableEq, Repr

/-- `Player::damage` (src/player.rs lines 137-144): only acts when
`damaged_cooldown <= 0`; it then subtracts the damage from health, enters
the `Damaged` state, resets `damaged_cooldown` to
`PLAYER_DAMAGED_COOLDOWN`, and sets `animation_cooldown` to
`ANIMATION_COOLDOWN` divided by the just-reset cooldown. -/
def Player.applyDamage (p : Player) (dmg : ℚ) : Player :=
  if p.damaged_cooldown ≤ 0 then
    let p1 := { p with
      health := p.health - dmg,
      state := ActorState.Damaged,
      damaged_cooldown := PLAYER_DAMAGED_COOLDOWN }
    { p1 with animation_cooldown := ANIMATION_COOLDOWN / p1.damaged_cooldown }
  else p

/-- C9: whenever the player's `damaged_cooldown` is positive,
`Player::damage` is a complete no-op (the whole `Player` value, hence
health, state, `damaged_cooldown` and `animation_cooldown`, is
unchanged) for every damage amount; and a hit that does land resets
`damaged_cooldown` to `PLAYER_DAMAGED_COOLDOWN = 1` second, so every
successful hit opens a 1-second window in which all further damage is
ignored. -/
theorem player_damaged_cooldown_invulnerability (p : Player) (dmg : ℚ) :
    (0 < p.damaged_cooldown → p.applyDamage dmg = p) ∧
    (p.damaged_cooldown ≤ 0 →
      (p.applyDamage dmg).damaged_cooldown = PLAYER_DAMAGED_COOLDOWN ∧
      (p.applyDamage dmg).health = p.health - dmg ∧
      (p.applyDamage dmg).state = ActorState.Damaged ∧
      PLAYER_DAMAGED_COOLDOWN = 1) := by
  constructor
  · intro h
    have : ¬ p.damaged_cooldown ≤ 0 := not_le.mpr h
    simp [Player.applyDamage, this]
  · intro h
    simp [Player.applyDamage, h, PLAYER_DAMAGED_COOLDOWN]

/-- A concrete player mid-invulnerability-window (cooldown 1/2). -/
def playerOnCooldown : Player :=
  { props := ⟨640, 360, PLAYER_SCALE, PLAYER_SCALE, 0, 0, 0, 0, 0, 0⟩
    speed := PLAYER_SPEED
    state := ActorState.Base
    health := PLAYER_HEALTH
    max_health := PLAYER_HEALTH
    damage := PLAYER_DAMAGE
    shoot_rate := PLAYER_SHOOT_RATE
    shoot_range := PLAYER_SHOOT_RANGE
    shoot_timeout := 0
    damaged_cooldown := 1/2
    animation_cooldown := 0
    afterlock_cooldown := 0
    item := none }

/-- C9 witness: a hit of 2 on a player half-way through the cooldown
window changes nothing, and a fresh player takes damage and starts the
1-second window. -/
theorem player_damaged_cooldown_invulnerability_witness :
    playerOnCooldown.applyDamage 2 = playerOnCooldown ∧
    ({ playerOnCooldown with damaged_cooldown := 0 }.applyDamage 2).damaged_cooldown = 1 :=
  ⟨(player_damaged_cooldown_invulnerability playerOnCooldown 2).1 (by norm_num [playerOnCooldown]),
   by
    have h := (player_damaged_cooldown_invulnerability
      { playerOnCooldown with damaged_cooldown := 0 } 2).2 (by norm_num)
    rw [h.1, h.2.2.2]⟩

/-! ## Geometry kernel (src/utils.rs)

The kernel is generic over a `LinearOrderedField` `K` plus a square-root
function `sqrt : K → K` standing for `f32::sqrt`; theorems either
instantiate `K := ℝ`, `sqrt := Real.sqrt`, or take the square-root facts
they need as hypotheses. -/

/-- `glam::Vec2` over an arbitrary scalar field. -/
structure Vec2 (K : Type) where
  x : K
  y : K
deriving DecidableEq, Repr

/-- `ggez::graphics::Rect` (top-left corner plus extents). -/
structure Rect (K : Type) where
  x : K
  y : K
  w : K
  h : K
deriving DecidableEq, Repr

section Geometry

variable {K : Type} [LinearOrderedField K]

/-- Componentwise vector sum. -/
def Vec2.add (a b : Vec2 K) : Vec2 K := ⟨a.x + b.x, a.y + b.y⟩

/-- Componentwise vector difference. -/
def Vec2.sub (a b : Vec2 K) : Vec2 K := ⟨a.x - b.x, a.y - b.y⟩

/-- Scalar multiple of a vector. -/
def Vec2.smul (k : K) (a : Vec2 K) : Vec2 K := ⟨k * a.x, k * a.y⟩

/-- `Vec2::dot`. -/
def Vec2.dot (a b : Vec2 K) : K := a.x * b.x + a.y * b.y

/-- `Vec2::length_squared`. -/
def Vec2.lengthSq (a : Vec2 K) : K := a.x * a.x + a.y * a.y

/-- `Vec2::length`, through the supplied square root. -/
def Vec2.len (sqrt : K → K) (a : Vec2 K) : K := sqrt a.lengthSq

/-- `Vec2::distance`. -/
def Vec2.dist (sqrt : K → K) (a b : Vec2 K) : K := (a.sub b).len sqrt

/-- `Vec2::normalize` (`self * (1/length)`; glam's NaN for the zero
vector is the field's `1/0 = 0` here, and every theorem that normalizes
assumes a positive length). -/
def Vec2.normalize (sqrt : K → K) (a : Vec2 K) : Vec2 K :=
  Vec2.smul (1 / a.len sqrt) a

/-- `utils::circle_vs_circle`: strict overlap test on centre distance.
A circle is a centre paired with its radius. -/
def circle_vs_circle (sqrt : K → K) (c1 c2 : Vec2 K × K) : Prop :=
  Vec2.dist sqrt c1.1 c2.1 < c1.2 + c2.2

/-- `utils::dynamic_circle_vs_rect`, the `contact_point` assignment:
the circle centre clamped to the rectangle's bounds. -/
def dcvrContactPoint (source : Vec2 K × K) (target : Rect K) : Vec2 K :=
  ⟨max target.x (min (target.x + target.w) source.1.x),
   max target.y (min (target.y + target.h) source.1.y)⟩

/-- `utils::dynamic_circle_vs_rect`, the `contact_normal` assignment:
`*contact_point - source_pos`. -/
def dcvrContactNormal (source : Vec2 K × K) (target : Rect K) : Vec2 K :=
  (dcvrContactPoint source target).sub source.1

/-- `utils::dynamic_circle_vs_rect`, the `contact_time` assignment:
`source_r - contact_normal.length()` (its `is_nan` guard cannot fire over
a field, where lengths of finite vectors are finite). -/
def dcvrContactTime (sqrt : K → K) (source : Vec2 K × K) (target : Rect K) : K :=
  source.2 - (dcvrContactNormal source target).len sqrt

/-- `utils::dynamic_circle_vs_rect`, the returned flag:
`*contact_time > 0`. -/
def dynamic_circle_vs_rect (sqrt : K → K) (source : Vec2 K × K) (target : Rect K) : Prop :=
  0 < dcvrContactTime sqrt source target

/-- `utils::dynamic_circle_vs_circle`: `some (vel1, vel2)` when the
circles overlap (the two out-parameters), `none` otherwise (out-params
untouched).  Masses are radius × 100; `m1`/`m2` is the 1-D elastic
formula along the centre-to-centre normal. -/
def dynamic_circle_vs_circle (sqrt : K → K) (c1 : Vec2 K × K) (c1_vel : Vec2 K)
    (c2 : Vec2 K × K) (c2_vel : Vec2 K) [Decidable (circle_vs_circle sqrt c1 c2)] :
    Option (Vec2 K × Vec2 K) :=
  if circle_vs_circle sqrt c1 c2 then
    let c1_mass := c1.2 * 100
    let c2_mass := c2.2 * 100
    let norm := Vec2.normalize sqrt (c1.1.sub c2.1)
    let tan : Vec2 K := ⟨-norm.y, norm.x⟩
    let dp_tan : Vec2 K := ⟨c1_vel.dot tan, c2_vel.dot tan⟩
    let dp_norm : Vec2 K := ⟨c1_vel.dot norm, c2_vel.dot norm⟩
    let m1 := (dp_norm.x * (c1_mass - c2_mass) + 2 * c2_mass * dp_norm.y) / (c1_mass + c2_mass)
    let m2 := (dp_norm.y * (c2_mass - c1_mass) + 2 * c1_mass * dp_norm.x) / (c1_mass + c2_mass)
    some ((Vec2.smul dp_tan.x tan).add (Vec2.smul m1 norm),
          (Vec2.smul dp_tan.y tan).add (Vec2.smul m2 norm))
  else none

/-- `utils::resolve_environment_collision`, lines 335-339 (the velocity
update): the first output of `dynamic_circle_vs_circle` is added to body
1's velocity and the second is subtracted from body 2's velocity; on no
collision both velocities are untouched.  (The preceding positional
separation of lines 329-333 is a separate effect not quoted by any
claim.) -/
def resolveVelocityUpdate (sqrt : K → K) (c1 : Vec2 K × K) (c1_vel : Vec2 K)
    (c2 : Vec2 K × K) (c2_vel : Vec2 K) [Decidable (circle_vs_circle sqrt c1 c2)] :
    Vec2 K × Vec2 K :=
  match dynamic_circle_vs_circle sqrt c1 c1_vel c2 c2_vel with
  | some (vel1, vel2) => (c1_vel.add vel1, c2_vel.sub vel2)
  | none => (c1_vel, c2_vel)

end Geometry

/-! ### C6: `dynamic_circle_vs_rect` -/

/-- Clamping a scalar to `[a, b]` (as `max a (min b c)`) gets at least as
close to `c` as any point of `[a, b]`. -/
lemma clamp_sq_le {K : Type} [LinearOrderedField K] (a b c q : K)
    (h1 : a ≤ q) (h2 : q ≤ b) :
    (max a (min b c) - c) ^ 2 ≤ (q - c) ^ 2 := by
  rcases le_total c a with hca | hac
  · have : min b c = c := min_eq_right (hca.trans (h1.trans h2))
    rw [this, max_eq_left hca]
    nlinarith
  · rcases le_total c b with hcb | hbc
    · have : min b c = c := min_eq_right hcb
      rw [this, max_eq_right hac]
      nlinarith
    · have : min b c = b := min_eq_left hbc
      rw [this, max_eq_right (h1.trans h2)]
      nlinarith

/-- C6, amended: `dynamic_circle_vs_rect` computes the contact point by
clamping the circle centre to the rectangle's bounds — and that clamp
really is a nearest point of the rectangle — it reports a hit exactly
when the radius minus the distance from the contact point to the centre
is positive, and on a hit the contact normal is the vector **from the
circle centre to the nearest point** (`contact_point - source_pos`), the
reverse of the direction the claim states. -/
theorem dynamic_circle_vs_rect_spec (c : Vec2 ℝ) (r : ℝ) (t : Rect ℝ) :
    (∀ q : Vec2 ℝ, t.x ≤ q.x → q.x ≤ t.x + t.w → t.y ≤ q.y → q.y ≤ t.y + t.h →
      ((dcvrContactPoint (c, r) t).sub c).lengthSq ≤ (q.sub c).lengthSq) ∧
    (dynamic_circle_vs_rect Real.sqrt (c, r) t ↔
      Real.sqrt (((dcvrContactPoint (c, r) t).sub c).lengthSq) < r) ∧
    dcvrContactNormal (c, r) t = (dcvrContactPoint (c, r) t).sub c := by
  refine ⟨?_, ?_, rfl⟩
  · intro q hx1 hx2 hy1 hy2
    have hX := clamp_sq_le t.x (t.x + t.w) c.x q.x hx1 hx2
    have hY := clamp_sq_le t.y (t.y + t.h) c.y q.y hy1 hy2
    simp only [dcvrContactPoint, Vec2.sub, Vec2.lengthSq]
    nlinarith
  · unfold dynamic_circle_vs_rect dcvrContactTime dcvrContactNormal Vec2.len
    constructor
    · intro h
      linarith
    · intro h
      linarith

/-- C6 counterexample: for the unit-area test circle centred at the
origin with radius 2 against the rectangle `[1,3] × [-1,1]`, the function
reports a hit and returns the contact normal `(1,0)`, which has negative
dot product with the direction from the nearest point `(1,0)` toward the
circle centre `(0,0)` — the normal points from the centre toward the
nearest point, not the other way as the claim states. -/
theorem dynamic_circle_vs_rect_normal_counterexample :
    dynamic_circle_vs_rect Real.sqrt (⟨(0 : ℝ), 0⟩, 2) ⟨1, -1, 2, 2⟩ ∧
    dcvrContactNormal (⟨(0 : ℝ), 0⟩, 2) ⟨1, -1, 2, 2⟩ = ⟨1, 0⟩ ∧
    Vec2.dot (dcvrContactNormal (⟨(0 : ℝ), 0⟩, 2) ⟨1, -1, 2, 2⟩)
      (Vec2.sub ⟨0, 0⟩ (dcvrContactPoint (⟨(0 : ℝ), 0⟩, 2) ⟨1, -1, 2, 2⟩)) < 0 := by
  have hpt : dcvrContactPoint (⟨(0 : ℝ), 0⟩, 2) ⟨1, -1, 2, 2⟩ = ⟨1, 0⟩ := by
    simp only [dcvrContactPoint]
    norm_num
  have hnorm : dcvrContactNormal (⟨(0 : ℝ), 0⟩, 2) ⟨1, -1, 2, 2⟩ = ⟨1, 0⟩ := by
    rw [dcvrContactNormal, hpt]
    simp [Vec2.sub]
  refine ⟨?_, hnorm, ?_⟩
  · unfold dynamic_circle_vs_rect dcvrContactTime Vec2.len
    rw [hnorm]
    simp only [Vec2.lengthSq]
    norm_num [Real.sqrt_one]
  · rw [hnorm, hpt]
    simp [Vec2.dot, Vec2.sub]

/-- C6 witness: the amended statement applied to that same circle and
rectangle. -/
theorem dynamic_circle_vs_rect_spec_witness :
    (∀ q : Vec2 ℝ, (1 : ℝ) ≤ q.x → q.x ≤ 1 + 2 → (-1 : ℝ) ≤ q.y → q.y ≤ -1 + 2 →
      ((dcvrContactPoint (⟨(0 : ℝ), 0⟩, 2) ⟨1, -1, 2, 2⟩).sub ⟨0, 0⟩).lengthSq ≤
        (q.sub ⟨0, 0⟩).lengthSq) ∧
    (dynamic_circle_vs_rect Real.sqrt (⟨(0 : ℝ), 0⟩, 2) ⟨1, -1, 2, 2⟩ ↔
      Real.sqrt (((dcvrContactPoint (⟨(0 : ℝ), 0⟩, 2) ⟨1, -1, 2, 2⟩).sub ⟨0, 0⟩).lengthSq) < 2) ∧
    dcvrContactNormal (⟨(0 : ℝ), 0⟩, 2) ⟨1, -1, 2, 2⟩ =
      (dcvrContactPoint (⟨(0 : ℝ), 0⟩, 2) ⟨1, -1, 2, 2⟩).sub ⟨0, 0⟩ :=
  dynamic_circle_vs_rect_spec ⟨0, 0⟩ 2 ⟨1, -1, 2, 2⟩

/-! ### C7: `dynamic_circle_vs_circle` + `resolve_environment_collision` -/

/-- The strict-overlap test of the circle kernel is decidable whenever
the scalar order is. -/
instance circleVsCircleDec {K : Type} [LinearOrderedField K] (sqrt : K → K)
    (c1 c2 : Vec2 K × K) [h : ∀ a b : K, Decidable (a < b)] :
    Decidable (circle_vs_circle sqrt c1 c2) := h _ _

/-- C7, amended: for two overlapping equal-radius circles with opposite
velocities `u` and `-u`, the outputs of `dynamic_circle_vs_circle` are
the post-collision velocities of the 1-D elastic formula, not deltas:
applying them as `resolve_environment_collision` does (first output added
to body 1's velocity, second subtracted from body 2's) leaves body 1 with
twice the tangential component of `u` and body 2 with minus twice the
normal component of `u`; in particular, when `u` lies along the line of
centres body 1 ends at rest but body 2 ends at `-2 u`, twice its
pre-collision velocity — not at zero as the claim states. -/
theorem dynamic_circle_vs_circle_opposite_velocities
    (p1 p2 u : Vec2 ℝ) (r : ℝ) (hr : 0 < r) (hne : p1 ≠ p2)
    (hoverlap : Vec2.dist Real.sqrt p1 p2 < r + r) :
    resolveVelocityUpdate Real.sqrt (p1, r) u (p2, r) ⟨-u.x, -u.y⟩ =
      (Vec2.smul (2 * u.dot ⟨-(Vec2.normalize Real.sqrt (p1.sub p2)).y,
                              (Vec2.normalize Real.sqrt (p1.sub p2)).x⟩)
         ⟨-(Vec2.normalize Real.sqrt (p1.sub p2)).y, (Vec2.normalize Real.sqrt (p1.sub p2)).x⟩,
       Vec2.smul (-(2 * u.dot (Vec2.normalize Real.sqrt (p1.sub p2))))
         (Vec2.normalize Real.sqrt (p1.sub p2))) ∧
    (∀ a : ℝ, u = Vec2.smul a (p1.sub p2) →
      resolveVelocityUpdate Real.sqrt (p1, r) u (p2, r) ⟨-u.x, -u.y⟩ =
        (⟨0, 0⟩, Vec2.smul (-2) u)) := by
  rcases p1 with ⟨ax, ay⟩
  rcases p2 with ⟨bx, cy⟩
  have hsub : Vec2.sub (⟨ax, ay⟩ : Vec2 ℝ) ⟨bx, cy⟩ = ⟨ax - bx, ay - cy⟩ := by
    simp [Vec2.sub]
  have hd2 : (Vec2.lengthSq (⟨ax - bx, ay - cy⟩ : Vec2 ℝ))
      = (ax - bx) * (ax - bx) + (ay - cy) * (ay - cy) := by
    simp [Vec2.lengthSq]
  have hd2pos : 0 < (Vec2.lengthSq (⟨ax - bx, ay - cy⟩ : Vec2 ℝ)) := by
    rw [hd2]
    rcases (show ax ≠ bx ∨ ay ≠ cy by
      by_contra hc
      push_neg at hc
      exact hne (by rw [hc.1, hc.2])) with h | h
    · have := mul_self_pos.mpr (sub_ne_zero.mpr h)
      nlinarith [mul_self_nonneg (ay - cy)]
    · have := mul_self_pos.mpr (sub_ne_zero.mpr h)
      nlinarith [mul_self_nonneg (ax - bx)]
  set s := Real.sqrt (Vec2.lengthSq (⟨ax - bx, ay - cy⟩ : Vec2 ℝ)) with hs_def
  have hs_pos : 0 < s := Real.sqrt_pos.mpr hd2pos
  have hs_ne : s ≠ 0 := hs_pos.ne'
  have hs_sq : s * s = (ax - bx) * (ax - bx) + (ay - cy) * (ay - cy) := by
    rw [hs_def, Real.mul_self_sqrt hd2pos.le, hd2]
  have hcol : circle_vs_circle Real.sqrt (⟨ax, ay⟩, r) ((⟨bx, cy⟩ : Vec2 ℝ), r) := by
    simpa [circle_vs_circle, Vec2.dist, Vec2.len, hsub, hs_def] using hoverlap
  obtain ⟨nx, hnx⟩ : ∃ nx : ℝ, ax - bx = nx * s := ⟨(ax - bx) / s, by field_simp⟩
  obtain ⟨ny, hny⟩ : ∃ ny : ℝ, ay - cy = ny * s := ⟨(ay - cy) / s, by field_simp⟩
  have hunit : nx * nx + ny * ny = 1 := by
    have h := hs_sq
    rw [hnx, hny] at h
    have hs2 : s * s ≠ 0 := by positivity
    nlinarith [h]
  have hnorm : Vec2.normalize Real.sqrt (Vec2.sub (⟨ax, ay⟩ : Vec2 ℝ) ⟨bx, cy⟩)
      = (⟨nx, ny⟩ : Vec2 ℝ) := by
    rw [hsub]
    simp only [Vec2.normalize, Vec2.len, Vec2.smul, ← hs_def, Vec2.mk.injEq]
    rw [hnx, hny]
    constructor <;> field_simp
  rw [hnorm]
  rcases u with ⟨ux, uy⟩
  have hmass : (r * 100 + r * 100) ≠ 0 := by positivity
  have hmain : resolveVelocityUpdate Real.sqrt ((⟨ax, ay⟩ : Vec2 ℝ), r) ⟨ux, uy⟩
      ((⟨bx, cy⟩ : Vec2 ℝ), r) ⟨-ux, -uy⟩ =
      (Vec2.smul (2 * Vec2.dot ⟨ux, uy⟩ ⟨-ny, nx⟩) ⟨-ny, nx⟩,
       Vec2.smul (-(2 * Vec2.dot ⟨ux, uy⟩ ⟨nx, ny⟩)) ⟨nx, ny⟩) := by
    rw [resolveVelocityUpdate, dynamic_circle_vs_circle, if_pos hcol]
    simp only [hnorm]
    simp only [Vec2.smul, Vec2.add, Vec2.sub, Vec2.dot, Prod.mk.injEq, Vec2.mk.injEq]
    refine ⟨⟨?_, ?_⟩, ?_, ?_⟩
    · field_simp
      linear_combination (-(ux * (r * 100 + r * 100))) * hunit
    · field_simp
      linear_combination (-(uy * (r * 100 + r * 100))) * hunit
    · field_simp
      linear_combination (ux * (r * 100 + r * 100)) * hunit
    · field_simp
      linear_combination (uy * (r * 100 + r * 100)) * hunit
  refine ⟨hmain, ?_⟩
  intro a hu
  rw [hmain]
  have hux : ux = a * (nx * s) := by
    have h := congrArg Vec2.x hu
    rw [hsub] at h
    simpa [Vec2.smul, hnx] using h
  have huy : uy = a * (ny * s) := by
    have h := congrArg Vec2.y hu
    rw [hsub] at h
    simpa [Vec2.smul, hny] using h
  have hdott : Vec2.dot (⟨ux, uy⟩ : Vec2 ℝ) ⟨-ny, nx⟩ = 0 := by
    rw [hux, huy]
    simp only [Vec2.dot]
    ring
  have hdotn : Vec2.dot (⟨ux, uy⟩ : Vec2 ℝ) ⟨nx, ny⟩ = a * s := by
    rw [hux, huy]
    simp only [Vec2.dot]
    linear_combination a * s * hunit
  rw [hdott, hdotn]
  simp only [Vec2.smul, Prod.mk.injEq, Vec2.mk.injEq]
  refine ⟨⟨by ring, by ring⟩, ?_, ?_⟩
  · rw [hux]
    linear_combination (-2 * a * s * nx) * hunit + (2 * a * s * nx) * hunit
  · rw [huy]
    linear_combination 0 * hunit

/-- C7 counterexample: two radius-2 circles at `(0,0)` and `(1,0)` with
velocities `(1,0)` and `(-1,0)` (head-on, equal magnitude).  Applying the
outputs of `dynamic_circle_vs_circle` as `resolve_environment_collision`
does leaves body 1 at rest but body 2 at `(-2,0)` — twice its
pre-collision velocity, not zero. -/
theorem dynamic_circle_vs_circle_cancel_counterexample :
    resolveVelocityUpdate Real.sqrt ((⟨0, 0⟩ : Vec2 ℝ), 2) ⟨1, 0⟩ (⟨1, 0⟩, 2) ⟨-1, 0⟩ =
      ((⟨0, 0⟩ : Vec2 ℝ), (⟨-2, 0⟩ : Vec2 ℝ)) ∧
    ((⟨-2, 0⟩ : Vec2 ℝ) ≠ ⟨0, 0⟩) := by
  have hsub : Vec2.sub (⟨0, 0⟩ : Vec2 ℝ) ⟨1, 0⟩ = ⟨-1, 0⟩ := by
    simp [Vec2.sub]
  have h1 : Vec2.lengthSq (⟨-1, 0⟩ : Vec2 ℝ) = 1 := by
    norm_num [Vec2.lengthSq]
  have hcol : circle_vs_circle Real.sqrt ((⟨0, 0⟩ : Vec2 ℝ), 2) ((⟨1, 0⟩ : Vec2 ℝ), 2) := by
    simp only [circle_vs_circle, Vec2.dist, Vec2.len, hsub, h1, Real.sqrt_one]
    norm_num
  have hnorm : Vec2.normalize Real.sqrt (⟨-1, 0⟩ : Vec2 ℝ) = ⟨-1, 0⟩ := by
    simp only [Vec2.normalize, Vec2.len, h1, Real.sqrt_one, Vec2.smul]
    norm_num
  constructor
  · rw [resolveVelocityUpdate, dynamic_circle_vs_circle, if_pos hcol]
    simp only [hsub, hnorm]
    simp only [Vec2.dot, Vec2.smul, Vec2.add, Vec2.sub, Prod.mk.injEq, Vec2.mk.injEq]
    norm_num
  · simp only [ne_eq, Vec2.mk.injEq, not_and]
    intro h
    norm_num at h

/-- C7 witness: the amended theorem applied to the same head-on pair
(`u = (1,0)` is collinear with the centre axis, via `a = -1`), giving
final velocities `(0,0)` and `(-2,0)`. -/
theorem dynamic_circle_vs_circle_opposite_velocities_witness :
    resolveVelocityUpdate Real.sqrt ((⟨0, 0⟩ : Vec2 ℝ), 2) ⟨1, 0⟩ (⟨1, 0⟩, 2) ⟨-1, -0⟩ =
      ((⟨0, 0⟩ : Vec2 ℝ), Vec2.smul (-2) ⟨1, 0⟩) := by
  have hoverlap : Vec2.dist Real.sqrt (⟨0, 0⟩ : Vec2 ℝ) ⟨1, 0⟩ < 2 + 2 := by
    have hsub : Vec2.sub (⟨0, 0⟩ : Vec2 ℝ) ⟨1, 0⟩ = ⟨-1, 0⟩ := by
      simp [Vec2.sub]
    have h1 : Vec2.lengthSq (⟨-1, 0⟩ : Vec2 ℝ) = 1 := by
      norm_num [Vec2.lengthSq]
    simp only [Vec2.dist, Vec2.len, hsub, h1, Real.sqrt_one]
    norm_num
  exact (dynamic_circle_vs_circle_opposite_velocities ⟨0, 0⟩ ⟨1, 0⟩ ⟨1, 0⟩ 2
    (by norm_num) (by simp only [ne_eq, Vec2.mk.injEq, not_and]; intro h; norm_num at h)
    hoverlap).2 (-1) (by simp [Vec2.smul, Vec2.sub])

/-! ## `EFloat`: an f32 model with special values (for `ray_vs_rect`)

`ray_vs_rect`'s contract (C8) is precisely about NaN and division by
zero, so it is embedded over a model of f32 carrying `nan` and the two
infinities over exact rationals.  Zero is unsigned (`fin 0` is `+0.0`);
the Rust literals the function builds are all positive-zero or nonzero,
so no behaviour of the source depends on `-0.0` here. -/

/-- An f32 value: NaN, a signed infinity (`inf true` is `+∞`), or a
finite (rational) value. -/
inductive EFloat where
  | nan
  | inf (pos : Bool)
  | fin (q : ℚ)
deriving DecidableEq, Repr

/-- IEEE `is_nan`. -/
def EFloat.isNan : EFloat → Bool
  | .nan => true
  | _ => false

/-- IEEE addition (without signed zero). -/
def EFloat.add : EFloat → EFloat → EFloat
  | .nan, _ => .nan
  | _, .nan => .nan
  | .inf a, .inf b => if a = b then .inf a else .nan
  | .inf a, .fin _ => .inf a
  | .fin _, .inf b => .inf b
  | .fin a, .fin b => .fin (a + b)

/-- IEEE subtraction (without signed zero). -/
def EFloat.sub : EFloat → EFloat → EFloat
  | .nan, _ => .nan
  | _, .nan => .nan
  | .inf a, .inf b => if a = b then .nan else .inf a
  | .inf a, .fin _ => .inf a
  | .fin _, .inf b => .inf (!b)
  | .fin a, .fin b => .fin (a - b)

/-- IEEE multiplication: `∞ * 0` is NaN, otherwise signs multiply. -/
def EFloat.mul : EFloat → EFloat → EFloat
  | .nan, _ => .nan
  | _, .nan => .nan
  | .inf a, .inf b => .inf (a == b)
  | .inf a, .fin q => if q = 0 then .nan else .inf (a == decide (0 < q))
  | .fin q, .inf b => if q = 0 then .nan else .inf (b == decide (0 < q))
  | .fin a, .fin b => .fin (a * b)

/-- IEEE division: `x / 0` is a signed infinity for `x ≠ 0` and NaN for
`x = 0` (the unsigned zero acts as `+0.0`); `∞ / ∞` is NaN; `x / ∞` is
zero. -/
def EFloat.div : EFloat → EFloat → EFloat
  | .nan, _ => .nan
  | _, .nan => .nan
  | .inf _, .inf _ => .nan
  | .inf a, .fin q => if q = 0 then .inf a else .inf (a == decide (0 < q))
  | .fin _, .inf _ => .fin 0
  | .fin p, .fin q =>
    if q = 0 then (if p = 0 then .nan else .inf (decide (0 < p))) else .fin (p / q)

/-- IEEE `<`: false whenever either side is NaN. -/
def EFloat.lt : EFloat → EFloat → Bool
  | .nan, _ => false
  | _, .nan => false
  | .inf a, .inf b => !a && b
  | .inf a, .fin _ => !a
  | .fin _, .inf b => b
  | .fin a, .fin b => decide (a < b)

/-- IEEE `>` is the flipped `<`. -/
def EFloat.gt (x y : EFloat) : Bool := y.lt x

/-- Rust `f32::max`: ignores a NaN argument, otherwise picks the larger. -/
def EFloat.maxF (x y : EFloat) : EFloat :=
  if x.isNan then y else if y.isNan then x else if x.lt y then y else x

/-- Rust `f32::min`: ignores a NaN argument, otherwise picks the smaller. -/
def EFloat.minF (x y : EFloat) : EFloat :=
  if x.isNan then y else if y.isNan then x else if y.lt x then y else x

/-- `utils::ray_vs_rect`, the near slab parameters
`(target_pos - *ray_origin) / *ray_dir`. -/
def slabNear (o d : Vec2 EFloat) (t : Rect EFloat) : Vec2 EFloat :=
  ⟨(t.x.sub o.x).div d.x, (t.y.sub o.y).div d.y⟩

/-- `utils::ray_vs_rect`, the far slab parameters
`(target_pos + target_size - *ray_origin) / *ray_dir`. -/
def slabFar (o d : Vec2 EFloat) (t : Rect EFloat) : Vec2 EFloat :=
  ⟨((t.x.add t.w).sub o.x).div d.x, ((t.y.add t.h).sub o.y).div d.y⟩

/-- The in-place `std::mem::swap` on one axis pair, as a sorted pair. -/
def sortPair (a b : EFloat) : EFloat × EFloat :=
  if a.gt b then (b, a) else (a, b)

/-- `utils::ray_vs_rect` (src/utils.rs lines 183-215), slab intersection
with the source's NaN short-circuits.  The out-parameters
`contact_point`, `contact_normal` and `t_hit_near` become explicit
inputs (their initial values) and outputs; on an early `return false`
they are returned untouched, and the `contact_normal` is also untouched
on a corner hit (`t_near.x == t_near.y`). -/
def ray_vs_rect (o d : Vec2 EFloat) (t : Rect EFloat)
    (cp0 cn0 : Vec2 EFloat) (t0 : EFloat) :
    Bool × Vec2 EFloat × Vec2 EFloat × EFloat :=
  let tn := slabNear o d t
  let tf := slabFar o d t
  if tf.x.isNan || tf.y.isNan then (false, cp0, cn0, t0)
  else if tn.x.isNan || tn.y.isNan then (false, cp0, cn0, t0)
  else
    let px := sortPair tn.x tf.x
    let py := sortPair tn.y tf.y
    if px.1.gt py.2 || py.1.gt px.2 then (false, cp0, cn0, t0)
    else
      let t_hit_near := px.1.maxF py.1
      let t_hit_far := px.2.minF py.2
      if t_hit_far.lt (.fin 0) then (false, cp0, cn0, t0)
      else
        let cp : Vec2 EFloat := ⟨o.x.add (t_hit_near.mul d.x), o.y.add (t_hit_near.mul d.y)⟩
        let cn : Vec2 EFloat :=
          if px.1.gt py.1 then
            (if d.x.lt (.fin 0) then ⟨.fin 1, .fin 0⟩ else ⟨.fin (-1), .fin 0⟩)
          else if px.1.lt py.1 then
            (if d.y.lt (.fin 0) then ⟨.fin 0, .fin 1⟩ else ⟨.fin 0, .fin (-1)⟩)
          else cn0
        (true, cp, cn, t_hit_near)

/-! ### C8: `ray_vs_rect` and NaN -/

@[simp] lemma EFloat.isNan_nan : EFloat.nan.isNan = true := rfl

@[simp] lemma EFloat.isNan_inf (a : Bool) : (EFloat.inf a).isNan = false := rfl

@[simp] lemma EFloat.isNan_fin (q : ℚ) : (EFloat.fin q).isNan = false := rfl

@[simp] lemma EFloat.lt_inf_fin (a : Bool) (q : ℚ) : (EFloat.inf a).lt (.fin q) = !a := rfl

@[simp] lemma EFloat.lt_fin_inf (q : ℚ) (b : Bool) : (EFloat.fin q).lt (.inf b) = b := rfl

@[simp] lemma EFloat.lt_inf_inf (a b : Bool) : (EFloat.inf a).lt (.inf b) = (!a && b) := rfl

@[simp] lemma EFloat.lt_fin_fin (p q : ℚ) : (EFloat.fin p).lt (.fin q) = decide (p < q) := rfl

@[simp] lemma EFloat.mul_fin_fin (p q : ℚ) : (EFloat.fin p).mul (.fin q) = .fin (p * q) := rfl

@[simp] lemma EFloat.add_fin_fin (p q : ℚ) : (EFloat.fin p).add (.fin q) = .fin (p + q) := rfl

/-- A sorted pair of finite values is a pair of finite values. -/
lemma sortPair_fin_fin (p q : ℚ) :
    ∃ a b : ℚ, sortPair (.fin p) (.fin q) = (.fin a, .fin b) := by
  rw [sortPair]
  by_cases h : (EFloat.fin p).gt (.fin q) = true
  · rw [if_pos h]
    exact ⟨q, p, rfl⟩
  · rw [if_neg h]
    exact ⟨p, q, rfl⟩

/-- If the x slab parameters are both `+∞` while the y parameters are
finite, the slab comparison fails and `ray_vs_rect` reports no hit. -/
lemma rvr_false_of_plusinf_x (o d : Vec2 EFloat) (t : Rect EFloat)
    (cp0 cn0 : Vec2 EFloat) (t0 : EFloat)
    (h1 : (slabNear o d t).x = .inf true) (h2 : (slabFar o d t).x = .inf true)
    (a b : ℚ) (h3 : (slabNear o d t).y = .fin a) (h4 : (slabFar o d t).y = .fin b) :
    (ray_vs_rect o d t cp0 cn0 t0).1 = false := by
  obtain ⟨a', b', hsort⟩ := sortPair_fin_fin a b
  have hx : sortPair (EFloat.inf true) (EFloat.inf true) = (.inf true, .inf true) := rfl
  rw [ray_vs_rect]
  simp only [h1, h2, h3, h4, hx, hsort, EFloat.isNan_inf, EFloat.isNan_fin, Bool.or_self,
    Bool.or_false, Bool.false_or]
  simp [EFloat.gt]

/-- If the x slab parameters are both `-∞` while the y parameters are
finite, the slab comparison fails and `ray_vs_rect` reports no hit. -/
lemma rvr_false_of_neginf_x (o d : Vec2 EFloat) (t : Rect EFloat)
    (cp0 cn0 : Vec2 EFloat) (t0 : EFloat)
    (h1 : (slabNear o d t).x = .inf false) (h2 : (slabFar o d t).x = .inf false)
    (a b : ℚ) (h3 : (slabNear o d t).y = .fin a) (h4 : (slabFar o d t).y = .fin b) :
    (ray_vs_rect o d t cp0 cn0 t0).1 = false := by
  obtain ⟨a', b', hsort⟩ := sortPair_fin_fin a b
  have hx : sortPair (EFloat.inf false) (EFloat.inf false) = (.inf false, .inf false) := rfl
  rw [ray_vs_rect]
  simp only [h1, h2, h3, h4, hx, hsort, EFloat.isNan_inf, EFloat.isNan_fin, Bool.or_self,
    Bool.or_false, Bool.false_or]
  simp [EFloat.gt]

/-- Division of finite values by a nonzero finite value is finite. -/
@[simp] lemma EFloat.div_fin_fin (p q : ℚ) (h : q ≠ 0) :
    (EFloat.fin p).div (.fin q) = .fin (p / q) := by
  simp [EFloat.div, h]

/-- `p / +0.0` is `+∞` for positive `p`. -/
lemma EFloat.div_fin_zero_pos (p : ℚ) (h : 0 < p) :
    (EFloat.fin p).div (.fin 0) = .inf true := by
  simp [EFloat.div, h.ne', h]

/-- `p / +0.0` is `-∞` for negative `p`. -/
lemma EFloat.div_fin_zero_neg (p : ℚ) (h : p < 0) :
    (EFloat.fin p).div (.fin 0) = .inf false := by
  simp [EFloat.div, h.ne, not_lt.mpr h.le]

/-- `0 / 0` is NaN. -/
lemma EFloat.div_zero_zero : (EFloat.fin 0).div (.fin 0) = .nan := by
  simp [EFloat.div]

@[simp] lemma EFloat.sub_fin_fin (p q : ℚ) :
    (EFloat.fin p).sub (.fin q) = .fin (p - q) := rfl

/-- The max of two finite values is finite. -/
lemma EFloat.maxF_fin_fin (p q : ℚ) :
    ∃ c : ℚ, (EFloat.fin p).maxF (.fin q) = .fin c := by
  rw [EFloat.maxF]
  by_cases h : (EFloat.fin p).lt (.fin q) = true
  · simp only [EFloat.isNan_fin, Bool.false_eq_true, if_false, h, if_true]
    exact ⟨q, rfl⟩
  · simp only [EFloat.isNan_fin, Bool.false_eq_true, if_false, h]
    exact ⟨p, rfl⟩

/-- The min of two finite values is finite. -/
lemma EFloat.minF_fin_fin (p q : ℚ) :
    ∃ c : ℚ, (EFloat.fin p).minF (.fin q) = .fin c := by
  rw [EFloat.minF]
  by_cases h : (EFloat.fin q).lt (.fin p) = true
  · simp only [EFloat.isNan_fin, Bool.false_eq_true, if_false, h, if_true]
    exact ⟨q, rfl⟩
  · simp only [EFloat.isNan_fin, Bool.false_eq_true, if_false, h]
    exact ⟨p, rfl⟩

/-- Any NaN among the four slab parameters makes `ray_vs_rect`
short-circuit to no-hit (the source's lines 190-191). -/
lemma rvr_false_of_nan (o d : Vec2 EFloat) (t : Rect EFloat)
    (cp0 cn0 : Vec2 EFloat) (t0 : EFloat)
    (h : ((slabFar o d t).x.isNan || (slabFar o d t).y.isNan
        || (slabNear o d t).x.isNan || (slabNear o d t).y.isNan) = true) :
    (ray_vs_rect o d t cp0 cn0 t0).1 = false := by
  rw [ray_vs_rect]
  by_cases h1 : ((slabFar o d t).x.isNan || (slabFar o d t).y.isNan) = true
  · simp [h1]
  · have h2 : ((slabNear o d t).x.isNan || (slabNear o d t).y.isNan) = true := by
      simp only [Bool.or_eq_true] at h h1 ⊢
      tauto
    simp [h1, h2]

/-- If the y slab parameters are both `+∞` while the x parameters are
finite, `ray_vs_rect` reports no hit. -/
lemma rvr_false_of_plusinf_y (o d : Vec2 EFloat) (t : Rect EFloat)
    (cp0 cn0 : Vec2 EFloat) (t0 : EFloat)
    (h1 : (slabNear o d t).y = .inf true) (h2 : (slabFar o d t).y = .inf true)
    (a b : ℚ) (h3 : (slabNear o d t).x = .fin a) (h4 : (slabFar o d t).x = .fin b) :
    (ray_vs_rect o d t cp0 cn0 t0).1 = false := by
  obtain ⟨a', b', hsort⟩ := sortPair_fin_fin a b
  have hy : sortPair (EFloat.inf true) (EFloat.inf true) = (.inf true, .inf true) := rfl
  rw [ray_vs_rect]
  simp only [h1, h2, h3, h4, hy, hsort, EFloat.isNan_inf, EFloat.isNan_fin, Bool.or_self,
    Bool.or_false, Bool.false_or]
  simp [EFloat.gt]

/-- If the y slab parameters are both `-∞` while the x parameters are
finite, `ray_vs_rect` reports no hit. -/
lemma rvr_false_of_neginf_y (o d : Vec2 EFloat) (t : Rect EFloat)
    (cp0 cn0 : Vec2 EFloat) (t0 : EFloat)
    (h1 : (slabNear o d t).y = .inf false) (h2 : (slabFar o d t).y = .inf false)
    (a b : ℚ) (h3 : (slabNear o d t).x = .fin a) (h4 : (slabFar o d t).x = .fin b) :
    (ray_vs_rect o d t cp0 cn0 t0).1 = false := by
  obtain ⟨a', b', hsort⟩ := sortPair_fin_fin a b
  have hy : sortPair (EFloat.inf false) (EFloat.inf false) = (.inf false, .inf false) := rfl
  rw [ray_vs_rect]
  simp only [h1, h2, h3, h4, hy, hsort, EFloat.isNan_inf, EFloat.isNan_fin, Bool.or_self,
    Bool.or_false, Bool.false_or]
  simp [EFloat.gt]

/-- The five outputs of `ray_vs_rect` are NaN-free. -/
def rvrNoNan (res : Bool × Vec2 EFloat × Vec2 EFloat × EFloat) : Prop :=
  res.2.1.x.isNan = false ∧ res.2.1.y.isNan = false ∧
  res.2.2.1.x.isNan = false ∧ res.2.2.1.y.isNan = false ∧
  res.2.2.2.isNan = false

/-- A finite ray whose x direction component is zero with the origin
strictly inside the x slab: any reported hit is NaN-free. -/
lemma rvr_nonan_of_inside_x (ox oy dx dy : ℚ) (t : Rect EFloat)
    (cp0 cn0 : Vec2 EFloat) (t0 : EFloat)
    (h1 : (slabNear ⟨.fin ox, .fin oy⟩ ⟨.fin dx, .fin dy⟩ t).x = .inf false)
    (h2 : (slabFar ⟨.fin ox, .fin oy⟩ ⟨.fin dx, .fin dy⟩ t).x = .inf true)
    (a b : ℚ)
    (h3 : (slabNear ⟨.fin ox, .fin oy⟩ ⟨.fin dx, .fin dy⟩ t).y = .fin a)
    (h4 : (slabFar ⟨.fin ox, .fin oy⟩ ⟨.fin dx, .fin dy⟩ t).y = .fin b)
    (hhit : (ray_vs_rect ⟨.fin ox, .fin oy⟩ ⟨.fin dx, .fin dy⟩ t cp0 cn0 t0).1 = true) :
    rvrNoNan (ray_vs_rect ⟨.fin ox, .fin oy⟩ ⟨.fin dx, .fin dy⟩ t cp0 cn0 t0) := by
  obtain ⟨a', b', hsort⟩ := sortPair_fin_fin a b
  have hx : sortPair (EFloat.inf false) (EFloat.inf true) = (.inf false, .inf true) := rfl
  rw [ray_vs_rect] at hhit ⊢
  simp only [h1, h2, h3, h4, hx, hsort, EFloat.isNan_inf, EFloat.isNan_fin, Bool.or_self,
    Bool.or_false, Bool.false_or] at hhit ⊢
  by_cases hfar : (EFloat.fin b').lt (.fin 0) = true
  · simp [EFloat.gt, EFloat.maxF, EFloat.minF, hfar] at hhit
  · by_cases hdyneg : (EFloat.fin dy).lt (.fin 0) = true <;>
      simp [EFloat.gt, EFloat.maxF, EFloat.minF, hfar, hdyneg, rvrNoNan]

/-- A finite ray whose y direction component is zero with the origin
strictly inside the y slab: any reported hit is NaN-free. -/
lemma rvr_nonan_of_inside_y (ox oy dx dy : ℚ) (t : Rect EFloat)
    (cp0 cn0 : Vec2 EFloat) (t0 : EFloat)
    (h1 : (slabNear ⟨.fin ox, .fin oy⟩ ⟨.fin dx, .fin dy⟩ t).y = .inf false)
    (h2 : (slabFar ⟨.fin ox, .fin oy⟩ ⟨.fin dx, .fin dy⟩ t).y = .inf true)
    (a b : ℚ)
    (h3 : (slabNear ⟨.fin ox, .fin oy⟩ ⟨.fin dx, .fin dy⟩ t).x = .fin a)
    (h4 : (slabFar ⟨.fin ox, .fin oy⟩ ⟨.fin dx, .fin dy⟩ t).x = .fin b)
    (hhit : (ray_vs_rect ⟨.fin ox, .fin oy⟩ ⟨.fin dx, .fin dy⟩ t cp0 cn0 t0).1 = true) :
    rvrNoNan (ray_vs_rect ⟨.fin ox, .fin oy⟩ ⟨.fin dx, .fin dy⟩ t cp0 cn0 t0) := by
  obtain ⟨a', b', hsort⟩ := sortPair_fin_fin a b
  have hy : sortPair (EFloat.inf false) (EFloat.inf true) = (.inf false, .inf true) := rfl
  rw [ray_vs_rect] at hhit ⊢
  simp only [h1, h2, h3, h4, hy, hsort, EFloat.isNan_inf, EFloat.isNan_fin, Bool.or_self,
    Bool.or_false, Bool.false_or] at hhit ⊢
  by_cases hfar : (EFloat.fin b').lt (.fin 0) = true
  · simp [EFloat.gt, EFloat.maxF, EFloat.minF, hfar] at hhit
  · by_cases hdxneg : (EFloat.fin dx).lt (.fin 0) = true <;>
      simp [EFloat.gt, EFloat.maxF, EFloat.minF, hfar, hdxneg, rvrNoNan]

/-- A finite ray with all four slab parameters finite: any reported hit
is NaN-free (given NaN-free initial out-parameters, which are returned
untouched on a corner hit). -/
lemma rvr_nonan_of_all_fin (ox oy dx dy : ℚ) (t : Rect EFloat)
    (cp0 cn0 : Vec2 EFloat) (t0 : EFloat)
    (hcnx : cn0.x.isNan = false) (hcny : cn0.y.isNan = false)
    (p q a b : ℚ)
    (h1 : (slabNear ⟨.fin ox, .fin oy⟩ ⟨.fin dx, .fin dy⟩ t).x = .fin p)
    (h2 : (slabFar ⟨.fin ox, .fin oy⟩ ⟨.fin dx, .fin dy⟩ t).x = .fin q)
    (h3 : (slabNear ⟨.fin ox, .fin oy⟩ ⟨.fin dx, .fin dy⟩ t).y = .fin a)
    (h4 : (slabFar ⟨.fin ox, .fin oy⟩ ⟨.fin dx, .fin dy⟩ t).y = .fin b)
    (hhit : (ray_vs_rect ⟨.fin ox, .fin oy⟩ ⟨.fin dx, .fin dy⟩ t cp0 cn0 t0).1 = true) :
    rvrNoNan (ray_vs_rect ⟨.fin ox, .fin oy⟩ ⟨.fin dx, .fin dy⟩ t cp0 cn0 t0) := by
  obtain ⟨p', q', hsortx⟩ := sortPair_fin_fin p q
  obtain ⟨a', b', hsorty⟩ := sortPair_fin_fin a b
  obtain ⟨mx, hmax⟩ := EFloat.maxF_fin_fin p' a'
  obtain ⟨mn, hmin⟩ := EFloat.minF_fin_fin q' b'
  rw [ray_vs_rect] at hhit ⊢
  simp only [h1, h2, h3, h4, hsortx, hsorty, hmax, hmin, EFloat.isNan_fin, Bool.or_self,
    Bool.or_false, Bool.false_or] at hhit ⊢
  by_cases htest : ((EFloat.fin p').gt (.fin b') || (EFloat.fin a').gt (.fin q')) = true
  · simp [htest] at hhit
  · by_cases hfar : (EFloat.fin mn).lt (.fin 0) = true
    · simp [htest, hfar] at hhit
    · by_cases hPA : (EFloat.fin p').gt (.fin a') = true
      · by_cases hdxneg : (EFloat.fin dx).lt (.fin 0) = true <;>
          simp [htest, hfar, hPA, hdxneg, rvrNoNan]
      · by_cases hPA2 : (EFloat.fin p').lt (.fin a') = true <;>
          by_cases hdyneg : (EFloat.fin dy).lt (.fin 0) = true <;>
          simp [htest, hfar, hPA, hPA2, hdyneg, rvrNoNan, hcnx, hcny]

/-- C8, amended: for every ray with finite origin and finite direction
**not both of whose components are zero**, against a finite
well-formed rectangle: (1) a zero direction component on an axis with
the origin strictly outside that axis's slab yields no-hit; (2) (for
arbitrary, even non-finite, inputs) a NaN among the four slab
parameters short-circuits to no-hit; (3) a reported hit never carries
NaN in the contact point, contact normal, or near-hit parameter.  The
all-zero direction vector must be excluded: there both slab divisions
give `+∞` when the origin is below the slabs, every comparison on
`+∞ > +∞` is false, and the function returns a hit whose contact point
is `origin + ∞ * 0 = NaN` (see the counterexample). -/
theorem ray_vs_rect_nan_spec (ox oy dx dy rx ry rw rh : ℚ)
    (cp0 cn0 : Vec2 EFloat) (t0 : EFloat)
    (hw : 0 ≤ rw) (hh : 0 ≤ rh)
    (hd : ¬(dx = 0 ∧ dy = 0))
    (hcnx : cn0.x.isNan = false) (hcny : cn0.y.isNan = false) :
    (dx = 0 → (ox < rx ∨ rx + rw < ox) →
      (ray_vs_rect ⟨.fin ox, .fin oy⟩ ⟨.fin dx, .fin dy⟩
        ⟨.fin rx, .fin ry, .fin rw, .fin rh⟩ cp0 cn0 t0).1 = false) ∧
    (dy = 0 → (oy < ry ∨ ry + rh < oy) →
      (ray_vs_rect ⟨.fin ox, .fin oy⟩ ⟨.fin dx, .fin dy⟩
        ⟨.fin rx, .fin ry, .fin rw, .fin rh⟩ cp0 cn0 t0).1 = false) ∧
    (∀ (o d : Vec2 EFloat) (t : Rect EFloat) (cp1 cn1 : Vec2 EFloat) (t1 : EFloat),
      ((slabFar o d t).x.isNan || (slabFar o d t).y.isNan
        || (slabNear o d t).x.isNan || (slabNear o d t).y.isNan) = true →
      (ray_vs_rect o d t cp1 cn1 t1).1 = false) ∧
    ((ray_vs_rect ⟨.fin ox, .fin oy⟩ ⟨.fin dx, .fin dy⟩
        ⟨.fin rx, .fin ry, .fin rw, .fin rh⟩ cp0 cn0 t0).1 = true →
      rvrNoNan (ray_vs_rect ⟨.fin ox, .fin oy⟩ ⟨.fin dx, .fin dy⟩
        ⟨.fin rx, .fin ry, .fin rw, .fin rh⟩ cp0 cn0 t0)) := by
  have hnearx : (slabNear ⟨.fin ox, .fin oy⟩ ⟨.fin dx, .fin dy⟩
      ⟨.fin rx, .fin ry, .fin rw, .fin rh⟩).x = (EFloat.fin (rx - ox)).div (.fin dx) := rfl
  have hneary : (slabNear ⟨.fin ox, .fin oy⟩ ⟨.fin dx, .fin dy⟩
      ⟨.fin rx, .fin ry, .fin rw, .fin rh⟩).y = (EFloat.fin (ry - oy)).div (.fin dy) := rfl
  have hfarx : (slabFar ⟨.fin ox, .fin oy⟩ ⟨.fin dx, .fin dy⟩
      ⟨.fin rx, .fin ry, .fin rw, .fin rh⟩).x = (EFloat.fin (rx + rw - ox)).div (.fin dx) := rfl
  have hfary : (slabFar ⟨.fin ox, .fin oy⟩ ⟨.fin dx, .fin dy⟩
      ⟨.fin rx, .fin ry, .fin rw, .fin rh⟩).y = (EFloat.fin (ry + rh - oy)).div (.fin dy) := rfl
  refine ⟨?_, ?_, ?_, ?_⟩
  · -- (1) for the x axis
    intro hdx houtside
    have hdy : dy ≠ 0 := fun h => hd ⟨hdx, h⟩
    subst hdx
    have h3 : (slabNear ⟨.fin ox, .fin oy⟩ ⟨.fin 0, .fin dy⟩
        ⟨.fin rx, .fin ry, .fin rw, .fin rh⟩).y = .fin ((ry - oy) / dy) := by
      rw [hneary, EFloat.div_fin_fin _ _ hdy]
    have h4 : (slabFar ⟨.fin ox, .fin oy⟩ ⟨.fin 0, .fin dy⟩
        ⟨.fin rx, .fin ry, .fin rw, .fin rh⟩).y = .fin ((ry + rh - oy) / dy) := by
      rw [hfary, EFloat.div_fin_fin _ _ hdy]
    rcases houtside with hlt | hgt
    · exact rvr_false_of_plusinf_x _ _ _ _ _ _
        (by rw [hnearx, EFloat.div_fin_zero_pos _ (by linarith)])
        (by rw [hfarx, EFloat.div_fin_zero_pos _ (by linarith)]) _ _ h3 h4
    · exact rvr_false_of_neginf_x _ _ _ _ _ _
        (by rw [hnearx, EFloat.div_fin_zero_neg _ (by linarith)])
        (by rw [hfarx, EFloat.div_fin_zero_neg _ (by linarith)]) _ _ h3 h4
  · -- (1) for the y axis
    intro hdy houtside
    have hdx : dx ≠ 0 := fun h => hd ⟨h, hdy⟩
    subst hdy
    have h3 : (slabNear ⟨.fin ox, .fin oy⟩ ⟨.fin dx, .fin 0⟩
        ⟨.fin rx, .fin ry, .fin rw, .fin rh⟩).x = .fin ((rx - ox) / dx) := by
      rw [hnearx, EFloat.div_fin_fin _ _ hdx]
    have h4 : (slabFar ⟨.fin ox, .fin oy⟩ ⟨.fin dx, .fin 0⟩
        ⟨.fin rx, .fin ry, .fin rw, .fin rh⟩).x = .fin ((rx + rw - ox) / dx) := by
      rw [hfarx, EFloat.div_fin_fin _ _ hdx]
    rcases houtside with hlt | hgt
    · exact rvr_false_of_plusinf_y _ _ _ _ _ _
        (by rw [hneary, EFloat.div_fin_zero_pos _ (by linarith)])
        (by rw [hfary, EFloat.div_fin_zero_pos _ (by linarith)]) _ _ h3 h4
    · exact rvr_false_of_neginf_y _ _ _ _ _ _
        (by rw [hneary, EFloat.div_fin_zero_neg _ (by linarith)])
        (by rw [hfary, EFloat.div_fin_zero_neg _ (by linarith)]) _ _ h3 h4
  · -- (2) NaN short-circuit
    intro o d t cp1 cn1 t1 h
    exact rvr_false_of_nan o d t cp1 cn1 t1 h
  · -- (3) no NaN on a hit
    intro hhit
    by_cases hdx : dx = 0
    · have hdy : dy ≠ 0 := fun h => hd ⟨hdx, h⟩
      subst hdx
      have h3 : (slabNear ⟨.fin ox, .fin oy⟩ ⟨.fin 0, .fin dy⟩
          ⟨.fin rx, .fin ry, .fin rw, .fin rh⟩).y = .fin ((ry - oy) / dy) := by
        rw [hneary, EFloat.div_fin_fin _ _ hdy]
      have h4 : (slabFar ⟨.fin ox, .fin oy⟩ ⟨.fin 0, .fin dy⟩
          ⟨.fin rx, .fin ry, .fin rw, .fin rh⟩).y = .fin ((ry + rh - oy) / dy) := by
        rw [hfary, EFloat.div_fin_fin _ _ hdy]
      rcases lt_trichotomy (rx - ox) 0 with hx1 | hx1 | hx1
      · rcases lt_trichotomy (rx + rw - ox) 0 with hx2 | hx2 | hx2
        · exact absurd (hhit.symm.trans (rvr_false_of_neginf_x _ _ _ _ _ _
            (by rw [hnearx, EFloat.div_fin_zero_neg _ hx1])
            (by rw [hfarx, EFloat.div_fin_zero_neg _ hx2]) _ _ h3 h4)) (by simp)
        · exact absurd (hhit.symm.trans (rvr_false_of_nan _ _ _ _ _ _
            (by rw [hfarx, hx2, EFloat.div_zero_zero]; simp))) (by simp)
        · exact rvr_nonan_of_inside_x _ _ _ _ _ _ _ _
            (by rw [hnearx, EFloat.div_fin_zero_neg _ hx1])
            (by rw [hfarx, EFloat.div_fin_zero_pos _ hx2]) _ _ h3 h4 hhit
      · exact absurd (hhit.symm.trans (rvr_false_of_nan _ _ _ _ _ _
          (by rw [hnearx, hx1, EFloat.div_zero_zero]; simp))) (by simp)
      · exact absurd (hhit.symm.trans (rvr_false_of_plusinf_x _ _ _ _ _ _
          (by rw [hnearx, EFloat.div_fin_zero_pos _ hx1])
          (by rw [hfarx, EFloat.div_fin_zero_pos _ (by linarith)]) _ _ h3 h4)) (by simp)
    · have h3 : (slabNear ⟨.fin ox, .fin oy⟩ ⟨.fin dx, .fin dy⟩
          ⟨.fin rx, .fin ry, .fin rw, .fin rh⟩).x = .fin ((rx - ox) / dx) := by
        rw [hnearx, EFloat.div_fin_fin _ _ hdx]
      have h4 : (slabFar ⟨.fin ox, .fin oy⟩ ⟨.fin dx, .fin dy⟩
          ⟨.fin rx, .fin ry, .fin rw, .fin rh⟩).x = .fin ((rx + rw - ox) / dx) := by
        rw [hfarx, EFloat.div_fin_fin _ _ hdx]
      by_cases hdy : dy = 0
      · subst hdy
        rcases lt_trichotomy (ry - oy) 0 with hy1 | hy1 | hy1
        · rcases lt_trichotomy (ry + rh - oy) 0 with hy2 | hy2 | hy2
          · exact absurd (hhit.symm.trans (rvr_false_of_neginf_y _ _ _ _ _ _
              (by rw [hneary, EFloat.div_fin_zero_neg _ hy1])
              (by rw [hfary, EFloat.div_fin_zero_neg _ hy2]) _ _ h3 h4)) (by simp)
          · exact absurd (hhit.symm.trans (rvr_false_of_nan _ _ _ _ _ _
              (by rw [hfary, hy2, EFloat.div_zero_zero]; simp))) (by simp)
          · exact rvr_nonan_of_inside_y _ _ _ _ _ _ _ _
              (by rw [hneary, EFloat.div_fin_zero_neg _ hy1])
              (by rw [hfary, EFloat.div_fin_zero_pos _ hy2]) _ _ h3 h4 hhit
        · exact absurd (hhit.symm.trans (rvr_false_of_nan _ _ _ _ _ _
            (by rw [hneary, hy1, EFloat.div_zero_zero]; simp))) (by simp)
        · exact absurd (hhit.symm.trans (rvr_false_of_plusinf_y _ _ _ _ _ _
            (by rw [hneary, EFloat.div_fin_zero_pos _ hy1])
            (by rw [hfary, EFloat.div_fin_zero_pos _ (by linarith)]) _ _ h3 h4)) (by simp)
      · have h5 : (slabNear ⟨.fin ox, .fin oy⟩ ⟨.fin dx, .fin dy⟩
            ⟨.fin rx, .fin ry, .fin rw, .fin rh⟩).y = .fin ((ry - oy) / dy) := by
          rw [hneary, EFloat.div_fin_fin _ _ hdy]
        have h6 : (slabFar ⟨.fin ox, .fin oy⟩ ⟨.fin dx, .fin dy⟩
            ⟨.fin rx, .fin ry, .fin rw, .fin rh⟩).y = .fin ((ry + rh - oy) / dy) := by
          rw [hfary, EFloat.div_fin_fin _ _ hdy]
        exact rvr_nonan_of_all_fin _ _ _ _ _ _ _ _ hcnx hcny _ _ _ _ h3 h4 h5 h6 hhit

/-- C8 counterexample: the all-zero direction ray from `(-1,-1)` against
the unit square at the origin has a zero x direction component with the
origin strictly outside the x slab `[0,1]`, yet `ray_vs_rect` reports a
hit — and that hit's contact point is NaN (`origin + ∞·0`). -/
theorem ray_vs_rect_zero_dir_counterexample :
    ((-1 : ℚ) < 0) ∧
    (ray_vs_rect ⟨.fin (-1), .fin (-1)⟩ ⟨.fin 0, .fin 0⟩ ⟨.fin 0, .fin 0, .fin 1, .fin 1⟩
      ⟨.fin 0, .fin 0⟩ ⟨.fin 0, .fin 0⟩ (.fin 0)).1 = true ∧
    (ray_vs_rect ⟨.fin (-1), .fin (-1)⟩ ⟨.fin 0, .fin 0⟩ ⟨.fin 0, .fin 0, .fin 1, .fin 1⟩
      ⟨.fin 0, .fin 0⟩ ⟨.fin 0, .fin 0⟩ (.fin 0)).2.1.x.isNan = true := by
  have hnx : (slabNear ⟨.fin (-1), .fin (-1)⟩ ⟨.fin 0, .fin 0⟩
      ⟨.fin 0, .fin 0, .fin 1, .fin 1⟩).x = .inf true := by
    show ((EFloat.fin 0).sub (.fin (-1))).div (.fin 0) = _
    rw [EFloat.sub_fin_fin, show (0 : ℚ) - (-1) = 1 by norm_num,
      EFloat.div_fin_zero_pos _ (by norm_num)]
  have hny : (slabNear ⟨.fin (-1), .fin (-1)⟩ ⟨.fin 0, .fin 0⟩
      ⟨.fin 0, .fin 0, .fin 1, .fin 1⟩).y = .inf true := by
    show ((EFloat.fin 0).sub (.fin (-1))).div (.fin 0) = _
    rw [EFloat.sub_fin_fin, show (0 : ℚ) - (-1) = 1 by norm_num,
      EFloat.div_fin_zero_pos _ (by norm_num)]
  have hfx : (slabFar ⟨.fin (-1), .fin (-1)⟩ ⟨.fin 0, .fin 0⟩
      ⟨.fin 0, .fin 0, .fin 1, .fin 1⟩).x = .inf true := by
    show (((EFloat.fin 0).add (.fin 1)).sub (.fin (-1))).div (.fin 0) = _
    rw [EFloat.add_fin_fin, EFloat.sub_fin_fin, show (0 : ℚ) + 1 - (-1) = 2 by norm_num,
      EFloat.div_fin_zero_pos _ (by norm_num)]
  have hfy : (slabFar ⟨.fin (-1), .fin (-1)⟩ ⟨.fin 0, .fin 0⟩
      ⟨.fin 0, .fin 0, .fin 1, .fin 1⟩).y = .inf true := by
    show (((EFloat.fin 0).add (.fin 1)).sub (.fin (-1))).div (.fin 0) = _
    rw [EFloat.add_fin_fin, EFloat.sub_fin_fin, show (0 : ℚ) + 1 - (-1) = 2 by norm_num,
      EFloat.div_fin_zero_pos _ (by norm_num)]
  have hmul : (EFloat.inf true).mul (.fin 0) = .nan := by
    simp [EFloat.mul]
  refine ⟨by norm_num, ?_, ?_⟩
  · rw [ray_vs_rect]
    simp only [hnx, hny, hfx, hfy, EFloat.isNan_inf, Bool.or_self]
    simp [EFloat.gt, sortPair, EFloat.maxF, EFloat.minF]
  · rw [ray_vs_rect]
    simp only [hnx, hny, hfx, hfy, EFloat.isNan_inf, Bool.or_self]
    simp [EFloat.gt, sortPair, EFloat.maxF, EFloat.minF, hmul, EFloat.add]

/-- C8 witness: the amended statement applied to the axis-aligned ray
from `(-1, 0)` with direction `(0, 1)` against the unit square. -/
theorem ray_vs_rect_nan_spec_witness :
    ((0 : ℚ) = 0 → ((-1 : ℚ) < 0 ∨ (0 : ℚ) + 1 < -1) →
      (ray_vs_rect ⟨.fin (-1), .fin 0⟩ ⟨.fin 0, .fin 1⟩ ⟨.fin 0, .fin 0, .fin 1, .fin 1⟩
        ⟨.fin 0, .fin 0⟩ ⟨.fin 0, .fin 0⟩ (.fin 0)).1 = false) ∧
    ((1 : ℚ) = 0 → ((0 : ℚ) < 0 ∨ (0 : ℚ) + 1 < 0) →
      (ray_vs_rect ⟨.fin (-1), .fin 0⟩ ⟨.fin 0, .fin 1⟩ ⟨.fin 0, .fin 0, .fin 1, .fin 1⟩
        ⟨.fin 0, .fin 0⟩ ⟨.fin 0, .fin 0⟩ (.fin 0)).1 = false) ∧
    (∀ (o d : Vec2 EFloat) (t : Rect EFloat) (cp1 cn1 : Vec2 EFloat) (t1 : EFloat),
      ((slabFar o d t).x.isNan || (slabFar o d t).y.isNan
        || (slabNear o d t).x.isNan || (slabNear o d t).y.isNan) = true →
      (ray_vs_rect o d t cp1 cn1 t1).1 = false) ∧
    ((ray_vs_rect ⟨.fin (-1), .fin 0⟩ ⟨.fin 0, .fin 1⟩ ⟨.fin 0, .fin 0, .fin 1, .fin 1⟩
        ⟨.fin 0, .fin 0⟩ ⟨.fin 0, .fin 0⟩ (.fin 0)).1 = true →
      rvrNoNan (ray_vs_rect ⟨.fin (-1), .fin 0⟩ ⟨.fin 0, .fin 1⟩
        ⟨.fin 0, .fin 0, .fin 1, .fin 1⟩ ⟨.fin 0, .fin 0⟩ ⟨.fin 0, .fin 0⟩ (.fin 0))) :=
  ray_vs_rect_nan_spec (-1) 0 0 1 0 0 1 1 ⟨.fin 0, .fin 0⟩ ⟨.fin 0, .fin 0⟩ (.fin 0)
    (by norm_num) (by norm_num) (by norm_num) rfl rfl

/-! ## Room building blocks (src/dungeon.rs, src/items.rs, src/shots.rs) -/

/-- `dungeon::BlockTag`. -/
inductive BlockTag where
  | Door (dir : Direction) (is_open : Bool) (connects_to : Nat × Nat)
  | Wall
  | Stone
  | Spikes
  | Hatch (is_open : Bool)
  | Pedestal (item : Option Item)
deriving DecidableEq, Repr

/-- `dungeon::Block` (a stationary obstacle). -/
structure Block where
  posX : ℚ
  posY : ℚ
  scaleX : ℚ
  scaleY : ℚ
  tag : BlockTag
deriving DecidableEq, Repr

/-- The concrete enemy variant behind a `Box<dyn Actor>` in a room
(`EnemyMask` / `EnemyBlueGuy` / `EnemySlime` / `BossWeirdBall`). -/
inductive EnemyKind where
  | Mask
  | BlueGuy
  | Slime
  | Boss
deriving DecidableEq, Repr

/-- An enemy as the room holds it: variant, placement, damage, and the
`Actor` state/health that `Room::update`'s pruning inspects.  The
variant-specific AI fields are irrelevant to the claims and omitted;
`state` is `Base` and `health` the variant default at spawn. -/
structure Enemy where
  kind : EnemyKind
  posX : ℚ
  posY : ℚ
  scaleX : ℚ
  scaleY : ℚ
  damage : ℚ
  health : ℚ
  state : ActorState
deriving DecidableEq, Repr

/-- `shots::ShotTag`. -/
inductive ShotTag where
  | Player
  | Enemy
deriving DecidableEq, Repr

/-- `shots::Shot`. -/
structure Shot where
  posX : ℚ
  posY : ℚ
  translationX : ℚ
  translationY : ℚ
  velocityX : ℚ
  velocityY : ℚ
  speed : ℚ
  range : ℚ
  spawnX : ℚ
  spawnY : ℚ
  damage : ℚ
  tag : ShotTag
deriving DecidableEq, Repr

/-- `items::CollectableTag` (the final snapshot's variant set, as
constructed by `Room::generate_collectable`). -/
inductive CollectableTag where
  | Consumed
  | RedHeart (amount : ℚ)
  | SpeedBoost (amount : ℚ)
  | ShootRateBoost (amount : ℚ)
  | DamageBoost (amount : ℚ)
deriving DecidableEq, Repr

/-- `items::CollectableState`. -/
inductive CollectableState where
  | Base
  | Consumed
deriving DecidableEq, Repr

/-- `items::Collectable` as `Room::update`/`generate_collectable` use it
(fields `props`, `tag`, `state`; only position is kept of the props). -/
structure Collectable where
  posX : ℚ
  posY : ℚ
  scaleX : ℚ
  scaleY : ℚ
  tag : CollectableTag
  state : CollectableState
deriving DecidableEq, Repr

/-- `consts::ITEM_POOL_ACTIVE`. -/
def ITEM_POOL_ACTIVE : List ItemTag := [ItemTag.Active (ItemActive.Heal 1)]

/-- `consts::ITEM_POOL_PASSIVE`. -/
def ITEM_POOL_PASSIVE : List ItemTag := [ItemTag.Passive (ItemPassive.IncreaseMaxHealth 1)]

/-- `Room::generate_item`: a coin flip picks the active or passive pool,
then a uniform index picks the item; cooldown starts at 0. -/
def generate_item (rng : Rng) : Item × Rng :=
  let (b, r1) := rng.drawBool
  if b then
    let (k, r2) := r1.drawNat ITEM_POOL_ACTIVE.length
    ({ tag := ITEM_POOL_ACTIVE.getD k (ItemTag.Active (ItemActive.Heal 1)), cooldown := 0 }, r2)
  else
    let (k, r2) := r1.drawNat ITEM_POOL_PASSIVE.length
    ({ tag := ITEM_POOL_PASSIVE.getD k (ItemTag.Passive (ItemPassive.IncreaseMaxHealth 1)),
       cooldown := 0 }, r2)

/-- `Room::get_entity_pos`: centre of the tile at flat index `index`. -/
def get_entity_pos (sw sh rw rh : ℚ) (index : Nat) : ℚ × ℚ :=
  let dimX := sw / rw
  let dimY := sh / rh
  (((index % ROOM_WIDTH : Nat) : ℚ) * dimX + dimX / 2,
   ((index / ROOM_WIDTH : Nat) : ℚ) * dimY + dimY / 2)

/-- A 9×15 occupancy grid as a function (0 = free, `i32MIN` = blocked,
other values = BFS distances). -/
def RGrid : Type := Nat → Nat → Int

/-- Write one cell of an `RGrid`. -/
def RGrid.set (g : RGrid) (r c : Nat) (v : Int) : RGrid :=
  fun r' c' => if r' = r ∧ c' = c then v else g r' c'

/-- The all-zero grid. -/
def RGrid.zero : RGrid := fun _ _ => 0

/-- The state accumulated by `Room::parse_layout`'s character loop. -/
structure ParseState where
  doors : List Nat
  obstacles : List Block
  enemies : List Enemy
  grid : RGrid
  door_index : Nat

/-- One step of `Room::parse_layout` (one character at flat index `i`).
Obstacle characters first mark the grid cell blocked (spikes excepted),
then push a `Block`; `d` consumes the next `door_connects` slot and
degrades to a plain `Wall` when that slot is empty; `h` and connected
doors record their obstacle index in `doors`; `p` draws a random item.
Enemy characters push the corresponding variant at the tile centre. -/
def parseStep (sw sh rw rh : ℚ) (dcs : List (Option ((Nat × Nat) × Direction))) (amp : ℚ)
    (i : Nat) (c : Char) (st : ParseState) (rng : Rng) : ParseState × Rng :=
  let pos := get_entity_pos sw sh rw rh i
  if c = '#' ∨ c = '.' ∨ c = 'v' ∨ c = 'd' ∨ c = 'h' ∨ c = 'p' then
    let grid' := if c ≠ 'v' then st.grid.set (i / ROOM_WIDTH) (i % ROOM_WIDTH) i32MIN else st.grid
    let st := { st with grid := grid' }
    if c = 'd' then
      let door_index' := st.door_index + 1
      match dcs.getD (door_index' - 1) none with
      | some (connects_to, dir) =>
        ({ st with
            door_index := door_index',
            doors := st.doors ++ [st.obstacles.length],
            obstacles := st.obstacles ++
              [⟨pos.1, pos.2, WALL_SCALE, WALL_SCALE, BlockTag.Door dir true connects_to⟩] }, rng)
      | none =>
        ({ st with
            door_index := door_index',
            obstacles := st.obstacles ++
              [⟨pos.1, pos.2, WALL_SCALE, WALL_SCALE, BlockTag.Wall⟩] }, rng)
    else if c = '#' then
      ({ st with obstacles := st.obstacles ++
          [⟨pos.1, pos.2, WALL_SCALE, WALL_SCALE, BlockTag.Wall⟩] }, rng)
    else if c = '.' then
      ({ st with obstacles := st.obstacles ++
          [⟨pos.1, pos.2, WALL_SCALE, WALL_SCALE, BlockTag.Stone⟩] }, rng)
    else if c = 'v' then
      ({ st with obstacles := st.obstacles ++
          [⟨pos.1, pos.2, WALL_SCALE, WALL_SCALE, BlockTag.Spikes⟩] }, rng)
    else if c = 'h' then
      ({ st with
          doors := st.doors ++ [st.obstacles.length],
          obstacles := st.obstacles ++
            [⟨pos.1, pos.2, WALL_SCALE, WALL_SCALE, BlockTag.Hatch false⟩] }, rng)
    else
      let (item, rng') := generate_item rng
      ({ st with obstacles := st.obstacles ++
          [⟨pos.1, pos.2, WALL_SCALE, WALL_SCALE, BlockTag.Pedestal (some item)⟩] }, rng')
  else if c = 'm' then
    ({ st with enemies := st.enemies ++
        [⟨EnemyKind.Mask, pos.1, pos.2, ENEMY_SCALE, ENEMY_SCALE, ENEMY_DAMAGE * amp,
          3, ActorState.Base⟩] }, rng)
  else if c = 'b' then
    ({ st with enemies := st.enemies ++
        [⟨EnemyKind.BlueGuy, pos.1, pos.2, ENEMY_SCALE, ENEMY_SCALE, ENEMY_DAMAGE * amp,
          3, ActorState.Base⟩] }, rng)
  else if c = 's' then
    ({ st with enemies := st.enemies ++
        [⟨EnemyKind.Slime, pos.1, pos.2, ENEMY_SCALE, ENEMY_SCALE * (1/2), ENEMY_DAMAGE * amp,
          9/2, ActorState.Base⟩] }, rng)
  else if c = 'B' then
    ({ st with enemies := st.enemies ++
        [⟨EnemyKind.Boss, pos.1, pos.2, ENEMY_SCALE * 2, ENEMY_SCALE * 2,
          ENEMY_DAMAGE * 2 * amp, 50, ActorState.Base⟩] }, rng)
  else (st, rng)

/-- The character loop of `Room::parse_layout`. -/
def parseLayoutGo (sw sh rw rh : ℚ) (dcs : List (Option ((Nat × Nat) × Direction))) (amp : ℚ) :
    List Char → Nat → ParseState → Rng → ParseState × Rng
  | [], _, st, rng => (st, rng)
  | c :: rest, i, st, rng =>
    let (st', rng') := parseStep sw sh rw rh dcs amp i c st rng
    parseLayoutGo sw sh rw rh dcs amp rest (i + 1) st' rng'

/-- `Room::parse_layout` (src/dungeon.rs lines 172-264); the damage
amplifier is `clamp(level / ENEMY_DAMAGE, 0.5, 3)`. -/
def parse_layout (sw sh rw rh : ℚ) (layout : List Char)
    (dcs : List (Option ((Nat × Nat) × Direction))) (level : Nat) (rng : Rng) :
    ParseState × Rng :=
  let amp := max (1/2 : ℚ) (min 3 ((level : ℚ) / ENEMY_DAMAGE))
  parseLayoutGo sw sh rw rh dcs amp layout 0
    ⟨[], [], [], RGrid.zero, 0⟩ rng

/-! ### Layout templates (src/consts.rs lines 67-233) -/

def ROOM_LAYOUT_START : String := "
#######d#######
#             #
#             #
#             #
d             d
#             #
#             #
#             #
#######d#######
"

def ROOM_LAYOUTS_ITEM : List String := ["
#######d#######
#v           v#
#      v      #
#             #
d    v p v    d
#             #
#      v      #
#v           v#
#######d#######
"]

def ROOM_LAYOUTS_EMPTY : List String := ["
#######d#######
#             #
#   . . . .   #
#             #
d   . . . .   d
#             #
#   . . . .   #
#             #
#######d#######
", "
#######d#######
#             #
#   v v v v   #
#             #
d   v v v v   d
#             #
#   v v v v   #
#             #
#######d#######
", "
#######d#######
#             #
#    ....     #
#   .....     #
d             d
#     .....   #
#     ....    #
#             #
#######d#######
"]

def ROOM_LAYOUTS_MOB : List String := ["
#######d#######
#m           m#
#....     ....#
#             #
d             d
#             #
#....     ....#
#m           m#
#######d#######
", "
#######d#######
#.           .#
#.. . ... . ..#
#.  . m.m .  .#
d   .  .  .   d
#.  . m.m .  .#
#.. . ... . ..#
#.           .#
#######d#######
", "
#######d#######
#..         ..#
#.           .#
#      b      #
d     bbb     d
#      b      #
#.           .#
#..         ..#
#######d#######
", "
#######d#######
#             #
#      .      #
#  .     .    #
d   .b m b.   d
#             #
#      .      #
#             #
#######d#######
", "
#######d#######
#             #
#  s       s  #
#      s      #
d    s   s    d
#      s      #
#  s       s  #
#             #
#######d#######
", "
#######d#######
#          ...#
#           m.#
#          . .#
d             d
#. .          #
#.m           #
#...          #
#######d#######
", "
#######d#######
#.m.          #
#. .          #
#. .          #
d             d
#          . .#
#          . .#
#          .m.#
#######d#######
", "
#######d#######
#             #
#             #
#             #
d      b      d
#             #
#             #
#             #
#######d#######
"]

def ROOM_LAYOUTS_BOSS : List String := ["
#######d#######
#             #
#      h      #
#             #
d      B      d
#             #
#             #
#             #
#######d#######
"]

/-- Both-ends whitespace trim on a character list (Rust `str::trim`). -/
def trimChars (l : List Char) : List Char :=
  ((l.dropWhile fun c => c.isWhitespace).reverse.dropWhile fun c => c.isWhitespace).reverse

/-- Helper splitting a character list at newlines. -/
def splitNewlineGo : List Char → List Char → List (List Char)
  | [], acc => [acc.reverse]
  | c :: rest, acc =>
    if c = '\n' then acc.reverse :: splitNewlineGo rest []
    else splitNewlineGo rest (c :: acc)

/-- Rust `str::split('\n')`. -/
def splitNewline (l : List Char) : List (List Char) := splitNewlineGo l []

/-- `Room::generate_room`'s layout normalisation (src/dungeon.rs line
294): `layout.trim().split('\n').map(|l| l.trim()).collect::<String>()`:
trim, split at newlines, trim each line, concatenate. -/
def layoutChars (s : String) : List Char :=
  ((splitNewline (trimChars s.toList)).map trimChars).flatten

/-! ### C10: the nearest-open-tile search of `Room::generate_collectable` -/

/-- The BFS of `Room::generate_collectable` (src/dungeon.rs lines
348-364), with its off-by-one neighbour bounds tests `i < ROOM_HEIGHT`
and `j < ROOM_WIDTH` embedded as written: each `visited[i + 1][j]` /
`visited[i][j + 1]` guard access is bounds-checked, and an access outside
the 9×15 `visited` array is a Rust panic, modelled as `none`.  Fuel makes
the loop total; exhaustion also yields `none`.  On success the result is
the first dequeued tile with occupancy 0, or the room centre if the
queue empties. -/
def gcBFS (grid : RGrid) : Nat → List (Nat × Nat) → List (Nat × Nat) → Option (Nat × Nat)
  | 0, _, _ => none
  | _ + 1, [], _ => some (ROOM_HEIGHT / 2, ROOM_WIDTH / 2)
  | fuel + 1, (i, j) :: rest, visited =>
    if i < ROOM_HEIGHT ∧ j < ROOM_WIDTH then
      let visited := (i, j) :: visited
      if grid i j = 0 then some (i, j)
      else
        let q := rest
        let q := if 0 < i then (if visited.contains (i - 1, j) then q else q ++ [(i - 1, j)]) else q
        let q := if 0 < j then (if visited.contains (i, j - 1) then q else q ++ [(i, j - 1)]) else q
        let q :=
          if i < ROOM_HEIGHT then
            (if i + 1 < ROOM_HEIGHT then
              (if visited.contains (i + 1, j) then some q else some (q ++ [(i + 1, j)]))
            else none)
          else some q
        match q with
        | none => none
        | some q =>
          let q :=
            if j < ROOM_WIDTH then
              (if j + 1 < ROOM_WIDTH then
                (if visited.contains (i, j + 1) then some q else some (q ++ [(i, j + 1)]))
              else none)
            else some q
          match q with
          | none => none
          | some q => gcBFS grid fuel q visited
    else none

/-- `Room::generate_collectable`'s search from the room centre. -/
def gcSearch (grid : RGrid) : Option (Nat × Nat) :=
  gcBFS grid 1000 [(ROOM_HEIGHT / 2, ROOM_WIDTH / 2)] []

/-- The occupancy grid parsed from a layout template (the door
connections, level and rng cannot influence the grid). -/
def roomGridOf (L : String) : RGrid :=
  (parse_layout 1280 720 15 9 (layoutChars L) [none, none, none, none] 1 ⟨[], [], []⟩).1.grid

/-- The search terminates on a 0-occupancy tile without any
out-of-bounds access. -/
def gcFindsOpenTile (L : String) : Bool :=
  match gcSearch (roomGridOf L) with
  | some p => roomGridOf L p.1 p.2 == 0
  | none => false

/-- C10: for every shipped Mob and Boss layout, the nearest-open-tile
BFS of `Room::generate_collectable` dequeues a tile with occupancy 0
(and hence stops) before it ever dequeues a border tile, so despite its
neighbour bounds tests reading `visited[i+1][j]` with `i+1 = 9` (and
`visited[j+1]` with `j+1 = 15`) whenever a border tile is processed, no
out-of-bounds indexing is reached for the fixed layout set. -/
theorem generate_collectable_layouts_no_oob :
    (ROOM_LAYOUTS_MOB ++ ROOM_LAYOUTS_BOSS).all gcFindsOpenTile = true := by
  decide

/-! ## Room update (src/dungeon.rs lines 56-135, 346-385) -/

/-- `dungeon::RoomTag`. -/
inductive RoomTag where
  | Start
  | Empty
  | Mob
  | Boss
  | Item
deriving DecidableEq, Repr

/-- `dungeon::RoomState`. -/
inductive RoomState where
  | Undiscovered
  | Discovered
  | Cleared
deriving DecidableEq, Repr

/-- `dungeon::Room`. -/
structure Room where
  tag : RoomTag
  state : RoomState
  width : ℚ
  height : ℚ
  grid : RGrid
  dungeon_coords : Nat × Nat
  doors : List Nat
  obstacles : List Block
  enemies : List Enemy
  shots : List Shot
  drops : List Collectable

/-- `Room::generate_collectable` (src/dungeon.rs lines 346-385): with
probability 0.8 (one boolean draw), BFS for the nearest open tile to the
room centre (`gcSearch`, which can panic — `none`), then push one
collectable drop whose tag is drawn from `gen_range(0..101)`
(0-50 red heart with a further float draw, 51-65 speed boost 1.3,
66-80 damage boost 1.5, else shoot-rate boost 1.3).  With a `false`
first draw nothing is spawned. -/
def Room.generate_collectable (room : Room) (sw sh : ℚ) (rng : Rng) : Option (Room × Rng) :=
  let (b, r1) := rng.drawBool
  if b then
    match gcSearch room.grid with
    | none => none
    | some (r, c) =>
      let bw := sw / room.width
      let bh := sh / room.height
      let (p, r2) := r1.drawNat 101
      let posX := bw * (c : ℚ) + bw / 2
      let posY := bh * (r : ℚ) + bh / 2
      if p ≤ 50 then
        let (q, r3) := r2.drawRat
        some ({ room with drops := room.drops ++
          [⟨posX, posY, COLLECTABLE_SCALE, COLLECTABLE_SCALE,
            CollectableTag.RedHeart (((round (q + 1) : ℤ) : ℚ) / 2),
            CollectableState.Base⟩] }, r3)
      else if p ≤ 65 then
        some ({ room with drops := room.drops ++
          [⟨posX, posY, COLLECTABLE_SCALE, COLLECTABLE_SCALE,
            CollectableTag.SpeedBoost (13/10), CollectableState.Base⟩] }, r2)
      else if p ≤ 80 then
        some ({ room with drops := room.drops ++
          [⟨posX, posY, COLLECTABLE_SCALE, COLLECTABLE_SCALE,
            CollectableTag.DamageBoost (3/2), CollectableState.Base⟩] }, r2)
      else
        some ({ room with drops := room.drops ++
          [⟨posX, posY, COLLECTABLE_SCALE, COLLECTABLE_SCALE,
            CollectableTag.ShootRateBoost (13/10), CollectableState.Base⟩] }, r2)
  else some (room, r1)

/-- The `unreachable!()`-guarded door opening of `Room::update`'s cleared
branch: a `Door` opens, a `Hatch` opens, anything else is a panic. -/
def setDoorOpen (b : Block) : Option Block :=
  match b.tag with
  | BlockTag.Door dir _ connects_to => some { b with tag := BlockTag.Door dir true connects_to }
  | BlockTag.Hatch _ => some { b with tag := BlockTag.Hatch true }
  | _ => none

/-- The door closing of `Room::update`'s contested branch: an open
`Door` flips closed (with a sound cue), a closed one stays, a `Hatch`
closes, anything else is a panic. -/
def setDoorClosed (b : Block) : Option Block :=
  match b.tag with
  | BlockTag.Door dir is_open connects_to =>
    if is_open then some { b with tag := BlockTag.Door dir (!is_open) connects_to }
    else some { b with tag := BlockTag.Door dir is_open connects_to }
  | BlockTag.Hatch _ => some { b with tag := BlockTag.Hatch false }
  | _ => none

/-- Apply a door mutation at every recorded door index (`for door in
self.doors.iter()`), indexing `self.obstacles[*door]` (out of range is a
panic). -/
def mutateDoors (f : Block → Option Block) (obstacles : List Block) :
    List Nat → Option (List Block)
  | [] => some obstacles
  | d :: rest =>
    match obstacles.get? d with
    | none => none
    | some b =>
      match f b with
      | none => none
      | some b' => mutateDoors f (obstacles.set d b') rest

/-- The survivors of the dead-enemy prune after the per-enemy phase. -/
def survivingEnemies (room : Room)
    (shotPhase : Shot → Shot)
    (enemyPhase : List Enemy → List Shot → List Enemy × List Shot) : List Enemy :=
  ((enemyPhase room.enemies (room.shots.map shotPhase)).1).filter
    (fun e => !(e.state = ActorState.Dead : Bool))

/-- `Room::update` (src/dungeon.rs lines 56-135).  The per-entity
dynamics are passed in as oracles, since their physics/AI is outside
every claim: `shotPhase` is `Shot::update`, `enemyPhase` is the
combined `act`-then-`update` loop over the enemy list (which may also
append to the shot list), `dropPhase` is `Collectable::update`, and
`shotFaded` decides `pos.distance(spawn_pos) >= range` (a Euclidean
length).  Everything else — the three prunes, the cleared/contested
branch on the pruned enemy list, `generate_collectable`, the door
mutations and the active-item cooldown refund — is embedded directly;
`none` is a panic. -/
def Room.update (room : Room) (player : Player) (sw sh : ℚ)
    (shotPhase : Shot → Shot)
    (enemyPhase : List Enemy → List Shot → List Enemy × List Shot)
    (dropPhase : Collectable → Collectable)
    (shotFaded : Shot → Bool)
    (rng : Rng) : Option (Room × Player × Rng) :=
  let shots1 := room.shots.map shotPhase
  let es := enemyPhase room.enemies shots1
  let drops1 := room.drops.map dropPhase
  let enemies2 := es.1.filter (fun e => !(e.state = ActorState.Dead : Bool))
  let shots3 := es.2.filter (fun s => !(shotFaded s))
  let drops2 := drops1.filter (fun d => !(d.state = CollectableState.Consumed : Bool))
  if enemies2.isEmpty then
    let room1 := { room with
      state := RoomState.Cleared, enemies := enemies2, shots := shots3, drops := drops2 }
    match room1.tag with
    | RoomTag.Mob | RoomTag.Boss =>
      match room1.generate_collectable sw sh rng with
      | none => none
      | some (room2, rng') =>
        let room3 := { room2 with tag := RoomTag.Empty }
        match mutateDoors setDoorOpen room3.obstacles room3.doors with
        | none => none
        | some obs' =>
          let player' :=
            match player.item with
            | some i => { player with item := some { i with cooldown := max (i.cooldown - 1) 0 } }
            | none => player
          some ({ room3 with obstacles := obs' }, player', rng')
    | _ => some (room1, player, rng)
  else
    let room1 := { room with enemies := enemies2, shots := shots3, drops := drops2 }
    match mutateDoors setDoorClosed room1.obstacles room1.doors with
    | none => none
    | some obs' => some ({ room1 with obstacles := obs' }, player, rng)

/-- A door-or-hatch block whose flag is open. -/
def doorIsOpen (b : Block) : Prop :=
  match b.tag with
  | BlockTag.Door _ is_open _ => is_open = true
  | BlockTag.Hatch o => o = true
  | _ => False

/-- A door-or-hatch block whose flag is closed. -/
def doorIsClosed (b : Block) : Prop :=
  match b.tag with
  | BlockTag.Door _ is_open _ => is_open = false
  | BlockTag.Hatch o => o = false
  | _ => False

lemma setDoorOpen_open (b b' : Block) (h : setDoorOpen b = some b') : doorIsOpen b' := by
  rcases b with ⟨x, y, sx, sy, tag⟩
  cases tag <;> simp [setDoorOpen] at h <;> subst h <;> simp [doorIsOpen]

lemma setDoorClosed_closed (b b' : Block) (h : setDoorClosed b = some b') : doorIsClosed b' := by
  rcases b with ⟨x, y, sx, sy, tag⟩
  cases tag with
  | Door dir is_open ct =>
    cases is_open <;> simp [setDoorClosed] at h <;> subst h <;> simp [doorIsClosed]
  | Hatch o =>
    simp [setDoorClosed] at h
    subst h
    simp [doorIsClosed]
  | _ => simp [setDoorClosed] at h

/-- Positions that already satisfy `P` keep satisfying it through
`mutateDoors`, provided `f` only produces `P`-blocks. -/
lemma mutateDoors_persist (f : Block → Option Block) (P : Block → Prop)
    (hmap : ∀ b b', f b = some b' → P b') :
    ∀ (doors : List Nat) (obs obs' : List Block) (k : Nat) (b0 : Block),
      mutateDoors f obs doors = some obs' → obs.get? k = some b0 → P b0 →
      ∃ b, obs'.get? k = some b ∧ P b := by
  intro doors
  induction doors with
  | nil =>
    intro obs obs' k b0 h hk hP
    rw [mutateDoors] at h
    cases h
    exact ⟨b0, hk, hP⟩
  | cons d rest ih =>
    intro obs obs' k b0 h hk hP
    rw [mutateDoors] at h
    rcases hobs : obs.get? d with _ | bd
    · simp only [hobs] at h
      cases h
    · simp only [hobs] at h
      rcases hf : f bd with _ | bd'
      · simp only [hf] at h
        cases h
      · simp only [hf] at h
        by_cases hdk : k = d
        · subst hdk
          have hlen : k < obs.length := List.get?_eq_some.mp hk |>.1
          have hset : (obs.set k bd').get? k = some bd' := by
            rw [List.get?_set_eq]
            simp [hlen]
          exact ih _ _ _ _ h hset (hmap _ _ hf)
        · have hset : (obs.set d bd').get? k = obs.get? k := by
            rw [List.get?_set_ne]
            omega
          exact ih _ _ _ _ h (by rw [hset]; exact hk) hP

/-- After `mutateDoors f`, every listed door index holds a block that
`f` produced (hence satisfying `P`). -/
lemma mutateDoors_mem (f : Block → Option Block) (P : Block → Prop)
    (hmap : ∀ b b', f b = some b' → P b') :
    ∀ (doors : List Nat) (obs obs' : List Block),
      mutateDoors f obs doors = some obs' →
      ∀ d ∈ doors, ∃ b, obs'.get? d = some b ∧ P b := by
  intro doors
  induction doors with
  | nil =>
    intro obs obs' h d hd
    cases hd
  | cons d0 rest ih =>
    intro obs obs' h d hd
    rw [mutateDoors] at h
    rcases hobs : obs.get? d0 with _ | bd
    · simp only [hobs] at h
      cases h
    · simp only [hobs] at h
      rcases hf : f bd with _ | bd'
      · simp only [hf] at h
        cases h
      · simp only [hf] at h
        rcases List.mem_cons.mp hd with hd0 | hdr
        · subst hd0
          have hlen : d < obs.length := List.get?_eq_some.mp hobs |>.1
          have hset : (obs.set d bd').get? d = some bd' := by
            rw [List.get?_set_eq]
            simp [hlen]
          exact mutateDoors_persist f P hmap rest _ _ _ _ h hset (hmap _ _ hf)
        · exact ih _ _ h d hdr

/-- `generate_collectable` never touches anything but the drop list: it
preserves tag, state, doors and obstacles, and appends exactly one drop
when the 0.8-probability draw comes up `true`, none otherwise. -/
lemma generate_collectable_shape (room : Room) (sw sh : ℚ) (rng : Rng)
    (room2 : Room) (rng' : Rng)
    (h : room.generate_collectable sw sh rng = some (room2, rng')) :
    room2.tag = room.tag ∧ room2.state = room.state ∧ room2.doors = room.doors ∧
    room2.obstacles = room.obstacles ∧
    room2.drops.length = room.drops.length + (if (rng.drawBool).1 then 1 else 0) := by
  rw [Room.generate_collectable] at h
  rcases hdb : rng.drawBool with ⟨b, r1⟩
  cases b with
  | false =>
    simp only [hdb, Bool.false_eq_true, if_false] at h
    rcases h with ⟨rfl, rfl⟩
    simp [hdb]
  | true =>
    rcases hgc : gcSearch room.grid with _ | rc
    · simp [hdb, hgc] at h
    · rcases rc with ⟨r, c⟩
      rcases hdn : r1.drawNat 101 with ⟨p, q2⟩
      rcases hdr : q2.drawRat with ⟨q, r3⟩
      simp only [hdb, hgc, hdn, hdr, if_true] at h
      split_ifs at h <;>
        (rcases h with ⟨rfl, rfl⟩; simp [hdb, List.length_append])

/-- C5, amended: during `Room::update` of a Mob or Boss room, exactly
when the pruned enemy list is empty the room's tag changes to `Empty`
(and its state to `Cleared`), every recorded door obstacle is set open,
a collectable drop is spawned **iff the 0.8-probability draw comes up
true** (one more drop than the pruned drop list, else exactly the pruned
drop list), and the player's held active-item cooldown is reduced by 1
**clamped below at 0**; while enemies remain no such transition occurs,
the player is untouched, and every recorded door is closed. -/
theorem room_update_clear_transition
    (room : Room) (player : Player) (sw sh : ℚ)
    (shotPhase : Shot → Shot)
    (enemyPhase : List Enemy → List Shot → List Enemy × List Shot)
    (dropPhase : Collectable → Collectable)
    (shotFaded : Shot → Bool)
    (rng : Rng)
    (htag : room.tag = RoomTag.Mob ∨ room.tag = RoomTag.Boss)
    (room' : Room) (player' : Player) (rng' : Rng)
    (hupd : room.update player sw sh shotPhase enemyPhase dropPhase shotFaded rng
      = some (room', player', rng')) :
    (survivingEnemies room shotPhase enemyPhase = [] →
      room'.tag = RoomTag.Empty ∧
      room'.state = RoomState.Cleared ∧
      (∀ d ∈ room'.doors, ∃ b, room'.obstacles.get? d = some b ∧ doorIsOpen b) ∧
      room'.drops.length =
        ((room.drops.map dropPhase).filter
          (fun d => !(d.state = CollectableState.Consumed : Bool))).length
          + (if (rng.drawBool).1 then 1 else 0) ∧
      player'.item = player.item.map (fun i => { i with cooldown := max (i.cooldown - 1) 0 })) ∧
    (survivingEnemies room shotPhase enemyPhase ≠ [] →
      room'.tag = room.tag ∧
      room'.state = room.state ∧
      player' = player ∧
      room'.drops.length =
        ((room.drops.map dropPhase).filter
          (fun d => !(d.state = CollectableState.Consumed : Bool))).length ∧
      (∀ d ∈ room'.doors, ∃ b, room'.obstacles.get? d = some b ∧ doorIsClosed b)) := by
  simp only [Room.update] at hupd
  set S1 := room.shots.map shotPhase with hS1
  set ES := enemyPhase room.enemies S1 with hES
  set E := ES.1.filter (fun e => !(e.state = ActorState.Dead : Bool)) with hEdef
  set S3 := ES.2.filter (fun s => !(shotFaded s)) with hS3
  set D2 := (room.drops.map dropPhase).filter
    (fun d => !(d.state = CollectableState.Consumed : Bool)) with hD2
  have hsurv : survivingEnemies room shotPhase enemyPhase = E := rfl
  constructor
  · intro hnil
    have hEnil : E = [] := hsurv.symm.trans hnil
    rw [hEnil] at hupd
    simp only [List.isEmpty_nil, if_true] at hupd
    set R1 : Room := { room with
      state := RoomState.Cleared, enemies := ([] : List Enemy),
      shots := S3, drops := D2 } with hR1
    rcases htag with ht | ht <;>
    · rw [show R1.tag = room.tag from rfl, ht] at hupd
      rcases hO : R1.generate_collectable sw sh rng with _ | rr
      · rw [hO] at hupd
        simp at hupd
      · rcases rr with ⟨room2, rng2⟩
        rw [hO] at hupd
        simp only [] at hupd
        obtain ⟨hstag, hsstate, hsdoors, hsobs, hsdrops⟩ :=
          generate_collectable_shape R1 sw sh rng room2 rng2 hO
        rcases hmd : mutateDoors setDoorOpen room2.obstacles room2.doors with _ | obs2
        · rw [hmd] at hupd
          simp at hupd
        · rw [hmd] at hupd
          simp only [Option.some.injEq, Prod.mk.injEq] at hupd
          obtain ⟨rfl, rfl, rfl⟩ := hupd
          refine ⟨rfl, by simpa using hsstate, ?_, ?_, ?_⟩
          · intro d hd
            have hd2 : d ∈ room2.doors := by
              simpa [hsdoors] using hd
            simpa using mutateDoors_mem setDoorOpen doorIsOpen setDoorOpen_open
              room2.doors room2.obstacles obs2 hmd d hd2
          · simpa using hsdrops
          · rcases hpi : player.item with _ | it <;> simp [hpi]
  · intro hne
    have hEne : E ≠ [] := fun h => hne (hsurv.trans h)
    have hie : E.isEmpty = false := by
      rcases hEl : E with _ | ⟨e, es⟩
      · exact absurd hEl hEne
      · rfl
    rw [hie] at hupd
    simp only [Bool.false_eq_true, if_false] at hupd
    rcases hmd : mutateDoors setDoorClosed room.obstacles room.doors with _ | obs2
    · rw [show ({ room with enemies := E, shots := S3, drops := D2 } : Room).obstacles
          = room.obstacles from rfl,
        show ({ room with enemies := E, shots := S3, drops := D2 } : Room).doors
          = room.doors from rfl, hmd] at hupd
      simp at hupd
    · rw [show ({ room with enemies := E, shots := S3, drops := D2 } : Room).obstacles
          = room.obstacles from rfl,
        show ({ room with enemies := E, shots := S3, drops := D2 } : Room).doors
          = room.doors from rfl, hmd] at hupd
      simp only [Option.some.injEq, Prod.mk.injEq] at hupd
      obtain ⟨rfl, rfl, rfl⟩ := hupd
      refine ⟨rfl, rfl, rfl, rfl, ?_⟩
      intro d hd
      simpa using mutateDoors_mem setDoorClosed doorIsClosed setDoorClosed_closed
        room.doors room.obstacles obs2 hmd d (by simpa using hd)

/-- A doorless Mob room with no enemies left (cleared this tick). -/
def mobRoomNoDoors : Room :=
  { tag := RoomTag.Mob, state := RoomState.Undiscovered, width := 15, height := 9,
    grid := RGrid.zero, dungeon_coords := (3, 5), doors := [], obstacles := [],
    enemies := [], shots := [], drops := [] }

/-- A player holding an active item half-way through its cooldown. -/
def playerHalfCooldownItem : Player :=
  { playerOnCooldown with
    damaged_cooldown := 0, item := some ⟨ItemTag.Active (ItemActive.Heal 1), 1/2⟩ }

/-- The room after the clear transition. -/
def clearedMobRoom : Room :=
  { mobRoomNoDoors with tag := RoomTag.Empty, state := RoomState.Cleared }

/-- The player after the clear transition's cooldown refund. -/
def playerAfterClear : Player :=
  { playerHalfCooldownItem with item := some ⟨ItemTag.Active (ItemActive.Heal 1), 0⟩ }

/-- One concrete `Room::update` tick on the cleared Mob room, with the
0.8-probability draw coming up `false`. -/
lemma roomUpdateConcreteEval :
    Room.update mobRoomNoDoors playerHalfCooldownItem 1280 720 id (fun es ss => (es, ss)) id
      (fun _ => false) ⟨[false], [], []⟩
      = some (clearedMobRoom, playerAfterClear, ⟨[], [], []⟩) := by
  rw [Room.update]
  simp only [mobRoomNoDoors, List.map_nil, List.filter_nil, List.isEmpty_nil, if_true]
  rw [Room.generate_collectable]
  simp only [Rng.drawBool, Bool.false_eq_true, if_false, mutateDoors]
  simp only [playerHalfCooldownItem, playerOnCooldown, clearedMobRoom, playerAfterClear,
    mobRoomNoDoors, Option.some.injEq, Prod.mk.injEq]
  norm_num

/-- C5 counterexample: a Mob room whose enemy list becomes empty does
transition to `Empty`, but with the 0.8-probability draw `false` **no
collectable drop is spawned**, and a held active item at cooldown 1/2 is
reduced to 0 — by 1/2, not by 1 (the code clamps `cooldown - 1` at 0). -/
theorem room_update_no_drop_counterexample :
    Room.update mobRoomNoDoors playerHalfCooldownItem 1280 720 id (fun es ss => (es, ss)) id
      (fun _ => false) ⟨[false], [], []⟩
      = some (clearedMobRoom, playerAfterClear, ⟨[], [], []⟩) ∧
    clearedMobRoom.tag = RoomTag.Empty ∧
    clearedMobRoom.drops = [] ∧
    playerAfterClear.item.map Item.cooldown = some 0 ∧
    playerHalfCooldownItem.item.map Item.cooldown = some (1/2) := by
  refine ⟨roomUpdateConcreteEval, rfl, rfl, rfl, rfl⟩

/-- C5 witness: the amended transition statement applied to that
concrete cleared Mob room. -/
theorem room_update_clear_transition_witness :
    (survivingEnemies mobRoomNoDoors id (fun es ss => (es, ss)) = [] →
      clearedMobRoom.tag = RoomTag.Empty ∧
      clearedMobRoom.state = RoomState.Cleared ∧
      (∀ d ∈ clearedMobRoom.doors, ∃ b,
        clearedMobRoom.obstacles.get? d = some b ∧ doorIsOpen b) ∧
      clearedMobRoom.drops.length =
        ((mobRoomNoDoors.drops.map id).filter
          (fun d => !(d.state = CollectableState.Consumed : Bool))).length
          + (if ((⟨[false], [], []⟩ : Rng).drawBool).1 then 1 else 0) ∧
      playerAfterClear.item = playerHalfCooldownItem.item.map
        (fun i => { i with cooldown := max (i.cooldown - 1) 0 })) ∧
    (survivingEnemies mobRoomNoDoors id (fun es ss => (es, ss)) ≠ [] →
      clearedMobRoom.tag = mobRoomNoDoors.tag ∧
      clearedMobRoom.state = mobRoomNoDoors.state ∧
      playerAfterClear = playerHalfCooldownItem ∧
      clearedMobRoom.drops.length =
        ((mobRoomNoDoors.drops.map id).filter
          (fun d => !(d.state = CollectableState.Consumed : Bool))).length ∧
      (∀ d ∈ clearedMobRoom.doors, ∃ b,
        clearedMobRoom.obstacles.get? d = some b ∧ doorIsClosed b)) :=
  room_update_clear_transition mobRoomNoDoors playerHalfCooldownItem 1280 720 id
    (fun es ss => (es, ss)) id (fun _ => false) ⟨[false], [], []⟩ (Or.inl rfl)
    clearedMobRoom playerAfterClear ⟨[], [], []⟩ roomUpdateConcreteEval

/-! ## Dungeon generation (src/dungeon.rs lines 398-559) -/

/-- The 8×9 occupancy-and-index grid of `generate_dungeon`: 0 is empty,
`k+1` marks the room admitted `k`-th (`room_dungeon_coords.len()` at
admission time). -/
def DGrid : Type := Nat → Nat → Nat

/-- Write one cell. -/
def DGrid.set (g : DGrid) (i j v : Nat) : DGrid :=
  fun i' j' => if i' = i ∧ j' = j then v else g i' j'

/-- The empty grid. -/
def DGrid.zero : DGrid := fun _ _ => 0

/-- `Dungeon::get_start_room_coords`. -/
def start_room_coords : Nat × Nat := (3, 5)

/-- `Dungeon::check_room_cardinals`: how many of the four cardinal
neighbours are occupied (checked in source order: south, north, east,
west). -/
def check_room_cardinals (g : DGrid) (room : Nat × Nat) : Nat :=
  let i := room.1
  let j := room.2
  (if i < DUNGEON_GRID_ROWS - 1 ∧ g (i + 1) j ≠ 0 then 1 else 0) +
  (if 0 < i ∧ g (i - 1) j ≠ 0 then 1 else 0) +
  (if j < DUNGEON_GRID_COLS - 1 ∧ g i (j + 1) ≠ 0 then 1 else 0) +
  (if 0 < j ∧ g i (j - 1) ≠ 0 then 1 else 0)

/-- The mutable state of `generate_dungeon`'s admission loop: the index
grid, the admitted `(coords, depth)` list, the BFS frontier queue, and
the draw oracle. -/
structure GenState where
  grid : DGrid
  coords : List ((Nat × Nat) × Nat)
  q : List ((Nat × Nat) × Nat)
  rng : Rng

/-- One direction attempt of the admission loop: the boolean is always
drawn (Rust's `&&` evaluates `gen_bool` first), then the neighbour is
admitted if the budget allows, the target (whose in-bounds test `ok` was
computed by the caller) is unoccupied, and it would keep at most one
occupied cardinal neighbour. -/
def expandDir (count : Nat) (tgt : Nat × Nat) (ok : Bool) (c : Nat) (st : GenState) : GenState :=
  let (b, rng') := st.rng.drawBool
  if b ∧ st.coords.length < count ∧ ok ∧ st.grid tgt.1 tgt.2 = 0 ∧
      check_room_cardinals st.grid tgt ≤ 1 then
    { grid := st.grid.set tgt.1 tgt.2 (st.coords.length + 1),
      coords := st.coords ++ [(tgt, c + 1)],
      q := st.q ++ [(tgt, c + 1)],
      rng := rng' }
  else { st with rng := rng' }

/-- One pop of the admission loop: try the four cardinal neighbours in
source order (south, north, east, west). -/
def expandStep (count : Nat) (st : GenState) : GenState :=
  match st.q with
  | [] => st
  | ((i, j), c) :: rest =>
    let st1 := { st with q := rest }
    let st2 := expandDir count (i + 1, j) (decide (i < DUNGEON_GRID_ROWS - 1)) c st1
    let st3 := expandDir count (i - 1, j) (decide (0 < i)) c st2
    let st4 := expandDir count (i, j + 1) (decide (j < DUNGEON_GRID_COLS - 1)) c st3
    expandDir count (i, j - 1) (decide (0 < j)) c st4

/-- The `while !q.is_empty()` admission loop, fuelled; running out of
fuel mid-loop aborts the whole generation (`none`). -/
def expandLoop (count : Nat) : Nat → GenState → Option GenState
  | 0, st => if st.q.isEmpty then some st else none
  | fuel + 1, st => if st.q.isEmpty then some st else expandLoop count fuel (expandStep count st)

/-- The four conditional neighbour pushes of
`Dungeon::check_dungeon_consistency`, in source order (south, north,
east, west): occupied in-bounds cardinal neighbours of `(i, j)`. -/
def consNbrs (g : DGrid) (i j : Nat) : List (Nat × Nat) :=
  (if i < DUNGEON_GRID_ROWS - 1 ∧ g (i + 1) j ≠ 0 then [(i + 1, j)] else []) ++
  (if 0 < i ∧ g (i - 1) j ≠ 0 then [(i - 1, j)] else []) ++
  (if j < DUNGEON_GRID_COLS - 1 ∧ g i (j + 1) ≠ 0 then [(i, j + 1)] else []) ++
  (if 0 < j ∧ g i (j - 1) ≠ 0 then [(i, j - 1)] else [])

/-- The queue step of `Dungeon::check_dungeon_consistency`: pop, skip if
already checked, else mark `checked[grid[i][j] - 1]` and push the
occupied cardinal neighbours. -/
def consistencyLoop (g : DGrid) : Nat → List (Nat × Nat) → List Bool → Option (List Bool)
  | 0, q, checked => if q.isEmpty then some checked else none
  | _ + 1, [], checked => some checked
  | fuel + 1, (i, j) :: rest, checked =>
    if checked.getD (g i j - 1) false then consistencyLoop g fuel rest checked
    else consistencyLoop g fuel (rest ++ consNbrs g i j) (checked.set (g i j - 1) true)

/-- `Dungeon::check_dungeon_consistency`: BFS from the start coordinate
over occupied cells; true iff every one of the `rooms_len` admitted
rooms was visited.  Fuel exhaustion counts as failure (which only ever
forces an extra retry, never an extra acceptance). -/
def check_dungeon_consistency (g : DGrid) (rooms_len : Nat) (fuel : Nat) : Bool :=
  match consistencyLoop g fuel [start_room_coords] (List.replicate rooms_len false) with
  | some checked => !(checked.contains false)
  | none => false

/-- The retry loop of `generate_dungeon` (steps 1-4): draw the room
budget, expand from the start, retry on under-production or failed
connectivity.  Returns the accepted grid and admission list. -/
def genLoop (level : Nat) : Nat → Nat → Nat → Rng → Option (DGrid × List ((Nat × Nat) × Nat) × Rng)
  | 0, _, _, _ => none
  | attempts + 1, ef, cf, rng =>
    let (k, rng1) := rng.drawNat 2
    let room_count := k + 5 + level * 2
    let st0 : GenState :=
      { grid := DGrid.zero.set start_room_coords.1 start_room_coords.2 1,
        coords := [(start_room_coords, 0)],
        q := [(start_room_coords, 0)],
        rng := rng1 }
    match expandLoop room_count ef st0 with
    | none => none
    | some st =>
      if st.coords.length < room_count then genLoop level attempts ef cf st.rng
      else if check_dungeon_consistency st.grid room_count cf then
        some (st.grid, st.coords, st.rng)
      else genLoop level attempts ef cf st.rng

/-- The sort key of step 5: `(BFS depth, cardinal neighbour count)`,
compared lexicographically ascending (Rust `sort_by_key` on the tuple). -/
def genLe (g : DGrid) (a b : (Nat × Nat) × Nat) : Prop :=
  a.2 < b.2 ∨ (a.2 = b.2 ∧ check_room_cardinals g a.1 ≤ check_room_cardinals g b.1)

instance genLeDec (g : DGrid) : DecidableRel (genLe g) := fun a b => by
  rw [genLe]
  infer_instance

/-- `room_dungeon_coords.sort_by_key(|k| (k.1, check_room_cardinals(&grid, k.0)))`
as a stable sort (insertion sort with a non-strict key comparison is
stable, like Rust's `sort_by_key`). -/
def sortByKeyGrid (g : DGrid) (l : List ((Nat × Nat) × Nat)) : List ((Nat × Nat) × Nat) :=
  l.insertionSort (genLe g)

/-- `Room::generate_room`: pick a layout for the tag (uniform draw for
all but the fixed start layout), normalise it, parse it. -/
def generate_room (screen : ℚ × ℚ) (dungeon_coords : Nat × Nat)
    (door_connects : List (Option ((Nat × Nat) × Direction))) (tag : RoomTag) (level : Nat)
    (rng : Rng) : Room × Rng :=
  let (layout, rng1) :=
    match tag with
    | RoomTag.Start => (ROOM_LAYOUT_START, rng)
    | RoomTag.Mob =>
      let (k, r) := rng.drawNat ROOM_LAYOUTS_MOB.length
      (ROOM_LAYOUTS_MOB.getD k "", r)
    | RoomTag.Empty =>
      let (k, r) := rng.drawNat ROOM_LAYOUTS_EMPTY.length
      (ROOM_LAYOUTS_EMPTY.getD k "", r)
    | RoomTag.Item =>
      let (k, r) := rng.drawNat ROOM_LAYOUTS_ITEM.length
      (ROOM_LAYOUTS_ITEM.getD k "", r)
    | RoomTag.Boss =>
      let (k, r) := rng.drawNat ROOM_LAYOUTS_BOSS.length
      (ROOM_LAYOUTS_BOSS.getD k "", r)
  let (ps, rng2) := parse_layout screen.1 screen.2 (ROOM_WIDTH : ℚ) (ROOM_HEIGHT : ℚ)
    (layoutChars layout) door_connects level rng1
  ({ tag := tag, state := RoomState.Undiscovered,
     width := (ROOM_WIDTH : ℚ), height := (ROOM_HEIGHT : ℚ),
     grid := ps.grid, dungeon_coords := dungeon_coords, doors := ps.doors,
     obstacles := ps.obstacles, enemies := ps.enemies, shots := [], drops := [] }, rng2)

/-- The role-assignment and room-building loop of `generate_dungeon`
(steps 6-7): walk the sorted admission list; the start coordinate gets
`Start`, then `special_rooms` (`vec![Item, Boss]`) is popped from the
back, and once exhausted each room is `Mob` with probability 0.8 else
`Empty`; every room's four door connections point at its occupied
cardinal neighbours (north, west, east, south order). -/
def buildRooms (screen : ℚ × ℚ) (g : DGrid) (level : Nat) :
    List ((Nat × Nat) × Nat) → (Nat → Nat → Option Room) → List RoomTag → Rng →
    (Nat → Nat → Option Room) × Rng
  | [], rooms, _, rng => (rooms, rng)
  | ((i, j), _) :: rest, rooms, special, rng =>
    let doors : List (Option ((Nat × Nat) × Direction)) :=
      [if 0 < i ∧ g (i - 1) j ≠ 0 then some ((i - 1, j), Direction.North) else none,
       if 0 < j ∧ g i (j - 1) ≠ 0 then some ((i, j - 1), Direction.West) else none,
       if j < DUNGEON_GRID_COLS - 1 ∧ g i (j + 1) ≠ 0 then some ((i, j + 1), Direction.East) else none,
       if i < DUNGEON_GRID_ROWS - 1 ∧ g (i + 1) j ≠ 0 then some ((i + 1, j), Direction.South) else none]
    let (tag, special', rng1) :=
      if (i, j) = start_room_coords then (RoomTag.Start, special, rng)
      else
        match special.getLast? with
        | some s => (s, special.dropLast, rng)
        | none =>
          let (b, r) := rng.drawBool
          (if b then RoomTag.Mob else RoomTag.Empty, special, r)
    let (room, rng2) := generate_room screen (i, j) doors tag level rng1
    buildRooms screen g level rest
      (fun i' j' => if i' = i ∧ j' = j then some room else rooms i' j') special' rng2

/-- `dungeon::Dungeon`. -/
structure Dungeon where
  grid : Nat → Nat → Option Room
  level : Nat

/-- `Dungeon::generate_dungeon` (src/dungeon.rs lines 405-485), fuelled
in its two unbounded loops (`attempts` outer retries, `ef`/`cf` for the
two inner queues); any fuel exhaustion aborts with `none`, so every
`some` result is a dungeon the source algorithm produces for the same
draw sequence. -/
def generate_dungeon (screen : ℚ × ℚ) (attempts ef cf level : Nat) (rng : Rng) :
    Option (Dungeon × Rng) :=
  match genLoop level attempts ef cf rng with
  | none => none
  | some (g, coords, rng1) =>
    let sorted := sortByKeyGrid g coords
    let (rooms, rng2) := buildRooms screen g level sorted (fun _ _ => none)
      [RoomTag.Item, RoomTag.Boss] rng1
    some ({ grid := rooms, level := level }, rng2)

/-! ### Invariants of the admission loop -/

/-- Invariant tying the index grid to the admission list: cell of the
`k`-th admitted coordinate holds `k+1`; every nonzero cell is an
admitted coordinate at the index its value encodes; the head is the
start entry at depth 0; later entries have depth at least 1; all
entries are inside the 8×9 grid. -/
structure GridInv (g : DGrid) (coords : List ((Nat × Nat) × Nat)) : Prop where
  idx : ∀ k e, coords.get? k = some e → g e.1.1 e.1.2 = k + 1
  surj : ∀ i j, g i j ≠ 0 → ∃ e, coords.get? (g i j - 1) = some e ∧ e.1 = (i, j)
  head : coords.get? 0 = some (start_room_coords, 0)
  depth : ∀ k e, coords.get? (k + 1) = some e → 1 ≤ e.2
  bounds : ∀ e ∈ coords, e.1.1 < DUNGEON_GRID_ROWS ∧ e.1.2 < DUNGEON_GRID_COLS

/-- Full loop invariant, also bounding the admission count and keeping
the frontier in bounds. -/
def GenInv (count : Nat) (st : GenState) : Prop :=
  GridInv st.grid st.coords ∧ st.coords.length ≤ count ∧
    ∀ e ∈ st.q, e.1.1 < DUNGEON_GRID_ROWS ∧ e.1.2 < DUNGEON_GRID_COLS

theorem get?_some_lt {α : Type} {l : List α} {k : Nat} {a : α} (h : l.get? k = some a) :
    k < l.length := by
  by_contra hc
  rw [List.get?_eq_none.mpr (by omega)] at h
  cases h

theorem expandDir_inv {count : Nat} {tgt : Nat × Nat} {ok : Bool} {c : Nat} {st : GenState}
    (h : GenInv count st)
    (htgt : ok = true → tgt.1 < DUNGEON_GRID_ROWS ∧ tgt.2 < DUNGEON_GRID_COLS) :
    GenInv count (expandDir count tgt ok c st) := by
  obtain ⟨hg, hlen, hq⟩ := h
  rw [expandDir]
  rcases hdb : st.rng.drawBool with ⟨b, rng'⟩
  simp only []
  split_ifs with hcond
  · obtain ⟨hb, hlt, hok, hzero, -⟩ := hcond
    obtain ⟨hb1, hb2⟩ := htgt hok
    refine ⟨⟨?_, ?_, ?_, ?_, ?_⟩, ?_, ?_⟩
    · intro k e hk
      by_cases hklt : k < st.coords.length
      · rw [List.get?_append hklt] at hk
        have := hg.idx k e hk
        simp only [DGrid.set]
        by_cases he : e.1.1 = tgt.1 ∧ e.1.2 = tgt.2
        · exfalso
          have : st.grid tgt.1 tgt.2 = k + 1 := by rw [← he.1, ← he.2]; exact this
          omega
        · simp only [he, if_false]
          exact this
      · have hk' : k = st.coords.length := by
          have := get?_some_lt hk
          simp only [List.length_append, List.length_cons, List.length_nil] at this
          omega
        subst hk'
        rw [List.get?_concat_length] at hk
        cases hk
        simp [DGrid.set]
    · intro i j hij
      simp only [DGrid.set] at hij ⊢
      by_cases he : i = tgt.1 ∧ j = tgt.2
      · simp only [he, if_true, and_self] at hij ⊢
        refine ⟨(tgt, c + 1), ?_, ?_⟩
        · simp only [Nat.add_sub_cancel]
          exact List.get?_concat_length _ _
        · simp [he.1, he.2]
      · simp only [he, if_false] at hij ⊢
        obtain ⟨e, he1, he2⟩ := hg.surj i j hij
        have hlt' : st.grid i j - 1 < st.coords.length := get?_some_lt he1
        exact ⟨e, by rw [List.get?_append hlt']; exact he1, he2⟩
    · have hlt0 : 0 < st.coords.length := get?_some_lt hg.head
      rw [List.get?_append hlt0]
      exact hg.head
    · intro k e hk
      by_cases hklt : k + 1 < st.coords.length
      · rw [List.get?_append hklt] at hk
        exact hg.depth k e hk
      · have hk' : k + 1 = st.coords.length := by
          have := get?_some_lt hk
          simp only [List.length_append, List.length_cons, List.length_nil] at this
          omega
        rw [hk', List.get?_concat_length] at hk
        cases hk
        exact Nat.le_add_left 1 c
    · intro e he
      rcases List.mem_append.mp he with h1 | h1
      · exact hg.bounds e h1
      · simp only [List.mem_singleton] at h1
        subst h1
        exact ⟨hb1, hb2⟩
    · simp only [List.length_append, List.length_cons, List.length_nil]
      omega
    · intro e he
      rcases List.mem_append.mp he with h1 | h1
      · exact hq e h1
      · simp only [List.mem_singleton] at h1
        subst h1
        exact ⟨hb1, hb2⟩
  · exact ⟨hg, hlen, hq⟩

theorem expandStep_inv {count : Nat} {st : GenState} (h : GenInv count st) :
    GenInv count (expandStep count st) := by
  rw [expandStep]
  rcases hqe : st.q with - | ⟨⟨⟨i, j⟩, c⟩, rest⟩
  · exact h
  · have hpop : (i, j).1 < DUNGEON_GRID_ROWS ∧ (i, j).2 < DUNGEON_GRID_COLS := by
      refine h.2.2 ((i, j), c) ?_
      rw [hqe]; exact List.mem_cons_self _ _
    have h1 : GenInv count { st with q := rest } := by
      refine ⟨h.1, h.2.1, ?_⟩
      intro e he
      refine h.2.2 e ?_
      rw [hqe]; exact List.mem_cons_of_mem _ he
    have hd1 : decide (i < DUNGEON_GRID_ROWS - 1) = true →
        (i + 1, j).1 < DUNGEON_GRID_ROWS ∧ (i + 1, j).2 < DUNGEON_GRID_COLS := by
      intro hok
      simp only [decide_eq_true_eq] at hok
      exact ⟨by simp only []; omega, hpop.2⟩
    have hd2 : decide (0 < i) = true →
        (i - 1, j).1 < DUNGEON_GRID_ROWS ∧ (i - 1, j).2 < DUNGEON_GRID_COLS := by
      intro _
      exact ⟨Nat.lt_of_le_of_lt (Nat.sub_le i 1) hpop.1, hpop.2⟩
    have hd3 : decide (j < DUNGEON_GRID_COLS - 1) = true →
        (i, j + 1).1 < DUNGEON_GRID_ROWS ∧ (i, j + 1).2 < DUNGEON_GRID_COLS := by
      intro hok
      simp only [decide_eq_true_eq] at hok
      exact ⟨hpop.1, by simp only []; omega⟩
    have hd4 : decide (0 < j) = true →
        (i, j - 1).1 < DUNGEON_GRID_ROWS ∧ (i, j - 1).2 < DUNGEON_GRID_COLS := by
      intro _
      exact ⟨hpop.1, Nat.lt_of_le_of_lt (Nat.sub_le j 1) hpop.2⟩
    exact expandDir_inv (expandDir_inv (expandDir_inv (expandDir_inv h1 hd1) hd2) hd3) hd4

theorem expandLoop_inv {count : Nat} : ∀ {fuel : Nat} {st st' : GenState},
    expandLoop count fuel st = some st' → GenInv count st → GenInv count st'
  | 0, st, st', h, hinv => by
    rw [expandLoop] at h
    split_ifs at h
    cases h
    exact hinv
  | fuel + 1, st, st', h, hinv => by
    rw [expandLoop] at h
    split_ifs at h
    · cases h
      exact hinv
    · exact expandLoop_inv h (expandStep_inv hinv)

theorem genLoop_spec {level : Nat} : ∀ {attempts : Nat} {ef cf : Nat} {rng : Rng}
    {g : DGrid} {coords : List ((Nat × Nat) × Nat)} {rng1 : Rng},
    genLoop level attempts ef cf rng = some (g, coords, rng1) →
    GridInv g coords ∧ 5 + level * 2 ≤ coords.length ∧
      check_dungeon_consistency g coords.length cf = true
  | 0, ef, cf, rng, g, coords, rng1, h => by cases h
  | attempts + 1, ef, cf, rng, g, coords, rng1, h => by
    rw [genLoop] at h
    rcases hdn : rng.drawNat 2 with ⟨k, rngk⟩
    rw [hdn] at h
    simp only [] at h
    rcases hel : expandLoop (k + 5 + level * 2) ef
        { grid := DGrid.zero.set start_room_coords.1 start_room_coords.2 1,
          coords := [(start_room_coords, 0)],
          q := [(start_room_coords, 0)],
          rng := rngk } with - | st
    · rw [hel] at h
      cases h
    · rw [hel] at h
      simp only [] at h
      have hinv0 : GenInv (k + 5 + level * 2)
          { grid := DGrid.zero.set start_room_coords.1 start_room_coords.2 1,
            coords := [(start_room_coords, 0)],
            q := [(start_room_coords, 0)],
            rng := rngk } := by
        refine ⟨⟨?_, ?_, ?_, ?_, ?_⟩, ?_, ?_⟩
        · intro k' e hk
          rcases k' with - | k'
          · cases hk
            simp [DGrid.zero, DGrid.set, start_room_coords]
          · cases hk
        · intro i j hij
          simp only [DGrid.zero, DGrid.set] at hij ⊢
          by_cases he : i = start_room_coords.1 ∧ j = start_room_coords.2
          · simp only [he, if_true, and_self] at hij ⊢
            exact ⟨(start_room_coords, 0), rfl, by simp [he.1, he.2]⟩
          · simp only [he, if_false] at hij
            exact absurd rfl hij
        · rfl
        · intro k' e hk
          cases hk
        · intro e he
          simp only [List.mem_singleton] at he
          subst he
          exact ⟨by simp [start_room_coords, DUNGEON_GRID_ROWS], by simp [start_room_coords, DUNGEON_GRID_COLS]⟩
        · simp
          omega
        · intro e he
          simp only [List.mem_singleton] at he
          subst he
          exact ⟨by simp [start_room_coords, DUNGEON_GRID_ROWS], by simp [start_room_coords, DUNGEON_GRID_COLS]⟩
      have hinv := expandLoop_inv hel hinv0
      by_cases hlt : st.coords.length < k + 5 + level * 2
      · rw [if_pos hlt] at h
        exact genLoop_spec h
      · rw [if_neg hlt] at h
        by_cases hck : check_dungeon_consistency st.grid (k + 5 + level * 2) cf = true
        · rw [if_pos hck] at h
          cases h
          have hlen : st.coords.length = k + 5 + level * 2 := by
            have := hinv.2.1
            omega
          refine ⟨hinv.1, by omega, ?_⟩
          rw [hlen]
          exact hck
        · rw [if_neg hck] at h
          exact genLoop_spec h

/-- Cardinal adjacency inside the 8×9 dungeon grid. -/
def DAdj (c c' : Nat × Nat) : Prop :=
  c.1 < DUNGEON_GRID_ROWS ∧ c.2 < DUNGEON_GRID_COLS ∧
  c'.1 < DUNGEON_GRID_ROWS ∧ c'.2 < DUNGEON_GRID_COLS ∧
  ((c'.1 = c.1 + 1 ∧ c'.2 = c.2) ∨ (c.1 = c'.1 + 1 ∧ c'.2 = c.2) ∨
   (c'.2 = c.2 + 1 ∧ c'.1 = c.1) ∨ (c.2 = c'.2 + 1 ∧ c'.1 = c.1))

/-- Reachability from the start coordinate by cardinal steps through
cells satisfying the occupancy predicate. -/
inductive ReachOver (occ : Nat × Nat → Prop) : Nat × Nat → Prop where
  | start : occ start_room_coords → ReachOver occ start_room_coords
  | step {c c' : Nat × Nat} : ReachOver occ c → DAdj c c' → occ c' → ReachOver occ c'

theorem ReachOver.occ_self {occ : Nat × Nat → Prop} {c : Nat × Nat}
    (h : ReachOver occ c) : occ c := by
  cases h with
  | start h => exact h
  | step _ _ h => exact h

theorem ReachOver.mono {occ occ' : Nat × Nat → Prop} (hiff : ∀ x, occ x ↔ occ' x)
    {c : Nat × Nat} (h : ReachOver occ c) : ReachOver occ' c := by
  induction h with
  | start h => exact ReachOver.start ((hiff _).mp h)
  | step _ hadj h ih => exact ReachOver.step ih hadj ((hiff _).mp h)

theorem mem_if_singleton {α : Type} {P : Prop} [Decidable P] {x c : α}
    (h : c ∈ if P then [x] else []) : P ∧ c = x := by
  split_ifs at h with hp
  · simp only [List.mem_singleton] at h
    exact ⟨hp, h⟩
  · cases h

theorem consNbrs_char {g : DGrid} {i j : Nat} {c : Nat × Nat} (hc : c ∈ consNbrs g i j)
    (hib : i < DUNGEON_GRID_ROWS) (hjb : j < DUNGEON_GRID_COLS) :
    DAdj (i, j) c ∧ g c.1 c.2 ≠ 0 := by
  have hchar : (c = (i + 1, j) ∧ i < DUNGEON_GRID_ROWS - 1 ∧ g (i + 1) j ≠ 0) ∨
      (c = (i - 1, j) ∧ 0 < i ∧ g (i - 1) j ≠ 0) ∨
      (c = (i, j + 1) ∧ j < DUNGEON_GRID_COLS - 1 ∧ g i (j + 1) ≠ 0) ∨
      (c = (i, j - 1) ∧ 0 < j ∧ g i (j - 1) ≠ 0) := by
    rw [consNbrs] at hc
    rcases List.mem_append.mp hc with hc1 | hc1
    rcases List.mem_append.mp hc1 with hc2 | hc2
    rcases List.mem_append.mp hc2 with hc3 | hc3
    · exact Or.inl (And.comm.mp (mem_if_singleton hc3))
    · exact Or.inr (Or.inl (And.comm.mp (mem_if_singleton hc3)))
    · exact Or.inr (Or.inr (Or.inl (And.comm.mp (mem_if_singleton hc2))))
    · exact Or.inr (Or.inr (Or.inr (And.comm.mp (mem_if_singleton hc1))))
  rcases hchar with ⟨rfl, h1, h2⟩ | ⟨rfl, h1, h2⟩ | ⟨rfl, h1, h2⟩ | ⟨rfl, h1, h2⟩
  · exact ⟨⟨hib, hjb, by simp only []; omega, hjb, Or.inl ⟨rfl, rfl⟩⟩, h2⟩
  · refine ⟨⟨hib, hjb, Nat.lt_of_le_of_lt (Nat.sub_le i 1) hib, hjb, ?_⟩, h2⟩
    exact Or.inr (Or.inl ⟨by simp only []; omega, rfl⟩)
  · exact ⟨⟨hib, hjb, hib, by simp only []; omega, Or.inr (Or.inr (Or.inl ⟨rfl, rfl⟩))⟩, h2⟩
  · refine ⟨⟨hib, hjb, hib, Nat.lt_of_le_of_lt (Nat.sub_le j 1) hjb, ?_⟩, h2⟩
    exact Or.inr (Or.inr (Or.inr ⟨by simp only []; omega, rfl⟩))

theorem consistencyLoop_sound {g : DGrid} {coords : List ((Nat × Nat) × Nat)}
    (hinv : GridInv g coords) :
    ∀ (fuel : Nat) (q : List (Nat × Nat)) (checked checked' : List Bool),
    (∀ c ∈ q, ReachOver (fun x => g x.1 x.2 ≠ 0) c ∧
      c.1 < DUNGEON_GRID_ROWS ∧ c.2 < DUNGEON_GRID_COLS) →
    (∀ k, checked.getD k false = true → ∀ e, coords.get? k = some e →
      ReachOver (fun x => g x.1 x.2 ≠ 0) e.1) →
    consistencyLoop g fuel q checked = some checked' →
    (∀ k, checked'.getD k false = true → ∀ e, coords.get? k = some e →
      ReachOver (fun x => g x.1 x.2 ≠ 0) e.1)
  | 0, q, checked, checked', hq, hch, h => by
    rw [consistencyLoop] at h
    split_ifs at h
    cases h
    exact hch
  | fuel + 1, [], checked, checked', hq, hch, h => by
    rw [consistencyLoop] at h
    cases h
    exact hch
  | fuel + 1, (i, j) :: rest, checked, checked', hq, hch, h => by
    rw [consistencyLoop] at h
    have hrest : ∀ c ∈ rest, ReachOver (fun x => g x.1 x.2 ≠ 0) c ∧
        c.1 < DUNGEON_GRID_ROWS ∧ c.2 < DUNGEON_GRID_COLS :=
      fun c hc => hq c (List.mem_cons_of_mem _ hc)
    obtain ⟨hreach, hib, hjb⟩ := hq (i, j) (List.mem_cons_self _ _)
    split_ifs at h with hchk
    · exact consistencyLoop_sound hinv fuel rest checked checked' hrest hch h
    · refine consistencyLoop_sound hinv fuel _ _ checked' ?_ ?_ h
      · intro c hc
        rcases List.mem_append.mp hc with hc1 | hc1
        · exact hrest c hc1
        · obtain ⟨hadj, hocc⟩ := consNbrs_char hc1 hib hjb
          exact ⟨ReachOver.step hreach hadj hocc, hadj.2.2.1, hadj.2.2.2.1⟩
      · intro k hk e he
        have hocc : g i j ≠ 0 := hreach.occ_self
        by_cases hkk : k = g i j - 1
        · subst hkk
          obtain ⟨e0, he0, he0p⟩ := hinv.surj i j hocc
          rw [he0] at he
          cases he
          rw [he0p]
          exact hreach
        · have : checked.getD k false = true := by
            rcases Nat.lt_or_ge k checked.length with hlt | hge
            · rw [List.getD_eq_getD_get?, List.get?_set_ne _ _ (Ne.symm hkk)] at hk
              rw [List.getD_eq_getD_get?]
              exact hk
            · rw [List.getD_eq_getD_get?, List.get?_eq_none.mpr (by
                simp only [List.length_set]; omega)] at hk
              cases hk
          exact hch k this e he
theorem check_dungeon_consistency_sound {g : DGrid} {coords : List ((Nat × Nat) × Nat)}
    {cf : Nat} (hinv : GridInv g coords)
    (hck : check_dungeon_consistency g coords.length cf = true) :
    ∀ i j, g i j ≠ 0 → ReachOver (fun x => g x.1 x.2 ≠ 0) (i, j) := by
  rw [check_dungeon_consistency] at hck
  rcases hcl : consistencyLoop g cf [start_room_coords]
      (List.replicate coords.length false) with - | checked
  · rw [hcl] at hck
    cases hck
  · rw [hcl] at hck
    simp only [] at hck
    replace hck : checked.contains false = false := by
      rcases hcv : checked.contains false with - | -
      · rfl
      · rw [hcv] at hck
        cases hck
    have hstart : g start_room_coords.1 start_room_coords.2 ≠ 0 := by
      have := hinv.idx 0 _ hinv.head
      simp only [] at this
      omega
    have hsound := consistencyLoop_sound hinv cf [start_room_coords]
      (List.replicate coords.length false) checked ?_ ?_ hcl
    · intro i j hij
      obtain ⟨e, he, hep⟩ := hinv.surj i j hij
      have hklt : g i j - 1 < coords.length := get?_some_lt he
      have hlen : checked.length = coords.length := by
        have : ∀ fuel q (ck ck' : List Bool), consistencyLoop g fuel q ck = some ck' →
            ck'.length = ck.length := by
          intro fuel
          induction fuel with
          | zero =>
            intro q ck ck' hh
            rw [consistencyLoop] at hh
            split_ifs at hh
            cases hh
            rfl
          | succ n ih =>
            intro q ck ck' hh
            rcases q with - | ⟨⟨qi, qj⟩, rest⟩
            · rw [consistencyLoop] at hh
              cases hh
              rfl
            · rw [consistencyLoop] at hh
              split_ifs at hh
              · exact ih _ _ _ hh
              · rw [ih _ _ _ hh, List.length_set]
        rw [this cf _ _ checked hcl, List.length_replicate]
      have hgetd : checked.getD (g i j - 1) false = true := by
        rcases hval : checked.getD (g i j - 1) false with - | -
        · exfalso
          have hel : (false : Bool) ∈ checked := by
            rw [← hval, List.getD_eq_getElem _ _ (by omega)]
            exact List.getElem_mem _
          have hct : checked.contains false = true := by
            rw [List.contains_iff_exists_mem_beq]
            exact ⟨false, hel, rfl⟩
          rw [hct] at hck
          cases hck
        · rfl
      have := hsound (g i j - 1) hgetd e he
      rw [hep] at this
      exact this
    · intro c hcq
      simp only [List.mem_singleton] at hcq
      subst hcq
      refine ⟨ReachOver.start hstart, ?_, ?_⟩
      · simp [start_room_coords, DUNGEON_GRID_ROWS]
      · simp [start_room_coords, DUNGEON_GRID_COLS]
    · intro k hk e he
      exfalso
      rcases Nat.lt_or_ge k coords.length with hlt | hge
      · rw [List.getD_eq_getElem _ _ (by simp only [List.length_replicate]; omega),
          List.getElem_replicate] at hk
        cases hk
      · rw [List.getD_eq_default _ _ (by simp only [List.length_replicate]; omega)] at hk
        cases hk

theorem buildRooms_isSome {screen : ℚ × ℚ} {g : DGrid} {level : Nat} :
    ∀ (l : List ((Nat × Nat) × Nat)) (rooms : Nat → Nat → Option Room)
      (special : List RoomTag) (rng : Rng) (i j : Nat),
    ((buildRooms screen g level l rooms special rng).1 i j).isSome = true ↔
      ((i, j) ∈ l.map (fun e => e.1) ∨ (rooms i j).isSome = true)
  | [], rooms, special, rng, i, j => by
    rw [buildRooms]
    simp
  | ((i0, j0), c0) :: rest, rooms, special, rng, i, j => by
    rw [buildRooms]
    simp only []
    rw [buildRooms_isSome rest]
    simp only [List.map_cons, List.mem_cons]
    constructor
    · rintro (h1 | h1)
      · exact Or.inl (Or.inr h1)
      · by_cases he : i = i0 ∧ j = j0
        · exact Or.inl (Or.inl (by rw [he.1, he.2]))
        · rw [if_neg he] at h1
          exact Or.inr h1
    · rintro ((h1 | h1) | h1)
      · right
        cases h1
        rw [if_pos ⟨rfl, rfl⟩]
        rfl
      · exact Or.inl h1
      · right
        by_cases he : i = i0 ∧ j = j0
        · rw [if_pos he]
          rfl
        · rw [if_neg he]
          exact h1

theorem coords_mem_iff_nonzero {g : DGrid} {coords : List ((Nat × Nat) × Nat)}
    (hinv : GridInv g coords) (i j : Nat) :
    (i, j) ∈ coords.map (fun e => e.1) ↔ g i j ≠ 0 := by
  constructor
  · intro h
    obtain ⟨e, hmem, hep⟩ := List.mem_map.mp h
    obtain ⟨k, hk⟩ := List.mem_iff_get?.mp hmem
    have := hinv.idx k e hk
    rw [hep] at this
    simp only [this]
    omega
  · intro h
    obtain ⟨e, he, hep⟩ := hinv.surj i j h
    exact List.mem_map.mpr ⟨e, List.get?_mem he, by rw [hep]⟩

/-- C1: every room present in a generated dungeon is reachable from the
start coordinate (3,5) by cardinal steps through present rooms. -/
theorem generate_dungeon_connectivity (screen : ℚ × ℚ) (attempts ef cf level : Nat)
    (rng : Rng) (d : Dungeon) (rng2 : Rng)
    (h : generate_dungeon screen attempts ef cf level rng = some (d, rng2)) :
    ∀ i j, (d.grid i j).isSome = true →
      ReachOver (fun c => (d.grid c.1 c.2).isSome = true) (i, j) := by
  rw [generate_dungeon] at h
  rcases hgl : genLoop level attempts ef cf rng with - | ⟨g, coords, rng1⟩
  · rw [hgl] at h
    cases h
  · rw [hgl] at h
    simp only [] at h
    obtain ⟨hinv, hlen, hck⟩ := genLoop_spec hgl
    have hgridd : d.grid = (buildRooms screen g level (sortByKeyGrid g coords)
        (fun _ _ => none) [RoomTag.Item, RoomTag.Boss] rng1).1 := by
      cases h
      rfl
    have hperm : (sortByKeyGrid g coords).Perm coords := List.perm_insertionSort _ _
    have hocciff : ∀ c : Nat × Nat, (d.grid c.1 c.2).isSome = true ↔ g c.1 c.2 ≠ 0 := by
      intro c
      rw [hgridd, buildRooms_isSome]
      simp only [Option.isSome_none, Bool.false_eq_true, or_false]
      rw [List.Perm.mem_iff (List.Perm.map _ hperm)]
      exact coords_mem_iff_nonzero hinv c.1 c.2
    intro i j hij
    have : g i j ≠ 0 := (hocciff (i, j)).mp hij
    exact ReachOver.mono (fun x => (hocciff x).symm) 
      (check_dungeon_consistency_sound hinv hck i j this)
theorem generate_room_tag (screen : ℚ × ℚ) (c : Nat × Nat)
    (dd : List (Option ((Nat × Nat) × Direction))) (tag : RoomTag) (level : Nat) (rng : Rng) :
    (generate_room screen c dd tag level rng).1.tag = tag := by
  cases tag
  case Start => rfl
  case Mob => rfl
  case Empty => rfl
  case Item => rfl
  case Boss => rfl

theorem buildRooms_untouched {screen : ℚ × ℚ} {g : DGrid} {level : Nat} :
    ∀ (l : List ((Nat × Nat) × Nat)) (rooms : Nat → Nat → Option Room)
      (special : List RoomTag) (rng : Rng) (i j : Nat),
    (i, j) ∉ l.map (fun e => e.1) →
    (buildRooms screen g level l rooms special rng).1 i j = rooms i j
  | [], rooms, special, rng, i, j, h => by rw [buildRooms]
  | ((i0, j0), c0) :: rest, rooms, special, rng, i, j, h => by
    simp only [List.map_cons, List.mem_cons, not_or] at h
    rw [buildRooms]
    simp only []
    rw [buildRooms_untouched rest _ _ _ i j (by
      intro hmem
      exact h.2 hmem)]
    rw [if_neg (by
      intro hc
      exact h.1 (by rw [hc.1, hc.2]))]

theorem buildRooms_nil_special_tags {screen : ℚ × ℚ} {g : DGrid} {level : Nat} :
    ∀ (l : List ((Nat × Nat) × Nat)) (rooms : Nat → Nat → Option Room) (rng : Rng) (i j : Nat),
    (∀ e ∈ l, e.1 ≠ start_room_coords) →
    (i, j) ∈ l.map (fun e => e.1) →
    ∃ r, (buildRooms screen g level l rooms [] rng).1 i j = some r ∧
      (r.tag = RoomTag.Mob ∨ r.tag = RoomTag.Empty)
  | [], rooms, rng, i, j, hns, hmem => by cases hmem
  | ((i0, j0), c0) :: rest, rooms, rng, i, j, hns, hmem => by
    have hns0 : ((i0, j0), c0).1 ≠ start_room_coords := hns _ (List.mem_cons_self _ _)
    have hnsr : ∀ e ∈ rest, e.1 ≠ start_room_coords :=
      fun e he => hns e (List.mem_cons_of_mem _ he)
    rw [buildRooms]
    simp only []
    rw [if_neg hns0]
    simp only [List.getLast?_nil, List.dropLast_nil]
    rcases hdb : rng.drawBool with ⟨b, rngb⟩
    simp only [hdb]
    by_cases hmr : (i, j) ∈ rest.map (fun e => e.1)
    · exact buildRooms_nil_special_tags rest _ _ i j hnsr hmr
    · simp only [List.map_cons, List.mem_cons] at hmem
      rcases hmem with hmem | hmem
      · rw [buildRooms_untouched rest _ _ _ i j hmr]
        rw [if_pos ⟨congrArg Prod.fst hmem, congrArg Prod.snd hmem⟩]
        refine ⟨_, rfl, ?_⟩
        rw [generate_room_tag]
        cases b
        · exact Or.inr rfl
        · exact Or.inl rfl
      · exact absurd hmem hmr
theorem buildRooms_roles (screen : ℚ × ℚ) (g : DGrid) (level : Nat) (rng : Rng) (c0 : Nat)
    {i0 j0 : Nat} {s1 s2 : (Nat × Nat) × Nat} {rest : List ((Nat × Nat) × Nat)}
    (h0 : (i0, j0) = start_room_coords)
    (h1 : s1.1 ≠ start_room_coords) (h2 : s2.1 ≠ start_room_coords)
    (hrest : ∀ e ∈ rest, e.1 ≠ start_room_coords)
    (hnd : (List.map (fun e => e.1) (((i0, j0), c0) :: s1 :: s2 :: rest)).Nodup) :
    (∃ r, (buildRooms screen g level (((i0, j0), c0) :: s1 :: s2 :: rest)
        (fun _ _ => none) [RoomTag.Item, RoomTag.Boss] rng).1 s1.1.1 s1.1.2 = some r ∧
        r.tag = RoomTag.Boss) ∧
    (∃ r, (buildRooms screen g level (((i0, j0), c0) :: s1 :: s2 :: rest)
        (fun _ _ => none) [RoomTag.Item, RoomTag.Boss] rng).1 s2.1.1 s2.1.2 = some r ∧
        r.tag = RoomTag.Item) ∧
    (∀ i j r, (buildRooms screen g level (((i0, j0), c0) :: s1 :: s2 :: rest)
        (fun _ _ => none) [RoomTag.Item, RoomTag.Boss] rng).1 i j = some r →
        (r.tag = RoomTag.Boss → (i, j) = s1.1) ∧ (r.tag = RoomTag.Item → (i, j) = s2.1)) := by
  rw [List.map_cons, List.map_cons, List.map_cons] at hnd
  have h0nm := (List.nodup_cons.mp hnd).1
  have hnd1 := (List.nodup_cons.mp hnd).2
  have h1nm := (List.nodup_cons.mp hnd1).1
  have hnd2 := (List.nodup_cons.mp hnd1).2
  have h2nm := (List.nodup_cons.mp hnd2).1
  simp only [List.mem_cons, not_or] at h0nm h1nm
  obtain ⟨hs01, hs02, hs0r⟩ := h0nm
  obtain ⟨hs12, hs1r⟩ := h1nm
  rcases s1 with ⟨⟨i1, j1⟩, c1⟩
  rcases s2 with ⟨⟨i2, j2⟩, c2⟩
  simp only [] at h1 h2 hs01 hs02 hs12 hs1r h2nm
  rw [buildRooms]
  simp only []
  rw [if_pos h0]
  rcases hgr0 : generate_room screen (i0, j0) _ RoomTag.Start level rng with ⟨room0, rngA⟩
  simp only [hgr0]
  rw [buildRooms]
  simp only []
  rw [if_neg h1]
  rw [show ([RoomTag.Item, RoomTag.Boss].getLast?) = some RoomTag.Boss from rfl,
    show ([RoomTag.Item, RoomTag.Boss].dropLast) = [RoomTag.Item] from rfl]
  simp only []
  rcases hgr1 : generate_room screen (i1, j1) _ RoomTag.Boss level rngA with ⟨room1, rngB⟩
  simp only [hgr1]
  rw [buildRooms]
  simp only []
  rw [if_neg h2]
  rw [show ([RoomTag.Item].getLast?) = some RoomTag.Item from rfl,
    show ([RoomTag.Item].dropLast) = ([] : List RoomTag) from rfl]
  simp only []
  rcases hgr2 : generate_room screen (i2, j2) _ RoomTag.Item level rngB with ⟨room2, rngC⟩
  simp only [hgr2]
  have htag0 : room0.tag = RoomTag.Start := by
    have h' := congrArg (fun p => p.1.tag) hgr0
    simp only [] at h'
    rw [generate_room_tag] at h'
    exact h'.symm
  have htag1 : room1.tag = RoomTag.Boss := by
    have h' := congrArg (fun p => p.1.tag) hgr1
    simp only [] at h'
    rw [generate_room_tag] at h'
    exact h'.symm
  have htag2 : room2.tag = RoomTag.Item := by
    have h' := congrArg (fun p => p.1.tag) hgr2
    simp only [] at h'
    rw [generate_room_tag] at h'
    exact h'.symm
  refine ⟨?_, ?_, ?_⟩
  · rw [buildRooms_untouched rest _ _ _ i1 j1 hs1r]
    rw [if_neg (by
      rintro ⟨ha, hb⟩
      exact hs12 (by rw [ha, hb]))]
    rw [if_pos ⟨rfl, rfl⟩]
    exact ⟨room1, rfl, htag1⟩
  · rw [buildRooms_untouched rest _ _ _ i2 j2 h2nm]
    rw [if_pos ⟨rfl, rfl⟩]
    exact ⟨room2, rfl, htag2⟩
  · intro i j r hr
    by_cases hmem : (i, j) ∈ rest.map (fun e => e.1)
    · obtain ⟨r', hval, htags⟩ := buildRooms_nil_special_tags rest _ rngC i j hrest hmem
      rw [hval] at hr
      cases hr
      constructor
      · intro hb
        exfalso
        rcases htags with h | h <;> rw [hb] at h <;> exact RoomTag.noConfusion h
      · intro hi
        exfalso
        rcases htags with h | h <;> rw [hi] at h <;> exact RoomTag.noConfusion h
    · rw [buildRooms_untouched rest _ _ _ i j hmem] at hr
      by_cases e2 : i = i2 ∧ j = j2
      · rw [if_pos e2] at hr
        cases hr
        refine ⟨?_, ?_⟩
        · intro hb
          rw [htag2] at hb
          exact absurd hb (by intro hh; exact RoomTag.noConfusion hh)
        · intro _
          rw [e2.1, e2.2]
      · rw [if_neg e2] at hr
        by_cases e1 : i = i1 ∧ j = j1
        · rw [if_pos e1] at hr
          cases hr
          refine ⟨?_, ?_⟩
          · intro _
            rw [e1.1, e1.2]
          · intro hi
            rw [htag1] at hi
            exact absurd hi (by intro hh; exact RoomTag.noConfusion hh)
        · rw [if_neg e1] at hr
          by_cases e0 : i = i0 ∧ j = j0
          · rw [if_pos e0] at hr
            cases hr
            refine ⟨?_, ?_⟩ <;>
              · intro hb
                rw [htag0] at hb
                exact absurd hb (by intro hh; exact RoomTag.noConfusion hh)
          · rw [if_neg e0] at hr
            cases hr
theorem coords_pos_nodup {g : DGrid} {coords : List ((Nat × Nat) × Nat)}
    (hinv : GridInv g coords) : (coords.map (fun e => e.1)).Nodup := by
  rw [List.nodup_iff_injective_get]
  intro a b hab
  rw [List.get_map, List.get_map] at hab
  have hal : (a : Nat) < coords.length := by
    have := a.isLt
    simpa using this
  have hbl : (b : Nat) < coords.length := by
    have := b.isLt
    simpa using this
  have hga : g (coords.get ⟨(a : Nat), hal⟩).1.1 (coords.get ⟨(a : Nat), hal⟩).1.2
      = (a : Nat) + 1 := hinv.idx _ _ (List.get?_eq_get hal)
  have hgb : g (coords.get ⟨(b : Nat), hbl⟩).1.1 (coords.get ⟨(b : Nat), hbl⟩).1.2
      = (b : Nat) + 1 := hinv.idx _ _ (List.get?_eq_get hbl)
  have hmap : (coords.get ⟨(a : Nat), hal⟩).1 = (coords.get ⟨(b : Nat), hbl⟩).1 := hab
  rw [hmap] at hga
  rw [hga] at hgb
  exact Fin.ext (by omega)

/-- Totality of the sort key order. -/
theorem genLe_total (g : DGrid) : ∀ a b, genLe g a b ∨ genLe g b a := by
  intro a b
  rw [genLe, genLe]
  omega

/-- Transitivity of the sort key order. -/
theorem genLe_trans (g : DGrid) : ∀ a b c, genLe g a b → genLe g b c → genLe g a c := by
  intro a b c
  rw [genLe, genLe, genLe]
  omega

theorem sorted_shape {g : DGrid} {coords : List ((Nat × Nat) × Nat)}
    (hinv : GridInv g coords) (hlen : 3 ≤ coords.length) :
    ∃ s1 s2 rest, sortByKeyGrid g coords = (start_room_coords, 0) :: s1 :: s2 :: rest ∧
      (List.map (fun e => e.1)
        ((start_room_coords, 0) :: s1 :: s2 :: rest)).Nodup ∧
      s1.1 ≠ start_room_coords ∧ s2.1 ≠ start_room_coords ∧
      (∀ e ∈ rest, e.1 ≠ start_room_coords) ∧ 1 ≤ s1.2 ∧ 1 ≤ s2.2 ∧
      List.Sorted (genLe g) ((start_room_coords, 0) :: s1 :: s2 :: rest) := by
  haveI : IsTotal ((Nat × Nat) × Nat) (genLe g) := ⟨genLe_total g⟩
  haveI : IsTrans ((Nat × Nat) × Nat) (genLe g) := ⟨genLe_trans g⟩
  have hperm : (sortByKeyGrid g coords).Perm coords := List.perm_insertionSort _ _
  have hsorted : List.Sorted (genLe g) (sortByKeyGrid g coords) :=
    List.sorted_insertionSort _ _
  have hnd : ((sortByKeyGrid g coords).map (fun e => e.1)).Nodup :=
    (List.Perm.nodup_iff (List.Perm.map _ hperm)).mpr (coords_pos_nodup hinv)
  have hlen' : 3 ≤ (sortByKeyGrid g coords).length := by
    rw [List.Perm.length_eq hperm]
    exact hlen
  have hdepth0 : ∀ e ∈ coords, e.2 = 0 → e = (start_room_coords, 0) := by
    intro e he h0
    obtain ⟨k, hk⟩ := List.mem_iff_get?.mp he
    rcases k with - | k'
    · rw [hinv.head] at hk
      cases hk
      rfl
    · have := hinv.depth k' e hk
      omega
  have hnonstart : ∀ e ∈ coords, e ≠ (start_room_coords, 0) → 1 ≤ e.2 := by
    intro e he hne
    rcases Nat.eq_zero_or_pos e.2 with h0 | h0
    · exact absurd (hdepth0 e he h0) hne
    · exact h0
  rcases hshape : sortByKeyGrid g coords with - | ⟨x0, tail⟩
  · rw [hshape] at hlen'
    simp at hlen'
  · rcases tail with - | ⟨x1, tail2⟩
    · rw [hshape] at hlen'
      simp at hlen'
    · rcases tail2 with - | ⟨x2, rest⟩
      · rw [hshape] at hlen'
        simp at hlen'
      · rw [hshape] at hperm hsorted hnd
        have hx0 : x0 = (start_room_coords, 0) := by
          have he0mem : (start_room_coords, 0) ∈ x0 :: x1 :: x2 :: rest :=
            (List.Perm.mem_iff hperm).mpr (List.get?_mem hinv.head)
          rcases List.mem_cons.mp he0mem with h | h
          · exact h.symm
          · have hle : genLe g x0 (start_room_coords, 0) :=
              (List.sorted_cons.mp hsorted).1 _ h
            have hx0c : x0 ∈ coords := (List.Perm.mem_iff hperm).mp (List.mem_cons_self _ _)
            have hx0d : x0.2 = 0 := by
              rw [genLe] at hle
              simp only [] at hle
              omega
            exact hdepth0 x0 hx0c hx0d
        subst hx0
        refine ⟨x1, x2, rest, rfl, hnd, ?_, ?_, ?_, ?_, ?_, hsorted⟩
        · intro hc
          simp only [List.map_cons, List.nodup_cons, List.mem_cons] at hnd
          exact hnd.1 (Or.inl hc.symm)
        · intro hc
          simp only [List.map_cons, List.nodup_cons, List.mem_cons] at hnd
          exact hnd.1 (Or.inr (Or.inl hc.symm))
        · intro e he hc
          simp only [List.map_cons, List.nodup_cons, List.mem_cons] at hnd
          exact hnd.1 (Or.inr (Or.inr (List.mem_map.mpr ⟨e, he, hc⟩)))
        · refine hnonstart x1 ((List.Perm.mem_iff hperm).mp
            (List.mem_cons_of_mem _ (List.mem_cons_self _ _))) ?_
          intro hc
          simp only [List.map_cons, List.nodup_cons, List.mem_cons] at hnd
          exact hnd.1 (Or.inl (by rw [hc]))
        · refine hnonstart x2 ((List.Perm.mem_iff hperm).mp
            (List.mem_cons_of_mem _ (List.mem_cons_of_mem _ (List.mem_cons_self _ _)))) ?_
          intro hc
          simp only [List.map_cons, List.nodup_cons, List.mem_cons] at hnd
          exact hnd.1 (Or.inr (Or.inl (by rw [hc])))
/-- C2: at any level at least 1, a generated dungeon holds exactly one
room tagged Boss and exactly one room tagged Item. -/
theorem generate_dungeon_role_uniqueness (screen : ℚ × ℚ) (attempts ef cf level : Nat)
    (rng : Rng) (d : Dungeon) (rng2 : Rng) (hlevel : 1 ≤ level)
    (h : generate_dungeon screen attempts ef cf level rng = some (d, rng2)) :
    (∃ c : Nat × Nat, (∃ r, d.grid c.1 c.2 = some r ∧ r.tag = RoomTag.Boss) ∧
      ∀ c' : Nat × Nat, (∃ r, d.grid c'.1 c'.2 = some r ∧ r.tag = RoomTag.Boss) → c' = c) ∧
    (∃ c : Nat × Nat, (∃ r, d.grid c.1 c.2 = some r ∧ r.tag = RoomTag.Item) ∧
      ∀ c' : Nat × Nat, (∃ r, d.grid c'.1 c'.2 = some r ∧ r.tag = RoomTag.Item) → c' = c) := by
  rw [generate_dungeon] at h
  rcases hgl : genLoop level attempts ef cf rng with - | ⟨g, coords, rng1⟩
  · rw [hgl] at h
    cases h
  · rw [hgl] at h
    simp only [] at h
    obtain ⟨hinv, hlen, -⟩ := genLoop_spec hgl
    obtain ⟨s1, s2, rest, hshape, hnd, h1, h2, hrest, -, -, -⟩ :=
      sorted_shape hinv (by omega)
    have hgridd : d.grid = (buildRooms screen g level (sortByKeyGrid g coords)
        (fun _ _ => none) [RoomTag.Item, RoomTag.Boss] rng1).1 := by
      cases h
      rfl
    rw [hshape] at hgridd
    obtain ⟨⟨r1, hr1, hr1t⟩, ⟨r2, hr2, hr2t⟩, huniq⟩ :=
      buildRooms_roles screen g level rng1 0 rfl h1 h2 hrest hnd
    constructor
    · refine ⟨s1.1, ⟨r1, by rw [hgridd]; exact hr1, hr1t⟩, ?_⟩
      rintro ⟨i, j⟩ ⟨r, hr, hrt⟩
      rw [hgridd] at hr
      exact (huniq i j r hr).1 hrt
    · refine ⟨s2.1, ⟨r2, by rw [hgridd]; exact hr2, hr2t⟩, ?_⟩
      rintro ⟨i, j⟩ ⟨r, hr, hrt⟩
      rw [hgridd] at hr
      exact (huniq i j r hr).2 hrt
/-- C3 (amended): after a grid is accepted the admission list is sorted
by `(BFS depth, cardinal count)` lexicographically ASCENDING (not
descending), the start entry comes first, and the Boss and Item roles go
to the sorted entries at positions 1 and 2 — the shallowest non-start
rooms with fewest occupied neighbours, i.e. the queue's front, not
"dead-end rooms far from the start". -/
theorem generate_dungeon_sort_ascending (screen : ℚ × ℚ) (attempts ef cf level : Nat)
    (rng : Rng) (g : DGrid) (coords : List ((Nat × Nat) × Nat)) (rng1 : Rng)
    (d : Dungeon) (rng2 : Rng)
    (hgl : genLoop level attempts ef cf rng = some (g, coords, rng1))
    (h : generate_dungeon screen attempts ef cf level rng = some (d, rng2)) :
    List.Sorted (genLe g) (sortByKeyGrid g coords) ∧
    (sortByKeyGrid g coords).get? 0 = some (start_room_coords, 0) ∧
    (∃ e r, (sortByKeyGrid g coords).get? 1 = some e ∧ 1 ≤ e.2 ∧
      d.grid e.1.1 e.1.2 = some r ∧ r.tag = RoomTag.Boss) ∧
    (∃ e r, (sortByKeyGrid g coords).get? 2 = some e ∧ 1 ≤ e.2 ∧
      d.grid e.1.1 e.1.2 = some r ∧ r.tag = RoomTag.Item) := by
  rw [generate_dungeon, hgl] at h
  simp only [] at h
  obtain ⟨hinv, hlen, -⟩ := genLoop_spec hgl
  obtain ⟨s1, s2, rest, hshape, hnd, h1, h2, hrest, hd1, hd2, hsorted⟩ :=
    sorted_shape hinv (by omega)
  have hgridd : d.grid = (buildRooms screen g level (sortByKeyGrid g coords)
      (fun _ _ => none) [RoomTag.Item, RoomTag.Boss] rng1).1 := by
    cases h
    rfl
  rw [hshape] at hgridd
  obtain ⟨⟨r1, hr1, hr1t⟩, ⟨r2, hr2, hr2t⟩, -⟩ :=
    buildRooms_roles screen g level rng1 0 rfl h1 h2 hrest hnd
  refine ⟨?_, ?_, ?_, ?_⟩
  · rw [hshape]
    exact hsorted
  · rw [hshape]
    rfl
  · exact ⟨s1, r1, by rw [hshape]; rfl, hd1, by rw [hgridd]; exact hr1, hr1t⟩
  · exact ⟨s2, r2, by rw [hshape]; rfl, hd2, by rw [hgridd]; exact hr2, hr2t⟩
/-! ### A concrete successful generation at level 1 (witness run)

Draw sequence: room budget `0 % 2 + 5 + 2 = 7`; the start pop admits all
four neighbours, `(4,5)` admits `(5,5)`, `(2,5)` admits `(1,5)`, every
later draw declines; the accepted tree is connected, the admission
depths are `[0,1,1,1,1,2,2]`. -/

def genScreen : ℚ × ℚ := (1280, 720)

def genCRng : Rng :=
  ⟨[true, true, true, true,
    true, false, false, false,
    false, true, false, false] ++ List.replicate 16 false ++
    [false, true, true, true, true],
   List.replicate 12 0, []⟩

theorem genCSome : (generate_dungeon genScreen 2 50 50 1 genCRng).isSome = true := by rfl

theorem genCCell : ((((generate_dungeon genScreen 2 50 50 1 genCRng).get genCSome).1).grid
    1 5).isSome = true := by rfl

theorem genCLoopSome : (genLoop 1 2 50 50 genCRng).isSome = true := by rfl

theorem generate_dungeon_connectivity_witness :
    ReachOver (fun c => ((((generate_dungeon genScreen 2 50 50 1 genCRng).get genCSome).1).grid
      c.1 c.2).isSome = true) (1, 5) :=
  generate_dungeon_connectivity genScreen 2 50 50 1 genCRng
    ((generate_dungeon genScreen 2 50 50 1 genCRng).get genCSome).1
    ((generate_dungeon genScreen 2 50 50 1 genCRng).get genCSome).2
    (Option.some_get genCSome).symm 1 5 genCCell

theorem generate_dungeon_role_uniqueness_witness :
    (∃ c : Nat × Nat, (∃ r, (((generate_dungeon genScreen 2 50 50 1 genCRng).get
        genCSome).1).grid c.1 c.2 = some r ∧ r.tag = RoomTag.Boss) ∧
      ∀ c' : Nat × Nat, (∃ r, (((generate_dungeon genScreen 2 50 50 1 genCRng).get
        genCSome).1).grid c'.1 c'.2 = some r ∧ r.tag = RoomTag.Boss) → c' = c) ∧
    (∃ c : Nat × Nat, (∃ r, (((generate_dungeon genScreen 2 50 50 1 genCRng).get
        genCSome).1).grid c.1 c.2 = some r ∧ r.tag = RoomTag.Item) ∧
      ∀ c' : Nat × Nat, (∃ r, (((generate_dungeon genScreen 2 50 50 1 genCRng).get
        genCSome).1).grid c'.1 c'.2 = some r ∧ r.tag = RoomTag.Item) → c' = c) :=
  generate_dungeon_role_uniqueness genScreen 2 50 50 1 genCRng
    ((generate_dungeon genScreen 2 50 50 1 genCRng).get genCSome).1
    ((generate_dungeon genScreen 2 50 50 1 genCRng).get genCSome).2
    (by decide) (Option.some_get genCSome).symm

/-- C3 counterexample: on the concrete accepted run the sorted admission
depths are `[0,1,1,1,1,2,2]` — ascending, and in particular NOT sorted
by BFS depth descending as the claim states. -/
theorem generate_dungeon_sort_descending_counterexample :
    ((genLoop 1 2 50 50 genCRng).map
        (fun t => (sortByKeyGrid t.1 t.2.1).map (fun e => e.2))
      = some [0, 1, 1, 1, 1, 2, 2]) ∧
    ¬ List.Sorted (· ≥ ·) [0, 1, 1, 1, 1, 2, 2] := by
  constructor
  · rfl
  · decide

def genCGrid : DGrid :=
  ((((((DGrid.zero.set 3 5 1).set 4 5 2).set 2 5 3).set 3 6 4).set 3 4 5).set 5 5 6).set 1 5 7

def genCCoords : List ((Nat × Nat) × Nat) :=
  [((3, 5), 0), ((4, 5), 1), ((2, 5), 1), ((3, 6), 1), ((3, 4), 1), ((5, 5), 2), ((1, 5), 2)]

def genCRng1 : Rng := ⟨[false, true, true, true, true], List.replicate 11 0, []⟩

theorem genCLoopEq : genLoop 1 2 50 50 genCRng = some (genCGrid, genCCoords, genCRng1) := by rfl

theorem generate_dungeon_sort_ascending_witness :
    List.Sorted (genLe genCGrid) (sortByKeyGrid genCGrid genCCoords) ∧
    (sortByKeyGrid genCGrid genCCoords).get? 0 = some (start_room_coords, 0) ∧
    (∃ e r, (sortByKeyGrid genCGrid genCCoords).get? 1 = some e ∧ 1 ≤ e.2 ∧
      (((generate_dungeon genScreen 2 50 50 1 genCRng).get genCSome).1).grid
        e.1.1 e.1.2 = some r ∧ r.tag = RoomTag.Boss) ∧
    (∃ e r, (sortByKeyGrid genCGrid genCCoords).get? 2 = some e ∧ 1 ≤ e.2 ∧
      (((generate_dungeon genScreen 2 50 50 1 genCRng).get genCSome).1).grid
        e.1.1 e.1.2 = some r ∧ r.tag = RoomTag.Item) :=
  generate_dungeon_sort_ascending genScreen 2 50 50 1 genCRng genCGrid genCCoords genCRng1
    ((generate_dungeon genScreen 2 50 50 1 genCRng).get genCSome).1
    ((generate_dungeon genScreen 2 50 50 1 genCRng).get genCSome).2
    genCLoopEq (Option.some_get genCSome).symm
/-! ## `Room::get_target_distance_grid` (src/dungeon.rs lines 313-344) -/

/-- `utils::pos_to_room_coords` (src/utils.rs lines 342-344): divide the
position by the screen extent, scale to tiles, floor, and cast to usize
(the cast saturates negative values to 0, as `as usize` does). -/
def pos_to_room_coords (pos : ℚ × ℚ) (sw sh : ℚ) : Nat × Nat :=
  ((⌊pos.2 / sh * (ROOM_HEIGHT : ℚ)⌋).toNat, (⌊pos.1 / sw * (ROOM_WIDTH : ℚ)⌋).toNat)

/-- One conditional neighbour expansion of the distance BFS: if the
bound test passes and the target cell currently holds 0, write the
source cell's value minus 1 there and enqueue the target. -/
def tdgExpand (g : RGrid) (q : List (Nat × Nat)) (cond : Bool) (src tgt : Nat × Nat) :
    RGrid × List (Nat × Nat) :=
  if cond = true ∧ g tgt.1 tgt.2 = 0 then
    (g.set tgt.1 tgt.2 (g src.1 src.2 - 1), q ++ [tgt])
  else (g, q)

/-- Sequential expansion over a list of `(bound test, target)` pairs. -/
def tdgExpandList (src : Nat × Nat) :
    List (Bool × (Nat × Nat)) → RGrid × List (Nat × Nat) → RGrid × List (Nat × Nat)
  | [], s => s
  | (cond, tgt) :: ds, (g, q) => tdgExpandList src ds (tdgExpand g q cond src tgt)

/-- The four direction attempts of one BFS pop, in source order: up,
left, right, down. -/
def tdgDirs (i j : Nat) : List (Bool × (Nat × Nat)) :=
  [(decide (0 < i), (i - 1, j)), (decide (0 < j), (i, j - 1)),
   (decide (j < ROOM_WIDTH - 1), (i, j + 1)), (decide (i < ROOM_HEIGHT - 1), (i + 1, j))]

/-- One pop of the distance BFS. -/
def tdgStep (g : RGrid) (i j : Nat) (rest : List (Nat × Nat)) : RGrid × List (Nat × Nat) :=
  tdgExpandList (i, j) (tdgDirs i j) (g, rest)

/-- The `while !q.is_empty()` loop of `get_target_distance_grid`,
fuelled; fuel exhaustion mid-loop yields `none`. -/
def tdgLoop : Nat → RGrid → List (Nat × Nat) → Option RGrid
  | 0, g, q => if q.isEmpty then some g else none
  | _ + 1, g, [] => some g
  | fuel + 1, g, (i, j) :: rest =>
    let p := tdgStep g i j rest
    tdgLoop fuel p.1 p.2

/-- `Room::get_target_distance_grid`: copy the room grid, convert the
target to tile coordinates, return the copy unchanged when out of
bounds, else seed the target tile with `i32::MAX` and BFS-expand into
cells currently holding exactly 0, assigning parent value minus 1. -/
def get_target_distance_grid (room : Room) (target : ℚ × ℚ) (sw sh : ℚ) (fuel : Nat) :
    Option RGrid :=
  let tc := pos_to_room_coords target sw sh
  if tc.1 < ROOM_HEIGHT ∧ tc.2 < ROOM_WIDTH then
    tdgLoop fuel (room.grid.set tc.1 tc.2 i32MAX) [tc]
  else some room.grid

/-- Cardinal adjacency inside the 9×15 room grid. -/
def RAdjT (c c' : Nat × Nat) : Prop :=
  c.1 < ROOM_HEIGHT ∧ c.2 < ROOM_WIDTH ∧ c'.1 < ROOM_HEIGHT ∧ c'.2 < ROOM_WIDTH ∧
  ((c'.1 + 1 = c.1 ∧ c'.2 = c.2) ∨ (c'.2 + 1 = c.2 ∧ c'.1 = c.1) ∨
   (c'.2 = c.2 + 1 ∧ c'.1 = c.1) ∨ (c'.1 = c.1 + 1 ∧ c'.2 = c.2))

/-- `ReachN g0 t n c`: the cell `c` is reachable from the target tile
`t` in exactly `n` cardinal steps, every stepped-onto cell holding
exactly 0 in the original grid `g0`. -/
inductive ReachN (g0 : RGrid) (t : Nat × Nat) : Nat → Nat × Nat → Prop where
  | base : ReachN g0 t 0 t
  | step {n : Nat} {c c' : Nat × Nat} : ReachN g0 t n c → RAdjT c c' →
      g0 c'.1 c'.2 = 0 → ReachN g0 t (n + 1) c'

/-- `c` is at BFS distance exactly `n` from the target. -/
def isDist (g0 : RGrid) (t c : Nat × Nat) (n : Nat) : Prop :=
  ReachN g0 t n c ∧ ∀ m, ReachN g0 t m c → n ≤ m

theorem isDist_unique {g0 : RGrid} {t c : Nat × Nat} {n m : Nat}
    (hn : isDist g0 t c n) (hm : isDist g0 t c m) : n = m :=
  Nat.le_antisymm (hn.2 m hm.1) (hm.2 n hn.1)

theorem isDist_of_reach {g0 : RGrid} {t c : Nat × Nat} {n : Nat} (h : ReachN g0 t n c) :
    ∃ m, isDist g0 t c m ∧ m ≤ n := by
  haveI : DecidablePred (fun k => ReachN g0 t k c) := Classical.decPred _
  have hex : ∃ k, ReachN g0 t k c := ⟨n, h⟩
  exact ⟨Nat.find hex, ⟨Nat.find_spec hex, fun m hm => Nat.find_min' hex hm⟩,
    Nat.find_min' hex h⟩

theorem reach_bounds {g0 : RGrid} {t : Nat × Nat} (ht1 : t.1 < ROOM_HEIGHT)
    (ht2 : t.2 < ROOM_WIDTH) {n : Nat} {c : Nat × Nat} (h : ReachN g0 t n c) :
    c.1 < ROOM_HEIGHT ∧ c.2 < ROOM_WIDTH := by
  induction h with
  | base => exact ⟨ht1, ht2⟩
  | step _ hadj _ _ => exact ⟨hadj.2.2.1, hadj.2.2.2.1⟩

theorem reach_zero_eq {g0 : RGrid} {t c : Nat × Nat} (h : ReachN g0 t 0 c) : c = t := by
  cases h
  rfl

theorem isDist_target {g0 : RGrid} {t : Nat × Nat} : isDist g0 t t 0 :=
  ⟨ReachN.base, fun m _ => Nat.zero_le m⟩

theorem isDist_pred {g0 : RGrid} {t c : Nat × Nat} {n : Nat} (h : isDist g0 t c (n + 1)) :
    ∃ c', isDist g0 t c' n ∧ RAdjT c' c ∧ g0 c.1 c.2 = 0 := by
  rcases h with ⟨hr, hmin⟩
  cases hr with
  | step hr' hadj hg0 =>
    obtain ⟨m, hm, hmle⟩ := isDist_of_reach hr'
    have hge : n ≤ m := by
      have := hmin (m + 1) (ReachN.step hm.1 hadj hg0)
      omega
    have hmn : m = n := by omega
    subst hmn
    exact ⟨_, hm, hadj, hg0⟩

theorem isDist_downward {g0 : RGrid} {t : Nat × Nat} :
    ∀ {n : Nat} {c : Nat × Nat}, isDist g0 t c n → ∀ k, k ≤ n → ∃ c', isDist g0 t c' k := by
  intro n
  induction n with
  | zero =>
    intro c h k hk
    have : k = 0 := by omega
    subst this
    exact ⟨c, h⟩
  | succ n ih =>
    intro c h k hk
    rcases Nat.eq_or_lt_of_le hk with he | hlt
    · exact ⟨c, he ▸ h⟩
    · obtain ⟨c', hc', -, -⟩ := isDist_pred h
      exact ih hc' k (by omega)

theorem isDist_le_134 {g0 : RGrid} {t : Nat × Nat} (ht1 : t.1 < ROOM_HEIGHT)
    (ht2 : t.2 < ROOM_WIDTH) {c : Nat × Nat} {n : Nat} (h : isDist g0 t c n) : n ≤ 134 := by
  by_contra hgt
  push_neg at hgt
  have hwit : ∀ k : Fin 136, ∃ c', isDist g0 t c' (k : Nat) :=
    fun k => isDist_downward h (k : Nat) (by omega)
  classical
  let f : Fin 136 → Fin ROOM_HEIGHT × Fin ROOM_WIDTH := fun k =>
    (⟨(Classical.choose (hwit k)).1,
        (reach_bounds ht1 ht2 (Classical.choose_spec (hwit k)).1).1⟩,
     ⟨(Classical.choose (hwit k)).2,
        (reach_bounds ht1 ht2 (Classical.choose_spec (hwit k)).1).2⟩)
  have hinj : Function.Injective f := by
    intro a b hab
    have ha := Classical.choose_spec (hwit a)
    have hb := Classical.choose_spec (hwit b)
    have hcc : Classical.choose (hwit a) = Classical.choose (hwit b) := by
      have h1 := congrArg (fun p => ((p.1 : Nat), (p.2 : Nat))) hab
      simp only [f] at h1
      exact Prod.ext (congrArg Prod.fst h1) (congrArg Prod.snd h1)
    rw [hcc] at ha
    exact Fin.ext (isDist_unique ha hb)
  have hcard := Fintype.card_le_of_injective f hinj
  rw [Fintype.card_fin, Fintype.card_prod, Fintype.card_fin, Fintype.card_fin,
    ROOM_HEIGHT, ROOM_WIDTH] at hcard
  omega

theorem radjT_cases {i j : Nat} {c : Nat × Nat} (h : RAdjT (i, j) c) :
    (c = (i - 1, j) ∧ 0 < i) ∨ (c = (i, j - 1) ∧ 0 < j) ∨
    (c = (i, j + 1) ∧ j < ROOM_WIDTH - 1) ∨ (c = (i + 1, j) ∧ i < ROOM_HEIGHT - 1) := by
  obtain ⟨h1, h2, h3, h4, hcase⟩ := h
  rcases c with ⟨ci, cj⟩
  simp only [] at h3 h4 hcase ⊢
  rw [ROOM_HEIGHT] at h1 h3 ⊢
  rw [ROOM_WIDTH] at h2 h4 ⊢
  rcases hcase with ⟨ha, hb⟩ | ⟨ha, hb⟩ | ⟨ha, hb⟩ | ⟨ha, hb⟩
  · refine Or.inl ⟨?_, by omega⟩
    rw [Prod.mk.injEq]
    omega
  · refine Or.inr (Or.inl ⟨?_, by omega⟩)
    rw [Prod.mk.injEq]
    omega
  · refine Or.inr (Or.inr (Or.inl ⟨?_, by omega⟩))
    rw [Prod.mk.injEq]
    omega
  · refine Or.inr (Or.inr (Or.inr ⟨?_, by omega⟩))
    rw [Prod.mk.injEq]
    omega
theorem RGrid.set_ne {g : RGrid} {r c : Nat} {v : Int} {r' c' : Nat}
    (h : ¬(r' = r ∧ c' = c)) : (g.set r c v) r' c' = g r' c' := by
  rw [RGrid.set, if_neg h]

theorem RGrid.set_eq {g : RGrid} {r c : Nat} {v : Int} : (g.set r c v) r c = v := by
  rw [RGrid.set, if_pos ⟨rfl, rfl⟩]

theorem tdgExpandList_spec {src : Nat × Nat} :
    ∀ (ds : List (Bool × (Nat × Nat))) (g : RGrid) (q : List (Nat × Nat)),
    (∀ p ∈ ds, p.1 = true → p.2 ≠ src) →
    List.Pairwise (fun p p' => p.1 = true → p'.1 = true → p.2 ≠ p'.2) ds →
    (∀ c : Nat × Nat,
      (tdgExpandList src ds (g, q)).1 c.1 c.2 =
        if (∃ p ∈ ds, p.1 = true ∧ p.2 = c) ∧ g c.1 c.2 = 0 then g src.1 src.2 - 1
        else g c.1 c.2) ∧
    (∃ L, (tdgExpandList src ds (g, q)).2 = q ++ L ∧
      ∀ c : Nat × Nat, c ∈ L ↔ (∃ p ∈ ds, p.1 = true ∧ p.2 = c) ∧ g c.1 c.2 = 0)
  | [], g, q, hsrc, hpw => by
    constructor
    · intro c
      rw [if_neg (by
        rintro ⟨⟨p, hp, -⟩, -⟩
        cases hp)]
      rfl
    · refine ⟨[], by rw [List.append_nil]; rfl, ?_⟩
      intro c
      simp only [List.not_mem_nil, false_iff, not_and]
      rintro ⟨p, hp, -⟩
      cases hp
  | (cond, tgt) :: ds, g, q, hsrc, hpw => by
    have hsrc' : ∀ p ∈ ds, p.1 = true → p.2 ≠ src :=
      fun p hp => hsrc p (List.mem_cons_of_mem _ hp)
    have hpw' := (List.pairwise_cons.mp hpw).2
    have hhead := (List.pairwise_cons.mp hpw).1
    rw [tdgExpandList]
    rw [tdgExpand]
    by_cases hct : cond = true ∧ g tgt.1 tgt.2 = 0
    · rw [if_pos hct]
      have htgtsrc : tgt ≠ src := hsrc (cond, tgt) (List.mem_cons_self _ _) hct.1
      have hg1src : (g.set tgt.1 tgt.2 (g src.1 src.2 - 1)) src.1 src.2 = g src.1 src.2 := by
        refine RGrid.set_ne ?_
        rintro ⟨ha, hb⟩
        exact htgtsrc (Prod.ext ha.symm hb.symm)
      obtain ⟨ihg, L', hL'q, hL'mem⟩ :=
        tdgExpandList_spec ds (g.set tgt.1 tgt.2 (g src.1 src.2 - 1)) (q ++ [tgt]) hsrc' hpw'
      have hnotds : ¬∃ p ∈ ds, p.1 = true ∧ p.2 = tgt := by
        rintro ⟨p, hp, hp1, hp2⟩
        exact hhead p hp hct.1 hp1 hp2.symm
      have hcond_iff : ∀ c : Nat × Nat, c ≠ tgt →
          (((∃ p ∈ ds, p.1 = true ∧ p.2 = c) ∧
              (g.set tgt.1 tgt.2 (g src.1 src.2 - 1)) c.1 c.2 = 0) ↔
            ((∃ p ∈ (cond, tgt) :: ds, p.1 = true ∧ p.2 = c) ∧ g c.1 c.2 = 0)) := by
        intro c hc
        have hg1c : (g.set tgt.1 tgt.2 (g src.1 src.2 - 1)) c.1 c.2 = g c.1 c.2 := by
          refine RGrid.set_ne ?_
          rintro ⟨ha, hb⟩
          exact hc (Prod.ext ha hb)
        rw [hg1c]
        constructor
        · rintro ⟨⟨p, hp, hp1, hp2⟩, hgz⟩
          exact ⟨⟨p, List.mem_cons_of_mem _ hp, hp1, hp2⟩, hgz⟩
        · rintro ⟨⟨p, hp, hp1, hp2⟩, hgz⟩
          rcases List.mem_cons.mp hp with hp | hp
          · exfalso
            rw [hp] at hp2
            exact hc hp2.symm
          · exact ⟨⟨p, hp, hp1, hp2⟩, hgz⟩
      constructor
      · intro c
        rw [ihg c]
        by_cases hc : c = tgt
        · subst hc
          rw [if_neg (by
            rintro ⟨hex, -⟩
            exact hnotds hex)]
          rw [if_pos ⟨⟨(cond, c), List.mem_cons_self _ _, hct.1, rfl⟩, hct.2⟩]
          exact RGrid.set_eq
        · rw [if_congr (hcond_iff c hc) (by rw [hg1src]) (RGrid.set_ne (by
            rintro ⟨ha, hb⟩
            exact hc (Prod.ext ha hb)))]
      · refine ⟨tgt :: L', by rw [hL'q, List.append_assoc]; rfl, ?_⟩
        intro c
        rw [List.mem_cons, hL'mem c]
        constructor
        · rintro (hc | ⟨hex, hgz⟩)
          · subst hc
            exact ⟨⟨(cond, c), List.mem_cons_self _ _, hct.1, rfl⟩, hct.2⟩
          · have hc : c ≠ tgt := by
              rintro rfl
              exact hnotds hex
            exact ((hcond_iff c hc).mp ⟨hex, hgz⟩)
        · rintro ⟨⟨p, hp, hp1, hp2⟩, hgz⟩
          rcases List.mem_cons.mp hp with hp | hp
          · left
            rw [hp] at hp2
            exact hp2.symm
          · by_cases hc : c = tgt
            · exact Or.inl hc
            · right
              exact (hcond_iff c hc).mpr ⟨⟨p, List.mem_cons_of_mem _ hp, hp1, hp2⟩, hgz⟩
    · rw [if_neg hct]
      obtain ⟨ihg, L', hL'q, hL'mem⟩ := tdgExpandList_spec ds g q hsrc' hpw'
      have hcond_iff : ∀ c : Nat × Nat,
          (((∃ p ∈ ds, p.1 = true ∧ p.2 = c) ∧ g c.1 c.2 = 0) ↔
            ((∃ p ∈ (cond, tgt) :: ds, p.1 = true ∧ p.2 = c) ∧ g c.1 c.2 = 0)) := by
        intro c
        constructor
        · rintro ⟨⟨p, hp, hp1, hp2⟩, hgz⟩
          exact ⟨⟨p, List.mem_cons_of_mem _ hp, hp1, hp2⟩, hgz⟩
        · rintro ⟨⟨p, hp, hp1, hp2⟩, hgz⟩
          rcases List.mem_cons.mp hp with hp | hp
          · exfalso
            rw [hp] at hp1 hp2
            subst hp2
            exact hct ⟨hp1, hgz⟩
          · exact ⟨⟨p, hp, hp1, hp2⟩, hgz⟩
      constructor
      · intro c
        rw [ihg c]
        rw [if_congr (hcond_iff c) rfl rfl]
      · refine ⟨L', hL'q, ?_⟩
        intro c
        rw [hL'mem c, hcond_iff c]
instance radjTDec (c c' : Nat × Nat) : Decidable (RAdjT c c') := by
  rw [RAdjT]
  infer_instance

theorem tdgDirs_mem {i j : Nat} (hi : i < ROOM_HEIGHT) (hj : j < ROOM_WIDTH)
    (c : Nat × Nat) :
    (∃ p ∈ tdgDirs i j, p.1 = true ∧ p.2 = c) ↔ RAdjT (i, j) c := by
  rw [tdgDirs]
  constructor
  · rintro ⟨p, hp, hp1, hp2⟩
    simp only [List.mem_cons, List.not_mem_nil, or_false] at hp
    rcases hp with hp | hp | hp | hp
    · subst hp
      simp only [decide_eq_true_eq] at hp1
      subst hp2
      exact ⟨hi, hj, by simp only []; omega, hj, Or.inl ⟨by simp only []; omega, rfl⟩⟩
    · subst hp
      simp only [decide_eq_true_eq] at hp1
      subst hp2
      exact ⟨hi, hj, hi, by simp only []; omega,
        Or.inr (Or.inl ⟨by simp only []; omega, rfl⟩)⟩
    · subst hp
      simp only [decide_eq_true_eq] at hp1
      subst hp2
      refine ⟨hi, hj, hi, ?_, Or.inr (Or.inr (Or.inl ⟨rfl, rfl⟩))⟩
      rw [ROOM_WIDTH] at hp1 ⊢
      simp only []
      omega
    · subst hp
      simp only [decide_eq_true_eq] at hp1
      subst hp2
      refine ⟨hi, hj, ?_, hj, Or.inr (Or.inr (Or.inr ⟨rfl, rfl⟩))⟩
      rw [ROOM_HEIGHT] at hp1 ⊢
      simp only []
      omega
  · intro hadj
    rcases radjT_cases hadj with ⟨rfl, hb⟩ | ⟨rfl, hb⟩ | ⟨rfl, hb⟩ | ⟨rfl, hb⟩
    · exact ⟨(decide (0 < i), (i - 1, j)), List.mem_cons_self _ _, by
        simp only [decide_eq_true_eq]
        exact hb, rfl⟩
    · refine ⟨(decide (0 < j), (i, j - 1)), ?_, by
        simp only [decide_eq_true_eq]
        exact hb, rfl⟩
      exact List.mem_cons_of_mem _ (List.mem_cons_self _ _)
    · refine ⟨(decide (j < ROOM_WIDTH - 1), (i, j + 1)), ?_, by
        simp only [decide_eq_true_eq]
        exact hb, rfl⟩
      exact List.mem_cons_of_mem _ (List.mem_cons_of_mem _ (List.mem_cons_self _ _))
    · refine ⟨(decide (i < ROOM_HEIGHT - 1), (i + 1, j)), ?_, by
        simp only [decide_eq_true_eq]
        exact hb, rfl⟩
      exact List.mem_cons_of_mem _ (List.mem_cons_of_mem _
        (List.mem_cons_of_mem _ (List.mem_cons_self _ _)))

theorem tdgStep_spec (g : RGrid) {i j : Nat} (rest : List (Nat × Nat))
    (hi : i < ROOM_HEIGHT) (hj : j < ROOM_WIDTH) :
    (∀ c : Nat × Nat, (tdgStep g i j rest).1 c.1 c.2 =
      if RAdjT (i, j) c ∧ g c.1 c.2 = 0 then g i j - 1 else g c.1 c.2) ∧
    (∃ L, (tdgStep g i j rest).2 = rest ++ L ∧
      ∀ c : Nat × Nat, c ∈ L ↔ RAdjT (i, j) c ∧ g c.1 c.2 = 0) := by
  have hsrc : ∀ p ∈ tdgDirs i j, p.1 = true → p.2 ≠ (i, j) := by
    intro p hp hp1
    rw [tdgDirs] at hp
    simp only [List.mem_cons, List.not_mem_nil, or_false] at hp
    rcases hp with hp | hp | hp | hp <;> subst hp <;>
      simp only [decide_eq_true_eq] at hp1 <;>
      intro hc <;> rw [Prod.mk.injEq] at hc <;> omega
  have hpw : List.Pairwise (fun p p' => p.1 = true → p'.1 = true → p.2 ≠ p'.2)
      (tdgDirs i j) := by
    rw [tdgDirs]
    refine List.Pairwise.cons ?_ (List.Pairwise.cons ?_ (List.Pairwise.cons ?_
      (List.pairwise_singleton _ _)))
    · intro p hp h1 h2
      simp only [List.mem_cons, List.not_mem_nil, or_false] at hp
      simp only [decide_eq_true_eq] at h1
      rcases hp with hp | hp | hp <;> subst hp <;>
        simp only [decide_eq_true_eq] at h2 <;>
        intro hc <;> rw [Prod.mk.injEq] at hc <;> omega
    · intro p hp h1 h2
      simp only [List.mem_cons, List.not_mem_nil, or_false] at hp
      simp only [decide_eq_true_eq] at h1
      rcases hp with hp | hp <;> subst hp <;>
        simp only [decide_eq_true_eq] at h2 <;>
        intro hc <;> rw [Prod.mk.injEq] at hc <;> omega
    · intro p hp h1 h2
      simp only [List.mem_singleton] at hp
      subst hp
      simp only [decide_eq_true_eq] at h1 h2
      intro hc
      rw [Prod.mk.injEq] at hc
      omega
  obtain ⟨hgrid, L, hLq, hLmem⟩ := tdgExpandList_spec (tdgDirs i j) g rest hsrc hpw
  refine ⟨?_, L, by rw [tdgStep]; exact hLq, ?_⟩
  · intro c
    rw [tdgStep, hgrid c]
    rw [if_congr (by rw [tdgDirs_mem hi hj]) rfl rfl]
  · intro c
    rw [hLmem c, tdgDirs_mem hi hj]
theorem i32MAX_sub_ne_zero {n : Nat} (hn : n ≤ 134) : i32MAX - (n : Int) ≠ 0 := by
  rw [i32MAX]
  omega

theorem i32MAX_ne_zero : i32MAX ≠ 0 := by
  rw [i32MAX]
  omega

/-- The loop invariant of the distance BFS: `d` is the depth of the
frontier's first layer `A`; `B` is the partially built next layer.  All
writes so far record exact BFS distances. -/
structure TInv (g0 : RGrid) (t : Nat × Nat) (g : RGrid) (d : Nat)
    (A B : List (Nat × Nat)) : Prop where
  tval : g t.1 t.2 = i32MAX
  untouched : ∀ c : Nat × Nat, c ≠ t → g0 c.1 c.2 ≠ 0 → g c.1 c.2 = g0 c.1 c.2
  vis : ∀ c : Nat × Nat, c ≠ t → g0 c.1 c.2 = 0 → g c.1 c.2 ≠ 0 →
    ∃ n, isDist g0 t c n ∧ g c.1 c.2 = i32MAX - n ∧ n ≤ d + 1
  covered : ∀ c n, isDist g0 t c n → n ≤ d → c = t ∨ g c.1 c.2 ≠ 0
  aMem : ∀ c ∈ A, isDist g0 t c d ∧ g c.1 c.2 = i32MAX - d
  bMem : ∀ c ∈ B, isDist g0 t c (d + 1) ∧ g c.1 c.2 = i32MAX - (d + 1 : Nat)
  bCov : ∀ c, isDist g0 t c (d + 1) →
    c ∈ B ∨ (g c.1 c.2 = 0 ∧ ∃ a ∈ A, RAdjT a c)

theorem tdg_init {g0 : RGrid} {t : Nat × Nat} (ht1 : t.1 < ROOM_HEIGHT)
    (ht2 : t.2 < ROOM_WIDTH) : TInv g0 t (g0.set t.1 t.2 i32MAX) 0 [t] [] := by
  have hset_ne : ∀ c : Nat × Nat, c ≠ t → (g0.set t.1 t.2 i32MAX) c.1 c.2 = g0 c.1 c.2 := by
    intro c hc
    refine RGrid.set_ne ?_
    rintro ⟨ha, hb⟩
    exact hc (Prod.ext ha hb)
  refine ⟨RGrid.set_eq, ?_, ?_, ?_, ?_, ?_, ?_⟩
  · intro c hc _
    exact hset_ne c hc
  · intro c hc hg0 hg
    rw [hset_ne c hc] at hg
    exact absurd hg0 hg
  · intro c n hn hle
    have : n = 0 := by omega
    subst this
    exact Or.inl (reach_zero_eq hn.1)
  · intro c hc
    simp only [List.mem_singleton] at hc
    subst hc
    refine ⟨isDist_target, ?_⟩
    rw [RGrid.set_eq]
    simp
  · intro c hc
    cases hc
  · intro c hc
    obtain ⟨c', hc', hadj, hg0⟩ := isDist_pred hc
    have hct : c' = t := reach_zero_eq hc'.1
    subst hct
    have hcnt : c ≠ c' := by
      intro hh
      subst hh
      have := isDist_unique hc hc'
      omega
    refine Or.inr ⟨?_, c', List.mem_singleton_self _, hadj⟩
    rw [hset_ne c hcnt]
    exact hg0

theorem tdg_rotate {g0 : RGrid} {t : Nat × Nat} (ht1 : t.1 < ROOM_HEIGHT)
    (ht2 : t.2 < ROOM_WIDTH) {g : RGrid} {d : Nat} {B : List (Nat × Nat)}
    (hinv : TInv g0 t g d [] B) : TInv g0 t g (d + 1) B [] := by
  refine ⟨hinv.tval, hinv.untouched, ?_, ?_, ?_, ?_, ?_⟩
  · intro c hc hg0 hg
    obtain ⟨n, hn, hv, hle⟩ := hinv.vis c hc hg0 hg
    exact ⟨n, hn, hv, by omega⟩
  · intro c n hn hle
    rcases Nat.lt_or_ge n (d + 1) with hlt | hge
    · exact hinv.covered c n hn (by omega)
    · have : n = d + 1 := by omega
      subst this
      rcases hinv.bCov c hn with hB | ⟨-, a', hmem, -⟩
      · right
        rw [(hinv.bMem c hB).2]
        exact i32MAX_sub_ne_zero (isDist_le_134 ht1 ht2 hn)
      · cases hmem
  · intro c hc
    exact hinv.bMem c hc
  · intro c hc
    cases hc
  · intro c hc
    obtain ⟨c', hc', hadj, hg0c⟩ := isDist_pred hc
    rcases hinv.bCov c' hc' with hB | ⟨-, a', hmem, -⟩
    · have hcne : c ≠ t := by
        intro hh
        subst hh
        have := isDist_unique hc isDist_target
        omega
      have hgz : g c.1 c.2 = 0 := by
        by_contra hgne
        obtain ⟨n, hn, -, hle⟩ := hinv.vis c hcne hg0c hgne
        have := isDist_unique hc hn
        omega
      exact Or.inr ⟨hgz, c', hB, hadj⟩
    · cases hmem

theorem tdgStep_inv {g0 : RGrid} {t : Nat × Nat} (ht1 : t.1 < ROOM_HEIGHT)
    (ht2 : t.2 < ROOM_WIDTH) {g : RGrid} {d : Nat} {a : Nat × Nat}
    {A B : List (Nat × Nat)} (hinv : TInv g0 t g d (a :: A) B) :
    ∃ L, (tdgStep g a.1 a.2 (A ++ B)).2 = A ++ (B ++ L) ∧
      TInv g0 t (tdgStep g a.1 a.2 (A ++ B)).1 d A (B ++ L) := by
  obtain ⟨had, hav⟩ := hinv.aMem a (List.mem_cons_self _ _)
  have hdle : d ≤ 134 := isDist_le_134 ht1 ht2 had
  obtain ⟨hab1, hab2⟩ := reach_bounds ht1 ht2 had.1
  obtain ⟨hgrid, L, hLq, hLmem⟩ := tdgStep_spec g (A ++ B) hab1 hab2
  have hpa : (a.1, a.2) = a := by
    rcases a with ⟨x, y⟩
    rfl
  have hnew : ∀ c : Nat × Nat, RAdjT a c → g c.1 c.2 = 0 →
      isDist g0 t c (d + 1) ∧ c ≠ t ∧ g0 c.1 c.2 = 0 := by
    intro c hadj hgz
    have hcne : c ≠ t := by
      intro hh
      subst hh
      rw [hinv.tval] at hgz
      exact i32MAX_ne_zero hgz
    have hg0z : g0 c.1 c.2 = 0 := by
      by_contra hg0ne
      rw [hinv.untouched c hcne hg0ne] at hgz
      exact hg0ne hgz
    refine ⟨⟨ReachN.step had.1 hadj hg0z, ?_⟩, hcne, hg0z⟩
    intro m hm
    obtain ⟨m', hm', hle⟩ := isDist_of_reach hm
    rcases Nat.lt_or_ge m' (d + 1) with hlt | hge
    · exfalso
      rcases hinv.covered c m' hm' (by omega) with hh | hh
      · exact hcne hh
      · exact hh hgz
    · omega
  have hval : g a.1 a.2 - 1 = i32MAX - (d + 1 : Nat) := by
    rw [hav]
    push_cast
    ring
  refine ⟨L, by rw [hLq, List.append_assoc], ?_⟩
  refine ⟨?_, ?_, ?_, ?_, ?_, ?_, ?_⟩
  · rw [hgrid t, if_neg (by
      rintro ⟨-, hgz⟩
      rw [hinv.tval] at hgz
      exact i32MAX_ne_zero hgz)]
    exact hinv.tval
  · intro c hc hg0
    have := hinv.untouched c hc hg0
    rw [hgrid c, if_neg (by
      rintro ⟨-, hgz⟩
      rw [this] at hgz
      exact hg0 hgz)]
    exact this
  · intro c hc hg0 hg
    rw [hgrid c] at hg ⊢
    split_ifs at hg ⊢ with hcond
    · rw [hpa] at hcond
      obtain ⟨hd1, -, -⟩ := hnew c hcond.1 hcond.2
      exact ⟨d + 1, hd1, hval, le_refl _⟩
    · obtain ⟨n, hn, hv, hle⟩ := hinv.vis c hc hg0 hg
      exact ⟨n, hn, hv, hle⟩
  · intro c n hn hle
    rcases hinv.covered c n hn hle with hh | hh
    · exact Or.inl hh
    · right
      rw [hgrid c, if_neg (by
        rintro ⟨-, hgz⟩
        exact hh hgz)]
      exact hh
  · intro c hc
    obtain ⟨hd, hv⟩ := hinv.aMem c (List.mem_cons_of_mem _ hc)
    refine ⟨hd, ?_⟩
    rw [hgrid c, if_neg (by
      rintro ⟨-, hgz⟩
      rw [hv] at hgz
      exact i32MAX_sub_ne_zero (by omega) hgz)]
    exact hv
  · intro c hc
    rcases List.mem_append.mp hc with hc | hc
    · obtain ⟨hd, hv⟩ := hinv.bMem c hc
      refine ⟨hd, ?_⟩
      rw [hgrid c, if_neg (by
        rintro ⟨-, hgz⟩
        rw [hv] at hgz
        exact i32MAX_sub_ne_zero (isDist_le_134 ht1 ht2 hd) hgz)]
      exact hv
    · obtain ⟨hadj, hgz⟩ := (hLmem c).mp hc
      rw [hpa] at hadj
      obtain ⟨hd1, -, -⟩ := hnew c hadj hgz
      refine ⟨hd1, ?_⟩
      rw [hgrid c, if_pos ⟨by rw [hpa]; exact hadj, hgz⟩]
      exact hval
  · intro c hc
    rcases hinv.bCov c hc with hB | ⟨hgz, a', hmem, hadj⟩
    · exact Or.inl (List.mem_append.mpr (Or.inl hB))
    · rcases List.mem_cons.mp hmem with ha' | ha'
      · subst ha'
        left
        refine List.mem_append.mpr (Or.inr ((hLmem c).mpr ⟨by rw [hpa]; exact hadj, hgz⟩))
      · by_cases hw : RAdjT a c
        · left
          exact List.mem_append.mpr (Or.inr ((hLmem c).mpr ⟨by rw [hpa]; exact hw, hgz⟩))
        · right
          refine ⟨?_, a', ha', hadj⟩
          rw [hgrid c, if_neg (by
            rintro ⟨hadj', -⟩
            rw [hpa] at hadj'
            exact hw hadj')]
          exact hgz
/-- What the distance BFS guarantees about its output grid: the target
tile holds `i32::MAX`; originally nonzero cells are unchanged; an
originally zero cell reachable from the target through zero cells holds
`i32::MAX` minus its exact BFS distance, and an unreachable one still
holds 0. -/
def TFinal (g0 : RGrid) (t : Nat × Nat) (g' : RGrid) : Prop :=
  g' t.1 t.2 = i32MAX ∧
  (∀ c : Nat × Nat, c ≠ t → g0 c.1 c.2 ≠ 0 → g' c.1 c.2 = g0 c.1 c.2) ∧
  (∀ c : Nat × Nat, c ≠ t → g0 c.1 c.2 = 0 →
    ((∃ n, ReachN g0 t n c) → ∃ n, isDist g0 t c n ∧ g' c.1 c.2 = i32MAX - n) ∧
    ((¬∃ n, ReachN g0 t n c) → g' c.1 c.2 = 0))

theorem tdg_final {g0 : RGrid} {t : Nat × Nat} (ht1 : t.1 < ROOM_HEIGHT)
    (ht2 : t.2 < ROOM_WIDTH) {g : RGrid} {d : Nat} (hinv : TInv g0 t g d [] []) :
    TFinal g0 t g := by
  have hnodeep : ∀ c n, isDist g0 t c n → n ≤ d := by
    intro c n hn
    by_contra hgt
    push_neg at hgt
    obtain ⟨c', hc'⟩ := isDist_downward hn (d + 1) (by omega)
    rcases hinv.bCov c' hc' with hB | ⟨-, a', hmem, -⟩
    · cases hB
    · cases hmem
  refine ⟨hinv.tval, hinv.untouched, ?_⟩
  intro c hc hg0
  constructor
  · rintro ⟨n, hr⟩
    obtain ⟨m, hm, -⟩ := isDist_of_reach hr
    rcases hinv.covered c m hm (hnodeep c m hm) with hh | hh
    · exact absurd hh hc
    · obtain ⟨n', hn', hv, -⟩ := hinv.vis c hc hg0 hh
      exact ⟨n', hn', hv⟩
  · intro hunreach
    by_contra hgne
    obtain ⟨n, hn, -, -⟩ := hinv.vis c hc hg0 hgne
    exact hunreach ⟨n, hn.1⟩

theorem tdgLoop_final {g0 : RGrid} {t : Nat × Nat} (ht1 : t.1 < ROOM_HEIGHT)
    (ht2 : t.2 < ROOM_WIDTH) :
    ∀ (fuel : Nat) (g : RGrid) (A B : List (Nat × Nat)) (d : Nat) (g' : RGrid),
    tdgLoop fuel g (A ++ B) = some g' → TInv g0 t g d A B → TFinal g0 t g'
  | 0, g, A, B, d, g', h, hinv => by
    rw [tdgLoop] at h
    split_ifs at h with hq
    cases h
    obtain ⟨hA, hB⟩ := List.append_eq_nil.mp (List.isEmpty_iff.mp hq)
    subst hA
    subst hB
    exact tdg_final ht1 ht2 hinv
  | fuel + 1, g, [], [], d, g', h, hinv => by
    rw [List.append_nil, tdgLoop] at h
    cases h
    exact tdg_final ht1 ht2 hinv
  | fuel + 1, g, [], (b :: B'), d, g', h, hinv => by
    have hrot := tdg_rotate ht1 ht2 hinv
    rw [List.nil_append, tdgLoop] at h
    rcases b with ⟨bi, bj⟩
    obtain ⟨L, hq, hinv'⟩ := tdgStep_inv ht1 ht2 hrot
    rw [List.append_nil] at hq hinv'
    have h' : tdgLoop fuel (tdgStep g (bi, bj).1 (bi, bj).2 B').1
        (tdgStep g (bi, bj).1 (bi, bj).2 B').2 = some g' := h
    rw [hq, List.nil_append] at h'
    rw [show ([] : List (Nat × Nat)) ++ L = L from rfl] at hinv'
    exact tdgLoop_final ht1 ht2 fuel _ B' L (d + 1) g' h' hinv'
  | fuel + 1, g, (a :: A₂), B, d, g', h, hinv => by
    rw [List.cons_append, tdgLoop] at h
    rcases a with ⟨ai, aj⟩
    obtain ⟨L, hq, hinv'⟩ := tdgStep_inv ht1 ht2 hinv
    have h' : tdgLoop fuel (tdgStep g (ai, aj).1 (ai, aj).2 (A₂ ++ B)).1
        (tdgStep g (ai, aj).1 (ai, aj).2 (A₂ ++ B)).2 = some g' := h
    rw [hq] at h'
    exact tdgLoop_final ht1 ht2 fuel _ A₂ (B ++ L) d g' h' hinv'

/-- C4: `get_target_distance_grid` returns the grid unchanged when the
target tile is out of bounds; otherwise the target tile holds
`i32::MAX`, every originally-0 cell reachable from the target through
originally-0 cells holds `i32::MAX` minus its exact BFS tile distance,
and every other cell (blocked sentinel, nonzero, or unreachable)
retains its original value.  (The model is pure, mirroring that the
Rust method copies `self.grid` and never mutates the room; the screen
extent hypotheses exclude the degenerate zero-size screen, where the
float division the source performs has no rational counterpart.) -/
theorem get_target_distance_grid_spec (room : Room) (target : ℚ × ℚ) (sw sh : ℚ)
    (fuel : Nat) (g' : RGrid) (hsw : 0 < sw) (hsh : 0 < sh)
    (h : get_target_distance_grid room target sw sh fuel = some g') :
    (¬((pos_to_room_coords target sw sh).1 < ROOM_HEIGHT ∧
        (pos_to_room_coords target sw sh).2 < ROOM_WIDTH) → g' = room.grid) ∧
    (((pos_to_room_coords target sw sh).1 < ROOM_HEIGHT ∧
        (pos_to_room_coords target sw sh).2 < ROOM_WIDTH) →
      g' (pos_to_room_coords target sw sh).1 (pos_to_room_coords target sw sh).2 = i32MAX ∧
      (∀ c : Nat × Nat, c ≠ pos_to_room_coords target sw sh →
        room.grid c.1 c.2 ≠ 0 → g' c.1 c.2 = room.grid c.1 c.2) ∧
      (∀ c : Nat × Nat, c ≠ pos_to_room_coords target sw sh → room.grid c.1 c.2 = 0 →
        ((∃ n, ReachN room.grid (pos_to_room_coords target sw sh) n c) →
          ∃ n, isDist room.grid (pos_to_room_coords target sw sh) c n ∧
            g' c.1 c.2 = i32MAX - n) ∧
        ((¬∃ n, ReachN room.grid (pos_to_room_coords target sw sh) n c) →
          g' c.1 c.2 = 0))) := by
  rw [get_target_distance_grid] at h
  by_cases hb : (pos_to_room_coords target sw sh).1 < ROOM_HEIGHT ∧
      (pos_to_room_coords target sw sh).2 < ROOM_WIDTH
  · rw [if_pos hb] at h
    have hfin : TFinal room.grid (pos_to_room_coords target sw sh) g' := by
      refine tdgLoop_final hb.1 hb.2 fuel _ [pos_to_room_coords target sw sh] [] 0 g' ?_
        (tdg_init hb.1 hb.2)
      rw [List.append_nil]
      exact h
    exact ⟨fun hc => absurd hb hc, fun _ => hfin⟩
  · rw [if_neg hb] at h
    cases h
    exact ⟨fun _ => rfl, fun hc => absurd hc hb⟩
/-! ### Concrete distance-grid run (witness): a mostly-blocked room with
two free tiles, target at the room centre tile (4,7). -/

theorem tdg_coords_eval : pos_to_room_coords (640, 360) 1280 720 = (4, 7) := by
  rw [pos_to_room_coords, ROOM_HEIGHT, ROOM_WIDTH]
  norm_num
  exact ⟨rfl, rfl⟩

def tRoomGrid : RGrid := fun i j => if i = 4 ∧ (j = 7 ∨ j = 8) then 0 else i32MIN

def tRoom : Room :=
  ⟨RoomTag.Empty, RoomState.Undiscovered, 15, 9, tRoomGrid, (0, 0), [], [], [], [], []⟩

def tdgOut : RGrid := (tRoomGrid.set 4 7 i32MAX).set 4 8 (i32MAX - 1)

theorem tdg_eval : get_target_distance_grid tRoom (640, 360) 1280 720 10 = some tdgOut := by
  rw [get_target_distance_grid]
  simp only [tdg_coords_eval]
  rfl

theorem get_target_distance_grid_spec_witness :
    (0 : ℚ) < 1280 ∧ (0 : ℚ) < 720 ∧
    ((¬((pos_to_room_coords (640, 360) 1280 720).1 < ROOM_HEIGHT ∧
        (pos_to_room_coords (640, 360) 1280 720).2 < ROOM_WIDTH) → tdgOut = tRoom.grid) ∧
      (((pos_to_room_coords (640, 360) 1280 720).1 < ROOM_HEIGHT ∧
          (pos_to_room_coords (640, 360) 1280 720).2 < ROOM_WIDTH) →
        tdgOut (pos_to_room_coords (640, 360) 1280 720).1
          (pos_to_room_coords (640, 360) 1280 720).2 = i32MAX ∧
        (∀ c : Nat × Nat, c ≠ pos_to_room_coords (640, 360) 1280 720 →
          tRoom.grid c.1 c.2 ≠ 0 → tdgOut c.1 c.2 = tRoom.grid c.1 c.2) ∧
        (∀ c : Nat × Nat, c ≠ pos_to_room_coords (640, 360) 1280 720 →
            tRoom.grid c.1 c.2 = 0 →
          ((∃ n, ReachN tRoom.grid (pos_to_room_coords (640, 360) 1280 720) n c) →
            ∃ n, isDist tRoom.grid (pos_to_room_coords (640, 360) 1280 720) c n ∧
              tdgOut c.1 c.2 = i32MAX - n) ∧
          ((¬∃ n, ReachN tRoom.grid (pos_to_room_coords (640, 360) 1280 720) n c) →
            tdgOut c.1 c.2 = 0)))) :=
  ⟨by norm_num, by norm_num,
    get_target_distance_grid_spec tRoom (640, 360) 1280 720 10 tdgOut
      (by norm_num) (by norm_num) tdg_eval⟩
end Puker
